import Mathlib

/-!
# The SQLite user-database driver of the relay (`dbd_sqlite.c`)

A shallow embedding of `src/apps/relay/dbdrivers/dbd_sqlite.c`.

* Threads (`pthread_t`) are natural numbers; `null_thread` is `0`, as in the source.
* The counters `read_threads` and `write_level` are C `int`s.  They are embedded as
  mathematical integers: each counts outstanding holds of the gate, and the C
  arithmetic agrees with the integers as long as fewer than `2^31` holds are
  outstanding at once.
* One pass through the body of the `while` loop of `sqlite_lock` runs under `rc_mutex`
  and is therefore atomic; it is the unit of interleaving between threads.
-/

namespace DbdSqlite

/-! ## Concurrency gate -/

/-- Thread identity, the C type `pthread_t`. -/
abbrev pthread_t := Nat

/-- The constant `null_thread` of the source (`0`). -/
def null_thread : pthread_t := 0

/-- The three file-scope variables `read_threads`, `write_level`, `write_thread`. -/
structure Gate where
  read_threads : Int
  write_level : Int
  write_thread : pthread_t
deriving DecidableEq, Repr

/-- The initial values of the three variables. -/
def Gate.idle : Gate := ⟨0, 0, null_thread⟩

/-- One pass through the body of the `while (!can_move)` loop of `sqlite_lock`, run by
thread `pths`: the returned flag is `can_move`; when it is `false` the thread goes on to
`pthread_cond_wait`. -/
def sqlite_lock_pass (write : Bool) (pths : pthread_t) (g : Gate) : Bool × Gate :=
  if write then
    if (g.write_thread = null_thread ∧ g.read_threads < 1) ∨ g.write_thread = pths then
      (true, { g with write_level := g.write_level + 1, write_thread := pths })
    else
      (false, g)
  else if g.write_thread = null_thread ∨ g.write_thread = pths then
    (true, { g with read_threads := g.read_threads + 1 })
  else
    (false, g)

/-- The whole of `sqlite_lock` when no other thread touches the gate while the caller
waits: the loop is run for at most `fuel` passes; `none` means the caller is still
waiting on `rc_cond` after that many passes. -/
def sqlite_lock : Nat → Bool → pthread_t → Gate → Option Gate
  | 0, _, _, _ => none
  | fuel + 1, write, pths, g =>
    if (sqlite_lock_pass write pths g).1 then some (sqlite_lock_pass write pths g).2
    else sqlite_lock fuel write pths (sqlite_lock_pass write pths g).2

/-- The function `sqlite_unlock`: the new gate and whether `pthread_cond_broadcast` was
called. -/
def sqlite_unlock (write : Bool) (g : Gate) : Gate × Bool :=
  if write then
    if g.write_level - 1 = 0 then
      ({ g with write_level := g.write_level - 1, write_thread := null_thread }, true)
    else
      ({ g with write_level := g.write_level - 1 }, false)
  else if g.read_threads - 1 = 0 then
    ({ g with read_threads := g.read_threads - 1 }, true)
  else
    ({ g with read_threads := g.read_threads - 1 }, false)

/-- The gate together with a record of who holds it: `held` lists one entry
`(thread, write)` per acquisition that has not been released yet. -/
structure GateSys where
  gate : Gate
  held : List (pthread_t × Bool)
deriving DecidableEq, Repr

/-- A call made on the gate by some thread. -/
inductive GateEvent where
  | lock (t : pthread_t) (write : Bool)
  | unlock (t : pthread_t) (write : Bool)
deriving DecidableEq, Repr

/-- One scheduling step.  A `lock` event is one pass of `sqlite_lock` by a real thread
(`t ≠ null_thread`); if the pass is not admitted nothing changes and the thread keeps
waiting.  An `unlock` event is enabled only for a thread that holds the gate in that
mode. -/
def gate_step (s : GateSys) : GateEvent → Option GateSys
  | .lock t write =>
    if t = null_thread then none
    else if (sqlite_lock_pass write t s.gate).1 then
      some ⟨(sqlite_lock_pass write t s.gate).2, (t, write) :: s.held⟩
    else some ⟨(sqlite_lock_pass write t s.gate).2, s.held⟩
  | .unlock t write =>
    if (t, write) ∈ s.held then some ⟨(sqlite_unlock write s.gate).1, s.held.erase (t, write)⟩
    else none

/-- Run a schedule of events; `none` if some event of the schedule is not enabled. -/
def gate_run : List GateEvent → GateSys → Option GateSys
  | [], s => some s
  | e :: es, s => (gate_step s e).bind (gate_run es)

/-- The start state: idle gate, nobody holds it. -/
def GateSys.init : GateSys := ⟨Gate.idle, []⟩

/-- Number of outstanding holds in the given mode. -/
def holds (write : Bool) (held : List (pthread_t × Bool)) : Nat :=
  held.countP (fun h => h.2 == write)

/-- The invariant carried along a run: the counters count the holds, a null writer
means no write hold, and a non-null writer is the only holder. -/
def GateInv (s : GateSys) : Prop :=
  s.gate.read_threads = (holds false s.held : Int) ∧
  s.gate.write_level = (holds true s.held : Int) ∧
  (s.gate.write_thread = null_thread → holds true s.held = 0) ∧
  (s.gate.write_thread ≠ null_thread →
    0 < holds true s.held ∧ ∀ h ∈ s.held, h.1 = s.gate.write_thread)

/-- What the admission test of `sqlite_lock` checks in read mode. -/
def read_admitted (g : Gate) (t : pthread_t) : Prop :=
  g.write_thread = null_thread ∨ g.write_thread = t

/-- What the admission test of `sqlite_lock` checks in write mode, in the words of the
contract: no writer and no reader, or the caller is the writer. -/
def write_admitted (g : Gate) (t : pthread_t) : Prop :=
  (g.write_thread = null_thread ∧ g.read_threads = 0) ∨ g.write_thread = t

instance (g : Gate) (t : pthread_t) : Decidable (read_admitted g t) := by
  unfold read_admitted; infer_instance

instance (g : Gate) (t : pthread_t) : Decidable (write_admitted g t) := by
  unfold write_admitted; infer_instance

/-! ## Strings, statement text and the storage engine

The SQLite library is outside the repository.  It is embedded as a small storage engine
that understands exactly the statement texts this driver can produce: a statement text
is cut at its quote characters, the pieces outside quotes are matched against the SQL
the driver writes, and the pieces inside quotes are the string literals.  Every column
holds text (no `NULL`), as in every row written through the driver, and a table that
does not exist yet is not distinguished from an empty one; a backend that refuses a
statement for any reason is covered by `Fault`. -/

/-- C strings. -/
abbrev Str := List Char

/-- A C string literal. -/
def lit (s : String) : Str := s.toList

/-- The quote character of SQL string literals. -/
def QUOTE : Char := '\''

/-- The text `'%s'` of a format string: the argument between two quotes. -/
def quoted (s : Str) : Str := QUOTE :: (s ++ [QUOTE])

/-- The text left in the buffer by `snprintf(buf, size, ...)` when the expanded format
is `text`: at most `size - 1` characters. -/
def snprintf (size : Nat) (text : Str) : Str := text.take (size - 1)

/-- The text of `%lu` and `%llu`. -/
def decimal (n : Nat) : Str := (Nat.toDigits 10 n)

/-- Cut a statement text at every quote character. -/
def split_quotes : Str → List Str
  | [] => [[]]
  | c :: cs =>
    if c = QUOTE then [] :: split_quotes cs
    else match split_quotes cs with
      | [] => [[c]]
      | p :: ps => (c :: p) :: ps

/-- A row of a table or of a result: the column texts in order. -/
abbrev Row := List Str

/-- The text of column `i` of a row, `sqlite3_column_text(st, i)`. -/
def sqlite3_column_text (r : Row) (i : Nat) : Str := r.getD i []

/-- The eight tables created by `init_sqlite_database`. -/
inductive Table where
  | turnusers_lt | turn_secret | allowed_peer_ip | denied_peer_ip
  | turn_origin_to_realm | turn_realm_option | oauth_key | admin_user
deriving DecidableEq, Repr

/-- The durable store: the rows of each table, columns in the order of the
`CREATE TABLE` statement, rows in insertion order. -/
structure Db where
  turnusers_lt : List Row
  turn_secret : List Row
  allowed_peer_ip : List Row
  denied_peer_ip : List Row
  turn_origin_to_realm : List Row
  turn_realm_option : List Row
  oauth_key : List Row
  admin_user : List Row
deriving DecidableEq, Repr

/-- The rows of a table. -/
def Db.get (db : Db) : Table → List Row
  | .turnusers_lt => db.turnusers_lt
  | .turn_secret => db.turn_secret
  | .allowed_peer_ip => db.allowed_peer_ip
  | .denied_peer_ip => db.denied_peer_ip
  | .turn_origin_to_realm => db.turn_origin_to_realm
  | .turn_realm_option => db.turn_realm_option
  | .oauth_key => db.oauth_key
  | .admin_user => db.admin_user

/-- Replace the rows of a table. -/
def Db.set (db : Db) (t : Table) (rows : List Row) : Db :=
  match t with
  | .turnusers_lt => { db with turnusers_lt := rows }
  | .turn_secret => { db with turn_secret := rows }
  | .allowed_peer_ip => { db with allowed_peer_ip := rows }
  | .denied_peer_ip => { db with denied_peer_ip := rows }
  | .turn_origin_to_realm => { db with turn_origin_to_realm := rows }
  | .turn_realm_option => { db with turn_realm_option := rows }
  | .oauth_key => { db with oauth_key := rows }
  | .admin_user => { db with admin_user := rows }

/-- The columns of the primary key declared for each table, by position. -/
def primary_key : Table → List Nat
  | .turnusers_lt => [0, 1]
  | .turn_secret => [0, 1]
  | .allowed_peer_ip => [0, 1]
  | .denied_peer_ip => [0, 1]
  | .turn_origin_to_realm => [0]
  | .turn_realm_option => [0, 1]
  | .oauth_key => [0]
  | .admin_user => [0]

/-- A prepared statement.  Columns are given by position in the table. -/
inductive Stmt where
  /-- Statement `select cols from table where col='v' and ... order by cols`. -/
  | select (table : Table) (cols : List Nat) (conds : List (Nat × Str)) (order : List Nat)
  /-- Statement `insert or replace into table (...) values (...)`: the row in table
  column order. -/
  | upsert (table : Table) (row : Row)
  /-- Statement `delete from table where col='v' and ...`. -/
  | delete (table : Table) (conds : List (Nat × Str))
deriving DecidableEq, Repr

/-- Whether a row satisfies every `col='v'` condition. -/
def row_matches (conds : List (Nat × Str)) (r : Row) : Bool :=
  conds.all (fun c => sqlite3_column_text r c.1 == c.2)

/-- The texts of the given columns of a row. -/
def project (cols : List Nat) (r : Row) : Row := cols.map (sqlite3_column_text r)

/-- Strict order of two texts under the `BINARY` collation: byte-wise comparison. -/
def str_lt : Str → Str → Bool
  | [], [] => false
  | [], _ :: _ => true
  | _ :: _, [] => false
  | a :: as, b :: bs => a.toNat < b.toNat || (a == b && str_lt as bs)

/-- Order of two rows under `order by`: the key columns compared one after the other. -/
def key_le : List Str → List Str → Bool
  | [], _ => true
  | _ :: _, [] => false
  | a :: as, b :: bs => str_lt a b || (a == b && key_le as bs)

/-- Insert a row in a list sorted by the `order by` columns, after the rows that are not
greater. -/
def insert_by (order : List Nat) (r : Row) : List Row → List Row
  | [] => [r]
  | x :: xs =>
    if key_le (project order x) (project order r) then x :: insert_by order r xs
    else r :: x :: xs

/-- The rows sorted by the `order by` columns. -/
def sort_rows (order : List Nat) : List Row → List Row
  | [] => []
  | r :: rs => insert_by order r (sort_rows order rs)

/-- The rows a `select` statement delivers, in delivery order.  With `order by` the order
is that of the key columns.  Without it the backend promises no order; this store answers
in the order of the table, which is one of the orders the backend may give, and results
about such a statement are stated up to the order of the rows. -/
def Stmt.rows (db : Db) : Stmt → List Row
  | .select table cols conds order =>
    let found := (db.get table).filter (row_matches conds)
    ((if order = [] then found else sort_rows order found).map (project cols))
  | .upsert _ _ => []
  | .delete _ _ => []

/-- The number of result columns, `sqlite3_column_count`. -/
def Stmt.column_count : Stmt → Nat
  | .select _ cols _ _ => cols.length
  | .upsert _ _ => 0
  | .delete _ _ => 0

/-- The store after a statement has been stepped to completion. -/
def Stmt.exec (db : Db) : Stmt → Db
  | .select _ _ _ _ => db
  | .upsert table row =>
    db.set table
      ((db.get table).filter
        (fun r => !(project (primary_key table) r == project (primary_key table) row))
        ++ [row])
  | .delete table conds => db.set table ((db.get table).filter (fun r => !(row_matches conds r)))

/-- Read the piece `,<digits>,<digits>,` that stands between the quoted values of the
`oauth_key` insert. -/
def parse_two_numbers (s : Str) : Option (Str × Str) :=
  match s with
  | ',' :: rest =>
    let a := rest.takeWhile Char.isDigit
    match rest.dropWhile Char.isDigit with
    | ',' :: rest2 =>
      let b := rest2.takeWhile Char.isDigit
      if rest2.dropWhile Char.isDigit = [','] ∧ a ≠ [] ∧ b ≠ [] then some (a, b) else none
    | _ => none
  | _ => none

/-- Statements without a string literal. -/
def parse0 (c0 : Str) : Option Stmt :=
  if c0 = lit "select ikm_key,timestamp,lifetime,as_rs_alg,realm,kid from oauth_key order by kid" then
    some (.select .oauth_key [1, 2, 3, 4, 5, 0] [] [0])
  else if c0 = lit "select name,realm from turnusers_lt order by realm,name" then
    some (.select .turnusers_lt [1, 0] [] [0, 1])
  else if c0 = lit "select value,realm from turn_secret order by realm,value" then
    some (.select .turn_secret [1, 0] [] [0, 1])
  else if c0 = lit "select origin,realm from turn_origin_to_realm order by realm,origin" then
    some (.select .turn_origin_to_realm [0, 1] [] [1, 0])
  else if c0 = lit "select realm,opt,value from turn_realm_option order by realm,opt" then
    some (.select .turn_realm_option [0, 1, 2] [] [0, 1])
  else if c0 = lit "select ip_range,realm from allowed_peer_ip" then
    some (.select .allowed_peer_ip [1, 0] [] [])
  else if c0 = lit "select ip_range,realm from denied_peer_ip" then
    some (.select .denied_peer_ip [1, 0] [] [])
  else if c0 = lit "select origin,realm from turn_origin_to_realm" then
    some (.select .turn_origin_to_realm [0, 1] [] [])
  else if c0 = lit "select realm,opt,value from turn_realm_option" then
    some (.select .turn_realm_option [0, 1, 2] [] [])
  else if c0 = lit "select name,realm from admin_user order by realm,name" then
    some (.select .admin_user [0, 1] [] [1, 0])
  else none

/-- Statements with one string literal `a`. -/
def parse1 (c0 a c1 : Str) : Option Stmt :=
  if c0 = lit "select value from turn_secret where realm=" ∧ c1 = [] then
    some (.select .turn_secret [1] [(0, a)] [])
  else if c0 = lit "select ikm_key,timestamp,lifetime,as_rs_alg,realm from oauth_key where kid="
      ∧ c1 = [] then
    some (.select .oauth_key [1, 2, 3, 4, 5] [(0, a)] [])
  else if c0 = lit "delete from oauth_key where kid = " ∧ c1 = [] then
    some (.delete .oauth_key [(0, a)])
  else if c0 = lit "select name,realm from turnusers_lt where realm=" ∧
      c1 = lit " order by name" then
    some (.select .turnusers_lt [1, 0] [(0, a)] [1])
  else if c0 = lit "select value,realm from turn_secret where realm=" ∧
      c1 = lit " order by value" then
    some (.select .turn_secret [1, 0] [(0, a)] [1])
  else if c0 = lit "delete from turn_secret where realm=" ∧ c1 = [] then
    some (.delete .turn_secret [(0, a)])
  else if c0 = lit "delete from turn_origin_to_realm where origin=" ∧ c1 = [] then
    some (.delete .turn_origin_to_realm [(0, a)])
  else if c0 = lit "select origin,realm from turn_origin_to_realm where realm=" ∧
      c1 = lit " order by origin" then
    some (.select .turn_origin_to_realm [0, 1] [(1, a)] [0])
  else if c0 = lit "select realm,opt,value from turn_realm_option where realm=" ∧
      c1 = lit " order by realm,opt" then
    some (.select .turn_realm_option [0, 1, 2] [(0, a)] [0, 1])
  else if c0 = lit "select realm,password from admin_user where name=" ∧ c1 = [] then
    some (.select .admin_user [1, 2] [(0, a)] [])
  else if c0 = lit "delete from admin_user where name=" ∧ c1 = [] then
    some (.delete .admin_user [(0, a)])
  else none

/-- Statements with two string literals `a`, `b`. -/
def parse2 (c0 a c1 b c2 : Str) : Option Stmt :=
  if c0 = lit "select hmackey from turnusers_lt where name=" ∧ c1 = lit " and realm=" ∧
      c2 = [] then
    some (.select .turnusers_lt [2] [(1, a), (0, b)] [])
  else if c0 = lit "delete from turnusers_lt where name=" ∧ c1 = lit " and realm=" ∧
      c2 = [] then
    some (.delete .turnusers_lt [(1, a), (0, b)])
  else if c0 = lit "delete from turn_secret where value=" ∧ c1 = lit " and realm=" ∧
      c2 = [] then
    some (.delete .turn_secret [(1, a), (0, b)])
  else if c0 = lit "insert or replace into turn_secret (realm,value) values(" ∧
      c1 = lit "," ∧ c2 = lit ")" then
    some (.upsert .turn_secret [a, b])
  else if c0 = lit "insert or replace into turn_origin_to_realm (origin,realm) values(" ∧
      c1 = lit "," ∧ c2 = lit ")" then
    some (.upsert .turn_origin_to_realm [a, b])
  else if c0 = lit "delete from allowed_peer_ip where realm = " ∧
      c1 = lit "  and ip_range = " ∧ c2 = [] then
    some (.delete .allowed_peer_ip [(0, a), (1, b)])
  else if c0 = lit "delete from denied_peer_ip where realm = " ∧
      c1 = lit "  and ip_range = " ∧ c2 = [] then
    some (.delete .denied_peer_ip [(0, a), (1, b)])
  else if c0 = lit "insert or replace into allowed_peer_ip (realm,ip_range) values(" ∧
      c1 = lit "," ∧ c2 = lit ")" then
    some (.upsert .allowed_peer_ip [a, b])
  else if c0 = lit "insert or replace into denied_peer_ip (realm,ip_range) values(" ∧
      c1 = lit "," ∧ c2 = lit ")" then
    some (.upsert .denied_peer_ip [a, b])
  else none

/-- Statements with three string literals. -/
def parse3 (c0 a c1 b c2 c c3 : Str) : Option Stmt :=
  if c0 = lit "insert or replace into turnusers_lt (realm,name,hmackey) values(" ∧
      c1 = lit "," ∧ c2 = lit "," ∧ c3 = lit ")" then
    some (.upsert .turnusers_lt [a, b, c])
  else if c0 = lit "insert or replace into turn_realm_option (realm,opt,value) values(" ∧
      c1 = lit "," ∧ c2 = lit "," ∧ c3 = lit ")" then
    some (.upsert .turn_realm_option [a, b, c])
  else if c0 = lit "insert or replace into admin_user (realm,name,password) values(" ∧
      c1 = lit "," ∧ c2 = lit "," ∧ c3 = lit ")" then
    some (.upsert .admin_user [b, a, c])
  else none

/-- The `oauth_key` insert: four string literals and two numbers. -/
def parse4 (c0 a c1 b c2 c c3 d c4 : Str) : Option Stmt :=
  if c0 = lit "insert or replace into oauth_key (kid,ikm_key,timestamp,lifetime,as_rs_alg,realm) values("
      ∧ c1 = lit "," ∧ c3 = lit "," ∧ c4 = lit ")" then
    match parse_two_numbers c2 with
    | some (ts, lt) => some (.upsert .oauth_key [a, b, ts, lt, c, d])
    | none => none
  else none

/-- The statement a text compiles to, if the engine accepts it. -/
def parse_statement (text : Str) : Option Stmt :=
  match split_quotes text with
  | [c0] => parse0 c0
  | [c0, a, c1] => parse1 c0 a c1
  | [c0, a, c1, b, c2] => parse2 c0 a c1 b c2
  | [c0, a, c1, b, c2, c, c3] => parse3 c0 a c1 b c2 c c3
  | [c0, a, c1, b, c2, c, c3, d, c4] => parse4 c0 a c1 b c2 c c3 d c4
  | _ => none

/-- What the backend does wrong while one statement is handled: `prepare` says that
`sqlite3_prepare` fails; `step = some n` says that the call number `n` (from `0`) of
`sqlite3_step` returns an error code instead of a row or `SQLITE_DONE`. -/
structure Fault where
  prepare : Bool
  step : Option Nat
deriving DecidableEq, Repr

/-- A backend that does nothing wrong. -/
def Fault.none : Fault := ⟨false, Option.none⟩

/-- The call `sqlite3_prepare(connection, text, -1, &st, 0)`: the prepared statement when
the result is `SQLITE_OK`. -/
def sqlite3_prepare (f : Fault) (text : Str) : Option Stmt :=
  if f.prepare then none else parse_statement text

/-- The single `sqlite3_step` of a write statement whose result the driver ignores: the
store afterwards.  A failed step changes nothing. -/
def step_write (f : Fault) (st : Stmt) (db : Db) : Db :=
  if f.step = some 0 then db else st.exec db

/-- The single `sqlite3_step` of a keyed lookup: the row when the result is
`SQLITE_ROW`. -/
def step_first (f : Fault) (st : Stmt) (db : Db) : Option Row :=
  if f.step = some 0 then none else (st.rows db).head?

/-- The loop `for (rc = sqlite3_step(st); rc != SQLITE_DONE; rc = sqlite3_step(st))` with
a body that handles a row and breaks on any other result: `n` is the number of the next
call of `sqlite3_step`, `rows` what is still to be delivered, `acc` the state the body
works on.  The flag of the result says that the loop ended in the error branch. -/
def step_loop {σ : Type} (f : Fault) (body : σ → Row → σ) : Nat → List Row → σ → σ × Bool
  | n, [], acc => if f.step = some n then (acc, true) else (acc, false)
  | n, r :: rs, acc =>
    if f.step = some n then (acc, true) else step_loop f body (n + 1) rs (body acc r)

/-! ## Numeric conversions of the C library

`long` and `unsigned long` are 64 bits wide and `int` is 32 bits wide, as on the LP64
platforms the relay is built for. -/

/-- The C predicate `isspace` in the "C" locale. -/
def isspace (c : Char) : Bool :=
  c = ' ' || c = '\t' || c = '\n' || c = '\r' || c.toNat = 11 || c.toNat = 12

/-- The value of the decimal digits a text starts with (`0` if there is none). -/
def digit_run (s : Str) : Nat :=
  (s.takeWhile Char.isDigit).foldl (fun n c => 10 * n + (c.toNat - 48)) 0

/-- The integer a text starts with: white space, an optional sign, decimal digits. -/
def leading_integer (s : Str) : Int :=
  match s.dropWhile isspace with
  | '-' :: r => - (digit_run r : Int)
  | '+' :: r => (digit_run r : Int)
  | r => (digit_run r : Int)

/-- The call `strtoul(s, NULL, 10)`: the value is reduced modulo `2^64` when it fits and
is `ULONG_MAX` when its magnitude does not. -/
def strtoul (s : Str) : Nat :=
  if 2 ^ 64 ≤ (leading_integer s).natAbs then 2 ^ 64 - 1
  else ((leading_integer s) % 2 ^ 64).toNat

/-- The calls `strtol(s, NULL, 10)` and `strtoll(s, NULL, 10)`: the value, clamped to the
range of `long`. -/
def strtol (s : Str) : Int :=
  if leading_integer s < -(2 ^ 63) then -(2 ^ 63)
  else if 2 ^ 63 ≤ leading_integer s then 2 ^ 63 - 1
  else leading_integer s

/-- Conversion of an integer to `int`. -/
def to_int (v : Int) : Int := (v + 2 ^ 31) % 2 ^ 32 - 2 ^ 31

/-- The call `atoi(s)`, which is `(int)strtol(s, NULL, 10)`. -/
def atoi (s : Str) : Int := to_int (strtol s)

/-! ## Process state -/

/-- A connection handle, the C type `sqlite3 *` (non-null). -/
abbrev sqlite3 := Nat

/-- Key material, the C type `hmackey_t`. -/
abbrev hmackey_t := List Nat

/-- A collection of strings, the C type `secrets_list_t`. -/
abbrev secrets_list_t := List Str

/-- The capacity fields of a realm, `options.perf_options` of `realm_params_t`. -/
structure perf_options_t where
  max_bps : Nat
  total_quota : Int
  user_quota : Int
deriving DecidableEq, Repr

/-- The fields of `oauth_key_data_raw`. -/
structure oauth_key_data_raw where
  kid : Str
  ikm_key : Str
  timestamp : Nat
  lifetime : Nat
  as_rs_alg : Str
  realm : Str
deriving DecidableEq, Repr

/-- Names that the source takes from headers and files outside `dbd_sqlite.c`. -/
structure Consts where
  /-- Size of the statement buffers. -/
  TURN_LONG_STRING_SIZE : Nat
  /-- Bound of the copy of an admin realm. -/
  STUN_MAX_REALM_SIZE : Nat
  /-- Bound of the copy of an admin password. -/
  STUN_MAX_PWD_SIZE : Nat
  /-- Value of the store kind that stands for "unknown". -/
  TURN_USERDB_TYPE_UNKNOWN : Int
  /-- Result of `get_hmackey_size(SHATYPE_DEFAULT)`. -/
  hmackey_size : Nat
  /-- Key bytes written by `convert_string_key_to_binary(kval, key, sz)`. -/
  convert_string_key_to_binary : Str → Nat → hmackey_t
  /-- Text stored by the macro `STRCPY` in each field of `oauth_key_data_raw`. -/
  STRCPY_kid : Str → Str
  /-- See `STRCPY_kid`. -/
  STRCPY_ikm_key : Str → Str
  /-- See `STRCPY_kid`. -/
  STRCPY_as_rs_alg : Str → Str
  /-- See `STRCPY_kid`. -/
  STRCPY_realm : Str → Str

/-- The return code `SQLITE_OK`. -/
def SQLITE_OK : Int := 0

/-- The in-memory realm state of the process and the defaults it is built from. -/
structure Live where
  /-- The defaults `turn_params.max_bps`, `turn_params.total_quota`,
  `turn_params.user_quota`. -/
  turn_params : perf_options_t
  /-- The live realm table. -/
  realms : List (Str × perf_options_t)
  /-- The live list of realms. -/
  realms_list : secrets_list_t
  /-- The published origin-to-realm mapping. -/
  o_to_realm : List (Str × Str)
deriving DecidableEq, Repr

/-- Everything the driver reads or writes. -/
structure World where
  /-- The gate variables. -/
  gate : Gate
  /-- Record of the calls of `sqlite_lock` that returned and of `sqlite_unlock`, oldest
  first. -/
  gate_calls : List GateEvent
  /-- The thread-specific values stored under `connection_key`. -/
  connection_key : List (pthread_t × sqlite3)
  /-- The configured location, `pud->userdb`. -/
  userdb : Str
  /-- The configured store kind, `turn_params.default_users_db.userdb_type`. -/
  userdb_type : Int
  /-- The flag `donot_print_connection_success`. -/
  donot_print_connection_success : Bool
  /-- Record of the statements handed to the backend by `init_sqlite_database`, oldest
  first. -/
  schema_statements : List Str
  /-- The durable store. -/
  db : Db
  /-- The in-memory realm state. -/
  live : Live
  /-- What `printf` has written. -/
  stdout : List Str
  /-- The connections handed to `sqlite3_close` by `sqlite_disconnect`. -/
  closed : List sqlite3
deriving DecidableEq, Repr

/-- What the surroundings do during one call of a driver operation. -/
structure Env where
  /-- Result of `getenv("HOME")`. -/
  HOME : Option Str
  /-- Result of `getpwuid(getuid())`: `none` for a null entry, otherwise its `pw_dir`,
  which may be null as well. -/
  pw_dir : Option (Option Str)
  /-- Return code of `sqlite3_open`. -/
  open_rc : Int
  /-- Connection stored by `sqlite3_open`, if any. -/
  open_conn : Option sqlite3
  /-- Faults while the first statement of the call is handled. -/
  fault : Fault
  /-- Faults while the second statement of the call is handled (`sqlite_reread_realms`). -/
  fault2 : Fault
deriving DecidableEq, Repr

/-- The home directory found by `fix_user_directory`: the environment first, the user
database second. -/
def home_directory (e : Env) : Option Str :=
  match e.HOME with
  | some h => some h
  | none =>
    match e.pw_dir with
    | none => none
    | some d => d

/-- The function `fix_user_directory`: the text left in the buffer `dir0`.  The buffer
is assumed large enough for the expanded text. -/
def fix_user_directory (e : Env) (dir0 : Str) : Str :=
  match dir0.dropWhile (fun c => c == ' ') with
  | '~' :: rest =>
    match home_directory e with
    | none => dir0
    | some home => home ++ rest
  | _ => dir0

/-- The eight statements of `init_sqlite_database`. -/
def schema : List Str :=
  [lit "CREATE TABLE turnusers_lt ( realm varchar(127) default '', name varchar(512), hmackey char(128), PRIMARY KEY (realm,name))",
   lit "CREATE TABLE turn_secret (realm varchar(127) default '', value varchar(127), primary key (realm,value))",
   lit "CREATE TABLE allowed_peer_ip (realm varchar(127) default '', ip_range varchar(256), primary key (realm,ip_range))",
   lit "CREATE TABLE denied_peer_ip (realm varchar(127) default '', ip_range varchar(256), primary key (realm,ip_range))",
   lit "CREATE TABLE turn_origin_to_realm (origin varchar(127),realm varchar(127),primary key (origin))",
   lit "CREATE TABLE turn_realm_option (realm varchar(127) default '',\topt varchar(32),\tvalue varchar(128),\tprimary key (realm,opt))",
   lit "CREATE TABLE oauth_key (kid varchar(128),ikm_key varchar(256),timestamp bigint default 0,lifetime integer default 0,as_rs_alg varchar(64) default '',realm varchar(127) default '',primary key (kid))",
   lit "CREATE TABLE admin_user (name varchar(32), realm varchar(127), password varchar(127), primary key (name))"]

/-- The function `init_sqlite_database`: every statement of the schema is handed to the
backend, in order.  A table that exists makes its statement fail and is left as it is; a
table that does not exist is created empty. -/
def init_sqlite_database (w : World) : World :=
  { w with schema_statements := w.schema_statements ++ schema }

/-- The call `pthread_getspecific(connection_key)` made by thread `t`. -/
def pthread_getspecific (t : pthread_t) (w : World) : Option sqlite3 :=
  (w.connection_key.find? (fun p => p.1 == t)).map (fun p => p.2)

/-- The call `pthread_setspecific(connection_key, c)` made by thread `t`. -/
def pthread_setspecific (t : pthread_t) (c : sqlite3) (w : World) : World :=
  { w with connection_key := (t, c) :: w.connection_key.filter (fun p => !(p.1 == t)) }

/-- The function `get_sqlite_connection` called by thread `t`: the handle, if any, and
the state afterwards. -/
def get_sqlite_connection (C : Consts) (t : pthread_t) (e : Env) (w : World) :
    Option sqlite3 × World :=
  match pthread_getspecific t w with
  | some c => (some c, w)
  | none =>
    let w1 := { w with userdb := fix_user_directory e w.userdb }
    match e.open_conn with
    | none => (none, { w1 with userdb_type := C.TURN_USERDB_TYPE_UNKNOWN })
    | some c =>
      if e.open_rc ≠ SQLITE_OK then
        (none, { w1 with userdb_type := C.TURN_USERDB_TYPE_UNKNOWN })
      else
        (some c, pthread_setspecific t c
          { init_sqlite_database w1 with donot_print_connection_success := true })

/-- A call of `sqlite_lock(write)` from a driver operation run by thread `t`, nobody else
touching the gate meanwhile: the state once the call has returned, `none` if the thread
is left waiting on `rc_cond`. -/
def World.lock (write : Bool) (t : pthread_t) (w : World) : Option World :=
  if (sqlite_lock_pass write t w.gate).1 then
    some { w with gate := (sqlite_lock_pass write t w.gate).2,
                  gate_calls := w.gate_calls ++ [.lock t write] }
  else none

/-- A call of `sqlite_unlock(write)` from a driver operation run by thread `t`. -/
def World.unlock (write : Bool) (t : pthread_t) (w : World) : World :=
  { w with gate := (sqlite_unlock write w.gate).1,
           gate_calls := w.gate_calls ++ [.unlock t write] }

/-- The part shared by the upsert and delete operations, from `sqlite_lock(1)` to the
`return`: the statement is prepared, stepped once without a look at the result, and the
return value says only whether it could be prepared. -/
def write_statement (t : pthread_t) (f : Fault) (text : Str) (w : World) :
    Option (Int × World) :=
  (w.lock true t).map fun w1 =>
    match sqlite3_prepare f text with
    | some st => (0, World.unlock true t { w1 with db := step_write f st w1.db })
    | none => (-1, World.unlock true t w1)

/-- The part shared by the listing operations, from `sqlite_lock(0)` to the `return`:
`ret = 0` once the statement is prepared, the loop body `body` for each row, `ret = -1`
when a step fails. -/
def read_statement {σ : Type} (t : pthread_t) (f : Fault) (text : Str)
    (body : σ → Row → σ) (acc : σ) (w : World) : Option (Int × σ × World) :=
  (w.lock false t).map fun w1 =>
    match sqlite3_prepare f text with
    | some st =>
      ((if (step_loop f body 0 (st.rows w1.db) acc).2 then -1 else 0),
       (step_loop f body 0 (st.rows w1.db) acc).1, World.unlock false t w1)
    | none => (-1, acc, World.unlock false t w1)

/-- The part shared by the keyed lookups, from `sqlite_lock(0)` to the `return`: the row
handed to the `if (sqlite3_step(st) == SQLITE_ROW)` branch, if that branch is taken. -/
def lookup_statement (t : pthread_t) (f : Fault) (text : Str) (w : World) :
    Option (Option Row × World) :=
  (w.lock false t).map fun w1 =>
    match sqlite3_prepare f text with
    | some st => (step_first f st w1.db, World.unlock false t w1)
    | none => (none, World.unlock false t w1)

/-! ## Helpers defined outside `dbd_sqlite.c` -/

/-- Modelled from the spec: `add_to_secrets_list`, defined outside `dbd_sqlite.c`,
populates a result collection: the element is added at the end; a null element adds
nothing. -/
def add_to_secrets_list (sl : secrets_list_t) (elem : Option Str) : secrets_list_t :=
  match elem with
  | some s => sl ++ [s]
  | none => sl

/-- Modelled from the spec: `add_ip_list_range`, defined outside `dbd_sqlite.c`, adds the
entry (range, realm) to the result collection. -/
def add_ip_list_range (range realm : Str) (list : List (Str × Str)) : List (Str × Str) :=
  list ++ [(range, realm)]

/-- Modelled from the spec: `ur_string_map_put`, defined outside `dbd_sqlite.c`, inserts
the mapping of a key into the structure, in place of the mapping the key had. -/
def ur_string_map_put : List (Str × Str) → Str → Str → List (Str × Str)
  | [], k, v => [(k, v)]
  | p :: ps, k, v => if p.1 = k then (k, v) :: ps else p :: ur_string_map_put ps k v

/-- Modelled from the spec: `update_o_to_realm`, defined outside `dbd_sqlite.c`,
publishes the freshly built mapping as the live origin-to-realm table, replacing the
previous one. -/
def update_o_to_realm (o_to_realm_new : List (Str × Str)) (l : Live) : Live :=
  { l with o_to_realm := o_to_realm_new }

/-- Modelled from the spec: `get_realm`, defined outside `dbd_sqlite.c`, ensures that the
referenced realm exists in the live realm table, creating a default entry if absent: one
live instance per name, created on first reference, known to the live list of realms
from then on, and carrying the process-wide default capacity parameters. -/
def get_realm (name : Str) (l : Live) : Live :=
  if l.realms.any (fun r => r.1 == name) then l
  else { l with realms := l.realms ++ [(name, l.turn_params)],
                realms_list := l.realms_list ++ [name] }

/-- An assignment through the pointer `rp` returned by `get_realm(name)`: the capacity
fields of the live instance of that name are changed by `f`. -/
def update_realm (name : Str) (f : perf_options_t → perf_options_t) :
    List (Str × perf_options_t) → List (Str × perf_options_t)
  | [] => []
  | r :: rs => if r.1 = name then (r.1, f r.2) :: rs else r :: update_realm name f rs

/-- The capacity fields of the live instance of a realm, if there is one. -/
def find_realm (name : Str) (realms : List (Str × perf_options_t)) : Option perf_options_t :=
  (realms.find? (fun r => r.1 == name)).map (fun r => r.2)

/-! ## Driver operations

Each operation is run by a thread `t` in a state `w` with surroundings `e`; the result is
`none` when the thread is left waiting at the gate.  Log output is not part of the
state. -/

/-- The function `sqlite_get_auth_secrets`. -/
def sqlite_get_auth_secrets (C : Consts) (t : pthread_t) (sl : secrets_list_t) (realm : Str)
    (e : Env) (w : World) : Option (Int × secrets_list_t × World) :=
  match get_sqlite_connection C t e w with
  | (none, w1) => some (-1, sl, w1)
  | (some _, w1) =>
    (w1.lock false t).map fun w2 =>
      match sqlite3_prepare e.fault (snprintf (C.TURN_LONG_STRING_SIZE - 1)
          (lit "select value from turn_secret where realm=" ++ quoted realm)) with
      | some st =>
        if 0 < st.column_count then
          ((if (step_loop e.fault
                (fun acc r => add_to_secrets_list acc (some (sqlite3_column_text r 0)))
                0 (st.rows w2.db) sl).2 then -1 else 0),
           (step_loop e.fault
                (fun acc r => add_to_secrets_list acc (some (sqlite3_column_text r 0)))
                0 (st.rows w2.db) sl).1,
           World.unlock false t w2)
        else (0, sl, World.unlock false t w2)
      | none => (-1, sl, World.unlock false t w2)

/-- The function `sqlite_get_user_key`. -/
def sqlite_get_user_key (C : Consts) (t : pthread_t) (usname realm : Str) (key : hmackey_t)
    (e : Env) (w : World) : Option (Int × hmackey_t × World) :=
  match get_sqlite_connection C t e w with
  | (none, w1) => some (-1, key, w1)
  | (some _, w1) =>
    (lookup_statement t e.fault (snprintf C.TURN_LONG_STRING_SIZE
        (lit "select hmackey from turnusers_lt where name=" ++ quoted usname ++
          lit " and realm=" ++ quoted realm)) w1).map fun r =>
      match r.1 with
      | some row =>
        (0, C.convert_string_key_to_binary (sqlite3_column_text row 0) C.hmackey_size, r.2)
      | none => (-1, key, r.2)

/-- The function `sqlite_get_oauth_key`. -/
def sqlite_get_oauth_key (C : Consts) (t : pthread_t) (kid : Str) (key : oauth_key_data_raw)
    (e : Env) (w : World) : Option (Int × oauth_key_data_raw × World) :=
  match get_sqlite_connection C t e w with
  | (none, w1) => some (-1, key, w1)
  | (some _, w1) =>
    (lookup_statement t e.fault (snprintf C.TURN_LONG_STRING_SIZE
        (lit "select ikm_key,timestamp,lifetime,as_rs_alg,realm from oauth_key where kid=" ++
          quoted kid)) w1).map fun r =>
      match r.1 with
      | some row =>
        (0, { ikm_key := C.STRCPY_ikm_key (sqlite3_column_text row 0),
              timestamp := ((strtol (sqlite3_column_text row 1)) % 2 ^ 64).toNat,
              lifetime := ((strtol (sqlite3_column_text row 2)) % 2 ^ 32).toNat,
              as_rs_alg := C.STRCPY_as_rs_alg (sqlite3_column_text row 3),
              realm := C.STRCPY_realm (sqlite3_column_text row 4),
              kid := C.STRCPY_kid kid }, r.2)
      | none => (-1, key, r.2)

/-- The five result collections of `sqlite_list_oauth_keys`. -/
structure oauth_lists where
  kids : secrets_list_t
  teas : secrets_list_t
  tss : secrets_list_t
  lts : secrets_list_t
  realms : secrets_list_t
deriving DecidableEq, Repr

/-- The loop body of `sqlite_list_oauth_keys`, working on the collections and on the
standard output; `collect` says that `kids` is not null. -/
def list_oauth_keys_body (C : Consts) (collect : Bool) (acc : oauth_lists × List Str)
    (row : Row) : oauth_lists × List Str :=
  let ikm_key := C.STRCPY_ikm_key (sqlite3_column_text row 0)
  let timestamp := ((strtol (sqlite3_column_text row 1)) % 2 ^ 64).toNat
  let lifetime := ((strtol (sqlite3_column_text row 2)) % 2 ^ 32).toNat
  let as_rs_alg := C.STRCPY_as_rs_alg (sqlite3_column_text row 3)
  let realm := C.STRCPY_realm (sqlite3_column_text row 4)
  let kid := C.STRCPY_kid (sqlite3_column_text row 5)
  if collect then
    ({ kids := add_to_secrets_list acc.1.kids (some kid),
       teas := add_to_secrets_list acc.1.teas (some as_rs_alg),
       realms := add_to_secrets_list acc.1.realms (some realm),
       tss := add_to_secrets_list acc.1.tss (some (snprintf 255 (decimal timestamp))),
       lts := add_to_secrets_list acc.1.lts (some (snprintf 255 (decimal lifetime))) }, acc.2)
  else
    (acc.1, acc.2 ++
        [lit "  kid=" ++ kid ++ lit ", ikm_key=" ++ ikm_key ++ lit ", timestamp=" ++
          decimal timestamp ++ lit ", lifetime=" ++ decimal lifetime ++ lit ", as_rs_alg=" ++
          as_rs_alg ++ lit "\n"])

/-- The function `sqlite_list_oauth_keys`; `collect` says that `kids` is not null, and
`out` holds the contents of the five collections. -/
def sqlite_list_oauth_keys (C : Consts) (t : pthread_t) (collect : Bool) (out : oauth_lists)
    (e : Env) (w : World) : Option (Int × oauth_lists × World) :=
  match get_sqlite_connection C t e w with
  | (none, w1) => some (-1, out, w1)
  | (some _, w1) =>
    (read_statement t e.fault (snprintf C.TURN_LONG_STRING_SIZE
        (lit "select ikm_key,timestamp,lifetime,as_rs_alg,realm,kid from oauth_key order by kid"))
        (list_oauth_keys_body C collect) (out, w1.stdout)
        { w1 with donot_print_connection_success := true }).map fun r =>
      (r.1, r.2.1.1, { r.2.2 with stdout := r.2.1.2 })

/-- The function `sqlite_set_user_key`. -/
def sqlite_set_user_key (C : Consts) (t : pthread_t) (usname realm key : Str)
    (e : Env) (w : World) : Option (Int × World) :=
  match get_sqlite_connection C t e { w with donot_print_connection_success := true } with
  | (none, w1) => some (-1, w1)
  | (some _, w1) =>
    write_statement t e.fault (snprintf C.TURN_LONG_STRING_SIZE
      (lit "insert or replace into turnusers_lt (realm,name,hmackey) values(" ++ quoted realm ++
        lit "," ++ quoted usname ++ lit "," ++ quoted key ++ lit ")")) w1

/-- The function `sqlite_set_oauth_key`. -/
def sqlite_set_oauth_key (C : Consts) (t : pthread_t) (key : oauth_key_data_raw)
    (e : Env) (w : World) : Option (Int × World) :=
  match get_sqlite_connection C t e { w with donot_print_connection_success := true } with
  | (none, w1) => some (-1, w1)
  | (some _, w1) =>
    write_statement t e.fault (snprintf C.TURN_LONG_STRING_SIZE
      (lit "insert or replace into oauth_key (kid,ikm_key,timestamp,lifetime,as_rs_alg,realm) values("
        ++ quoted key.kid ++ lit "," ++ quoted key.ikm_key ++ lit "," ++ decimal key.timestamp ++
        lit "," ++ decimal key.lifetime ++ lit "," ++ quoted key.as_rs_alg ++ lit "," ++
        quoted key.realm ++ lit ")")) w1

/-- The function `sqlite_del_user`. -/
def sqlite_del_user (C : Consts) (t : pthread_t) (usname realm : Str)
    (e : Env) (w : World) : Option (Int × World) :=
  match get_sqlite_connection C t e { w with donot_print_connection_success := true } with
  | (none, w1) => some (-1, w1)
  | (some _, w1) =>
    write_statement t e.fault (snprintf C.TURN_LONG_STRING_SIZE
      (lit "delete from turnusers_lt where name=" ++ quoted usname ++ lit " and realm=" ++
        quoted realm)) w1

/-- The function `sqlite_del_oauth_key`. -/
def sqlite_del_oauth_key (C : Consts) (t : pthread_t) (kid : Str)
    (e : Env) (w : World) : Option (Int × World) :=
  match get_sqlite_connection C t e { w with donot_print_connection_success := true } with
  | (none, w1) => some (-1, w1)
  | (some _, w1) =>
    write_statement t e.fault (snprintf C.TURN_LONG_STRING_SIZE
      (lit "delete from oauth_key where kid = " ++ quoted kid)) w1

/-- The two result collections of a listing (each may be a null pointer) and the
standard output. -/
structure listing where
  keys : Option secrets_list_t
  realms : Option secrets_list_t
  stdout : List Str
deriving DecidableEq, Repr

/-- The loop body shared by `sqlite_list_users`, `sqlite_list_secrets` and
`sqlite_list_origins`: `realm` is the filter argument (null or a string) and `sep`, `fin`
are the texts `printf` puts after the key and after the realm. -/
def list_body (realm : Option Str) (sep fin : Str) (acc : listing) (row : Row) : listing :=
  let kval := sqlite3_column_text row 0
  let rval := sqlite3_column_text row 1
  match acc.keys with
  | some keys =>
    { acc with
      keys := some (add_to_secrets_list keys (some kval)),
      realms := match acc.realms with
        | some realms =>
          if rval ≠ [] then some (add_to_secrets_list realms (some rval))
          else some (add_to_secrets_list realms realm)
        | none => none }
  | none => { acc with stdout := acc.stdout ++ [kval ++ sep ++ rval ++ fin] }

/-- Whether a realm filter is given: `realm != NULL && realm[0] != 0`. -/
def has_filter (realm : Option Str) : Bool :=
  match realm with
  | some (_ :: _) => true
  | _ => false

/-- The text of a realm argument under `%s` (only used when the argument is not null). -/
def realm_text (realm : Option Str) : Str := realm.getD []

/-- The part shared by the listing operations after the statement has been written. -/
def list_statement (t : pthread_t) (f : Fault) (text : Str) (realm : Option Str)
    (sep fin : Str) (keys realms : Option secrets_list_t) (w : World) :
    Option (Int × Option secrets_list_t × Option secrets_list_t × World) :=
  (read_statement t f text (list_body realm sep fin) ⟨keys, realms, w.stdout⟩ w).map fun r =>
    (r.1, r.2.1.keys, r.2.1.realms, { r.2.2 with stdout := r.2.1.stdout })

/-- The function `sqlite_list_users`. -/
def sqlite_list_users (C : Consts) (t : pthread_t) (realm : Option Str)
    (users realms : Option secrets_list_t) (e : Env) (w : World) :
    Option (Int × Option secrets_list_t × Option secrets_list_t × World) :=
  match get_sqlite_connection C t e { w with donot_print_connection_success := true } with
  | (none, w1) => some (-1, users, realms, w1)
  | (some _, w1) =>
    list_statement t e.fault
      (if has_filter realm then
        snprintf C.TURN_LONG_STRING_SIZE
          (lit "select name,realm from turnusers_lt where realm=" ++ quoted (realm_text realm) ++
            lit " order by name")
      else
        snprintf C.TURN_LONG_STRING_SIZE
          (lit "select name,realm from turnusers_lt order by realm,name"))
      realm (lit "[") (lit "]\n") users realms w1

/-- The function `sqlite_list_secrets`. -/
def sqlite_list_secrets (C : Consts) (t : pthread_t) (realm : Option Str)
    (secrets realms : Option secrets_list_t) (e : Env) (w : World) :
    Option (Int × Option secrets_list_t × Option secrets_list_t × World) :=
  match get_sqlite_connection C t e { w with donot_print_connection_success := true } with
  | (none, w1) => some (-1, secrets, realms, w1)
  | (some _, w1) =>
    list_statement t e.fault
      (if has_filter realm then
        snprintf C.TURN_LONG_STRING_SIZE
          (lit "select value,realm from turn_secret where realm=" ++ quoted (realm_text realm) ++
            lit " order by value")
      else
        snprintf C.TURN_LONG_STRING_SIZE
          (lit "select value,realm from turn_secret order by realm,value"))
      realm (lit "[") (lit "]\n") secrets realms w1

/-- The function `sqlite_del_secret`; `secret` may be a null pointer. -/
def sqlite_del_secret (C : Consts) (t : pthread_t) (secret : Option Str) (realm : Str)
    (e : Env) (w : World) : Option (Int × World) :=
  match get_sqlite_connection C t e { w with donot_print_connection_success := true } with
  | (none, w1) => some (-1, w1)
  | (some _, w1) =>
    write_statement t e.fault
      (match secret with
       | some (c :: cs) =>
         snprintf C.TURN_LONG_STRING_SIZE
           (lit "delete from turn_secret where value=" ++ quoted (c :: cs) ++ lit " and realm=" ++
             quoted realm)
       | _ =>
         snprintf C.TURN_LONG_STRING_SIZE
           (lit "delete from turn_secret where realm=" ++ quoted realm)) w1

/-- The function `sqlite_set_secret`. -/
def sqlite_set_secret (C : Consts) (t : pthread_t) (secret realm : Str)
    (e : Env) (w : World) : Option (Int × World) :=
  match get_sqlite_connection C t e { w with donot_print_connection_success := true } with
  | (none, w1) => some (-1, w1)
  | (some _, w1) =>
    write_statement t e.fault (snprintf C.TURN_LONG_STRING_SIZE
      (lit "insert or replace into turn_secret (realm,value) values(" ++ quoted realm ++
        lit "," ++ quoted secret ++ lit ")")) w1

/-- The function `sqlite_add_origin`. -/
def sqlite_add_origin (C : Consts) (t : pthread_t) (origin realm : Str)
    (e : Env) (w : World) : Option (Int × World) :=
  match get_sqlite_connection C t e { w with donot_print_connection_success := true } with
  | (none, w1) => some (-1, w1)
  | (some _, w1) =>
    write_statement t e.fault (snprintf C.TURN_LONG_STRING_SIZE
      (lit "insert or replace into turn_origin_to_realm (origin,realm) values(" ++
        quoted origin ++ lit "," ++ quoted realm ++ lit ")")) w1

/-- The function `sqlite_del_origin`. -/
def sqlite_del_origin (C : Consts) (t : pthread_t) (origin : Str)
    (e : Env) (w : World) : Option (Int × World) :=
  match get_sqlite_connection C t e { w with donot_print_connection_success := true } with
  | (none, w1) => some (-1, w1)
  | (some _, w1) =>
    write_statement t e.fault (snprintf C.TURN_LONG_STRING_SIZE
      (lit "delete from turn_origin_to_realm where origin=" ++ quoted origin)) w1

/-- The function `sqlite_list_origins`. -/
def sqlite_list_origins (C : Consts) (t : pthread_t) (realm : Option Str)
    (origins realms : Option secrets_list_t) (e : Env) (w : World) :
    Option (Int × Option secrets_list_t × Option secrets_list_t × World) :=
  match get_sqlite_connection C t e { w with donot_print_connection_success := true } with
  | (none, w1) => some (-1, origins, realms, w1)
  | (some _, w1) =>
    list_statement t e.fault
      (if has_filter realm then
        snprintf C.TURN_LONG_STRING_SIZE
          (lit "select origin,realm from turn_origin_to_realm where realm=" ++
            quoted (realm_text realm) ++ lit " order by origin")
      else
        snprintf C.TURN_LONG_STRING_SIZE
          (lit "select origin,realm from turn_origin_to_realm order by realm,origin"))
      realm (lit " ==>> ") (lit "\n") origins realms w1

/-- The function `sqlite_set_realm_option_one`; `value` is an `unsigned long`. -/
def sqlite_set_realm_option_one (C : Consts) (t : pthread_t) (realm : Str) (value : Nat)
    (opt : Str) (e : Env) (w : World) : Option (Int × World) :=
  if value ≤ 0 then some (-1, w)
  else
    match get_sqlite_connection C t e { w with donot_print_connection_success := true } with
    | (none, w1) => some (-1, w1)
    | (some _, w1) =>
      write_statement t e.fault (snprintf C.TURN_LONG_STRING_SIZE
        (lit "insert or replace into turn_realm_option (realm,opt,value) values(" ++
          quoted realm ++ lit "," ++ quoted opt ++ lit "," ++ quoted (decimal value) ++
          lit ")")) w1

/-- The function `sqlite_list_realm_options`. -/
def sqlite_list_realm_options (C : Consts) (t : pthread_t) (realm : Option Str)
    (e : Env) (w : World) : Option (Int × World) :=
  match get_sqlite_connection C t e { w with donot_print_connection_success := true } with
  | (none, w1) => some (-1, w1)
  | (some _, w1) =>
    (read_statement t e.fault
      (if has_filter realm then
        snprintf C.TURN_LONG_STRING_SIZE
          (lit "select realm,opt,value from turn_realm_option where realm=" ++
            quoted (realm_text realm) ++ lit " order by realm,opt")
      else
        snprintf C.TURN_LONG_STRING_SIZE
          (lit "select realm,opt,value from turn_realm_option order by realm,opt"))
      (fun (out : List Str) row =>
        out ++ [sqlite3_column_text row 1 ++ lit "[" ++ sqlite3_column_text row 0 ++ lit "]=" ++
          sqlite3_column_text row 2 ++ lit "\n"])
      w1.stdout w1).map fun r => (r.1, { r.2.2 with stdout := r.2.1 })

/-- The function `sqlite_auth_ping`. -/
def sqlite_auth_ping (w : World) : World := w

/-- The function `sqlite_get_ip_list`. -/
def sqlite_get_ip_list (C : Consts) (t : pthread_t) (kind : Str) (list : List (Str × Str))
    (e : Env) (w : World) : Option (Int × List (Str × Str) × World) :=
  match get_sqlite_connection C t e { w with donot_print_connection_success := true } with
  | (none, w1) => some (-1, list, w1)
  | (some _, w1) =>
    read_statement t e.fault (snprintf C.TURN_LONG_STRING_SIZE
        (lit "select ip_range,realm from " ++ kind ++ lit "_peer_ip"))
      (fun acc row => add_ip_list_range (sqlite3_column_text row 0) (sqlite3_column_text row 1) acc)
      list w1

/-- The function `sqlite_set_permission_ip`; `realm` may be a null pointer, `del` is the
flag of the source (non-zero for a delete). -/
def sqlite_set_permission_ip (C : Consts) (t : pthread_t) (kind : Str) (realm : Option Str)
    (ip : Str) (del : Bool) (e : Env) (w : World) : Option (Int × World) :=
  match get_sqlite_connection C t e { w with donot_print_connection_success := true } with
  | (none, w1) => some (-1, w1)
  | (some _, w1) =>
    write_statement t e.fault
      (if del then
        snprintf C.TURN_LONG_STRING_SIZE
          (lit "delete from " ++ kind ++ lit "_peer_ip where realm = " ++
            quoted (realm_text realm) ++ lit "  and ip_range = " ++ quoted ip)
      else
        snprintf C.TURN_LONG_STRING_SIZE
          (lit "insert or replace into " ++ kind ++ lit "_peer_ip (realm,ip_range) values(" ++
            quoted (realm_text realm) ++ lit "," ++ quoted ip ++ lit ")")) w1

/-- The loop body of the first block of `sqlite_reread_realms`, working on the realm
state and on the mapping under construction. -/
def reread_origin_body (acc : Live × List (Str × Str)) (row : Row) :
    Live × List (Str × Str) :=
  (get_realm (sqlite3_column_text row 1) acc.1,
   ur_string_map_put acc.2 (sqlite3_column_text row 0) (sqlite3_column_text row 1))

/-- The body of the loop over `realms_list` in the second block of
`sqlite_reread_realms`, for index `i`. -/
def reread_default_body (l : Live) (i : Nat) : Live :=
  { get_realm (l.realms_list.getD i []) l with
    realms := update_realm (l.realms_list.getD i [])
      (fun p => { p with max_bps := l.turn_params.max_bps,
                         total_quota := l.turn_params.total_quota,
                         user_quota := l.turn_params.user_quota })
      (get_realm (l.realms_list.getD i []) l).realms }

/-- The loop body of the third block of `sqlite_reread_realms`. -/
def reread_option_body (l : Live) (row : Row) : Live :=
  if sqlite3_column_text row 1 = lit "max-bps" then
    { get_realm (sqlite3_column_text row 0) l with
      realms := update_realm (sqlite3_column_text row 0)
        (fun p => { p with max_bps := strtoul (sqlite3_column_text row 2) })
        (get_realm (sqlite3_column_text row 0) l).realms }
  else if sqlite3_column_text row 1 = lit "total-quota" then
    { get_realm (sqlite3_column_text row 0) l with
      realms := update_realm (sqlite3_column_text row 0)
        (fun p => { p with total_quota := atoi (sqlite3_column_text row 2) })
        (get_realm (sqlite3_column_text row 0) l).realms }
  else if sqlite3_column_text row 1 = lit "user-quota" then
    { get_realm (sqlite3_column_text row 0) l with
      realms := update_realm (sqlite3_column_text row 0)
        (fun p => { p with user_quota := atoi (sqlite3_column_text row 2) })
        (get_realm (sqlite3_column_text row 0) l).realms }
  else get_realm (sqlite3_column_text row 0) l

/-- The first block of `sqlite_reread_realms` between `sqlite_lock(0)` and
`sqlite_unlock(0)`, as it acts on the realm state. -/
def reread_origins (C : Consts) (f : Fault) (db : Db) (l : Live) : Live :=
  match sqlite3_prepare f (snprintf C.TURN_LONG_STRING_SIZE
      (lit "select origin,realm from turn_origin_to_realm")) with
  | some st =>
    update_o_to_realm (step_loop f reread_origin_body 0 (st.rows db) (l, [])).1.2
      (step_loop f reread_origin_body 0 (st.rows db) (l, [])).1.1
  | none => l

/-- The second block of `sqlite_reread_realms`. -/
def reread_defaults (l : Live) : Live :=
  (List.range l.realms_list.length).foldl reread_default_body l

/-- The third block of `sqlite_reread_realms` between `sqlite_lock(0)` and
`sqlite_unlock(0)`, as it acts on the realm state. -/
def reread_options (C : Consts) (f : Fault) (db : Db) (l : Live) : Live :=
  match sqlite3_prepare f (snprintf C.TURN_LONG_STRING_SIZE
      (lit "select realm,opt,value from turn_realm_option")) with
  | some st => (step_loop f reread_option_body 0 (st.rows db) l).1
  | none => l

/-- The function `sqlite_reread_realms`, called with the live list of realms. -/
def sqlite_reread_realms (C : Consts) (t : pthread_t) (e : Env) (w : World) : Option World :=
  match get_sqlite_connection C t e { w with donot_print_connection_success := true } with
  | (none, w1) => some w1
  | (some _, w1) =>
    (w1.lock false t).bind fun w2 =>
      (World.lock false t
        { World.unlock false t { w2 with live := reread_origins C e.fault w2.db w2.live } with
          live := reread_defaults (reread_origins C e.fault w2.db w2.live) }).map
        fun w3 =>
          World.unlock false t { w3 with live := reread_options C e.fault2 w3.db w3.live }

/-- The function `sqlite_get_admin_user`; `usname` and the buffer `realm` may be null
pointers, and the results are the texts left in the buffers `realm` and `pwd`. -/
def sqlite_get_admin_user (C : Consts) (t : pthread_t) (usname : Option Str)
    (realm : Option Str) (pwd : Str) (e : Env) (w : World) :
    Option (Int × Option Str × Str × World) :=
  match usname, realm with
  | some name, some _ =>
    match get_sqlite_connection C t e w with
    | (none, w1) => some (-1, realm, pwd, w1)
    | (some _, w1) =>
      (lookup_statement t e.fault (snprintf C.TURN_LONG_STRING_SIZE
          (lit "select realm,password from admin_user where name=" ++ quoted name)) w1).map
        fun r =>
          match r.1 with
          | some row =>
            (0, some ((sqlite3_column_text row 0).take C.STUN_MAX_REALM_SIZE),
             (sqlite3_column_text row 1).take C.STUN_MAX_PWD_SIZE, r.2)
          | none => (-1, some [], [], r.2)
  | _, _ => some (-1, realm, pwd, w)

/-- The function `sqlite_set_admin_user`. -/
def sqlite_set_admin_user (C : Consts) (t : pthread_t) (usname realm pwd : Str)
    (e : Env) (w : World) : Option (Int × World) :=
  match get_sqlite_connection C t e { w with donot_print_connection_success := true } with
  | (none, w1) => some (-1, w1)
  | (some _, w1) =>
    write_statement t e.fault (snprintf C.TURN_LONG_STRING_SIZE
      (lit "insert or replace into admin_user (realm,name,password) values(" ++ quoted realm ++
        lit "," ++ quoted usname ++ lit "," ++ quoted pwd ++ lit ")")) w1

/-- The function `sqlite_del_admin_user`. -/
def sqlite_del_admin_user (C : Consts) (t : pthread_t) (usname : Str)
    (e : Env) (w : World) : Option (Int × World) :=
  match get_sqlite_connection C t e { w with donot_print_connection_success := true } with
  | (none, w1) => some (-1, w1)
  | (some _, w1) =>
    write_statement t e.fault (snprintf C.TURN_LONG_STRING_SIZE
      (lit "delete from admin_user where name=" ++ quoted usname)) w1

/-- The loop body of `sqlite_list_admin_users`, working on `ret` and on the standard
output. -/
def list_admin_users_body (no_print : Bool) (acc : Int × List Str) (row : Row) :
    Int × List Str :=
  (acc.1 + 1,
   if no_print then acc.2
   else if sqlite3_column_text row 1 ≠ [] then
     acc.2 ++ [sqlite3_column_text row 0 ++ lit "[" ++ sqlite3_column_text row 1 ++ lit "]\n"]
   else acc.2 ++ [sqlite3_column_text row 0 ++ lit "\n"])

/-- The function `sqlite_list_admin_users`. -/
def sqlite_list_admin_users (C : Consts) (t : pthread_t) (no_print : Bool)
    (e : Env) (w : World) : Option (Int × World) :=
  match get_sqlite_connection C t e { w with donot_print_connection_success := true } with
  | (none, w1) => some (-1, w1)
  | (some _, w1) =>
    (w1.lock false t).map fun w2 =>
      match sqlite3_prepare e.fault (snprintf C.TURN_LONG_STRING_SIZE
          (lit "select name,realm from admin_user order by realm,name")) with
      | some st =>
        ((if (step_loop e.fault (list_admin_users_body no_print) 0 (st.rows w2.db)
                (0, w2.stdout)).2 then -1
          else (step_loop e.fault (list_admin_users_body no_print) 0 (st.rows w2.db)
                (0, w2.stdout)).1.1),
         World.unlock false t
           { w2 with stdout := (step_loop e.fault (list_admin_users_body no_print) 0
                (st.rows w2.db) (0, w2.stdout)).1.2 })
      | none => (-1, World.unlock false t w2)

/-- The function `sqlite_disconnect`: the connection of the calling thread, if any, is
closed; the thread-specific value is left as it is. -/
def sqlite_disconnect (t : pthread_t) (w : World) : World :=
  match pthread_getspecific t w with
  | some c => { w with closed := w.closed ++ [c] }
  | none => w

/-! ## Example values

A small process state and surroundings on which the operations can be evaluated. -/

/-- Example values for the names taken from outside `dbd_sqlite.c`. -/
def example_consts : Consts where
  TURN_LONG_STRING_SIZE := 1025
  STUN_MAX_REALM_SIZE := 127
  STUN_MAX_PWD_SIZE := 256
  TURN_USERDB_TYPE_UNKNOWN := -1
  hmackey_size := 2
  convert_string_key_to_binary := fun kval sz => (kval.take (2 * sz)).map Char.toNat
  STRCPY_kid := fun s => s
  STRCPY_ikm_key := fun s => s
  STRCPY_as_rs_alg := fun s => s
  STRCPY_realm := fun s => s

/-- An empty store. -/
def empty_db : Db := ⟨[], [], [], [], [], [], [], []⟩

/-- A process in which thread `1` has the handle `7`, the gate is idle, the store is
empty and no realm is known. -/
def example_world : World where
  gate := Gate.idle
  gate_calls := []
  connection_key := [(1, 7)]
  userdb := lit "/var/db/turndb"
  userdb_type := 0
  donot_print_connection_success := false
  schema_statements := []
  db := empty_db
  live := ⟨⟨0, 0, 0⟩, [], [], []⟩
  stdout := []
  closed := []

/-- Surroundings in which nothing goes wrong. -/
def example_env : Env where
  HOME := some (lit "/home/turn")
  pw_dir := none
  open_rc := SQLITE_OK
  open_conn := some 7
  fault := Fault.none
  fault2 := Fault.none

/-- Surroundings in which the backend refuses to prepare the statement. -/
def prepare_fault_env : Env := { example_env with fault := ⟨true, none⟩ }

/-- Surroundings in which the backend prepares the statement and fails its first step. -/
def step_fault_env : Env := { example_env with fault := ⟨false, some 0⟩ }

/-- The calling thread has a usable handle: `get_sqlite_connection` yields one, whether
it is cached already or opened by this call. -/
def usable_handle (C : Consts) (t : pthread_t) (e : Env) (w : World) : Prop :=
  (get_sqlite_connection C t e w).1.isSome = true

instance (C : Consts) (t : pthread_t) (e : Env) (w : World) :
    Decidable (usable_handle C t e w) := by
  unfold usable_handle; infer_instance

/-- The parts of the state that an operation without a handle must leave alone: the gate
and the record of its calls, the durable store, the live realm state, the standard
output and the cached handles. -/
def untouched (w w' : World) : Prop :=
  w'.gate = w.gate ∧ w'.gate_calls = w.gate_calls ∧ w'.db = w.db ∧ w'.live = w.live ∧
  w'.stdout = w.stdout ∧ w'.connection_key = w.connection_key

instance (w w' : World) : Decidable (untouched w w') := by
  unfold untouched; infer_instance

/-- Surroundings in which `sqlite3_open` hands back a connection together with an error
code. -/
def open_fault_env : Env := { example_env with open_rc := 14, open_conn := some 9 }

/-! ## Notions used to state the results on the reload -/

/-- The rows that the loop `step_loop` hands to its body before it ends. -/
def delivered (f : Fault) : Nat → List Row → List Row
  | _, [] => []
  | n, r :: rs => if f.step = some n then [] else r :: delivered f (n + 1) rs

/-- The assignment that the third block of `sqlite_reread_realms` makes for one option
row, on the capacity fields of the realm the row names. -/
def assign_option (row : Row) (p : perf_options_t) : perf_options_t :=
  if sqlite3_column_text row 1 = lit "max-bps" then
    { p with max_bps := strtoul (sqlite3_column_text row 2) }
  else if sqlite3_column_text row 1 = lit "total-quota" then
    { p with total_quota := atoi (sqlite3_column_text row 2) }
  else if sqlite3_column_text row 1 = lit "user-quota" then
    { p with user_quota := atoi (sqlite3_column_text row 2) }
  else p

/-- The effect of one option row on the capacity fields of the realm `name`: the
assignment when the row names that realm, nothing otherwise. -/
def apply_option (name : Str) (p : perf_options_t) (row : Row) : perf_options_t :=
  if sqlite3_column_text row 0 = name then assign_option row p else p

/-- Whether the realm table has an instance of a name. -/
def has_realm (name : Str) (realms : List (Str × perf_options_t)) : Bool :=
  realms.any (fun r => r.1 == name)

/-- The primary key of `turn_realm_option` as far as the reload can see it: two rows with
the same realm and option name carry the same value. -/
def option_key_unique (rows : List Row) : Prop :=
  ∀ r1 ∈ rows, ∀ r2 ∈ rows, sqlite3_column_text r1 0 = sqlite3_column_text r2 0 →
    sqlite3_column_text r1 1 = sqlite3_column_text r2 1 →
    sqlite3_column_text r1 2 = sqlite3_column_text r2 2

instance (rows : List Row) : Decidable (option_key_unique rows) := by
  unfold option_key_unique; infer_instance

/-! ## Notions used in the proof that the reload is idempotent -/

/-- The realm table with `g` applied to the first instance of every name that is not in
`seen`. -/
def table_map (g : Str → perf_options_t → perf_options_t) :
    List Str → List (Str × perf_options_t) → List (Str × perf_options_t)
  | _, [] => []
  | seen, r :: rest =>
    (if r.1 ∈ seen then r else (r.1, g r.1 r.2)) :: table_map g (r.1 :: seen) rest

/-- A sequence of assignments through realm pointers, applied to the realm table. -/
def apply_updates (us : List (Str × (perf_options_t → perf_options_t)))
    (T : List (Str × perf_options_t)) : List (Str × perf_options_t) :=
  us.foldl (fun T u => update_realm u.1 u.2 T) T

/-- What a sequence of assignments does to the fields of the realm `n`. -/
def compose_updates (us : List (Str × (perf_options_t → perf_options_t))) (n : Str)
    (p : perf_options_t) : perf_options_t :=
  us.foldl (fun p u => if u.1 = n then u.2 p else p) p

/-- The option rows that the third block of `sqlite_reread_realms` gets to see. -/
def option_rows (C : Consts) (f : Fault) (db : Db) : List Row :=
  match sqlite3_prepare f (snprintf C.TURN_LONG_STRING_SIZE
      (lit "select realm,opt,value from turn_realm_option")) with
  | some st => delivered f 0 (st.rows db)
  | none => []

/-- The origin rows that the first block of `sqlite_reread_realms` gets to see. -/
def origin_rows (C : Consts) (f : Fault) (db : Db) : List Row :=
  match sqlite3_prepare f (snprintf C.TURN_LONG_STRING_SIZE
      (lit "select origin,realm from turn_origin_to_realm")) with
  | some st => delivered f 0 (st.rows db)
  | none => []

/-- The three blocks of `sqlite_reread_realms` in order, as they act on the realm
state. -/
def reread_live (C : Consts) (e : Env) (db : Db) (l : Live) : Live :=
  reread_options C e.fault2 db (reread_defaults (reread_origins C e.fault db l))

/-- A process before a reload: the store maps one origin to the realm `north` and holds a
bandwidth cap and an unknown option for `example.org` and a user quota for `south`; the
realm `example.org` is live and listed, the realm `old` is live only. -/
def reload_world : World :=
  { example_world with
    db := { empty_db with
      turn_origin_to_realm := [[lit "http://a", lit "north"]]
      turn_realm_option :=
        [[lit "example.org", lit "max-bps", lit "1000"], [lit "example.org", lit "bogus", lit "5"],
         [lit "south", lit "user-quota", lit "3"]] }
    live :=
      { turn_params := ⟨0, 10, 20⟩
        realms := [(lit "example.org", ⟨7, 8, 9⟩), (lit "old", ⟨1, 2, 3⟩)]
        realms_list := [lit "example.org"]
        o_to_realm := [] } }

/-- The process `reload_world` after thread `1` has run the reload. -/
def reload_world_after : World :=
  { reload_world with
    gate_calls := [.lock 1 false, .unlock 1 false, .lock 1 false, .unlock 1 false]
    donot_print_connection_success := true
    live :=
      { turn_params := ⟨0, 10, 20⟩
        realms := [(lit "example.org", ⟨1000, 10, 20⟩), (lit "old", ⟨1, 2, 3⟩),
                   (lit "north", ⟨0, 10, 20⟩), (lit "south", ⟨0, 10, 3⟩)]
        realms_list := [lit "example.org", lit "north", lit "south"]
        o_to_realm := [(lit "http://a", lit "north")] } }

/-! ## Notions used to state the results on waiting writers -/

/-- One round of a schedule in which the readers `1` and `3` overlap while thread `2`
keeps asking for the write role: thread `2` asks, thread `3` takes read, thread `1`
releases read, thread `2` asks again, thread `1` takes read, thread `3` releases read. -/
def overlapping_readers_round : List GateEvent :=
  [.lock 2 true, .lock 3 false, .unlock 1 false, .lock 2 true, .lock 1 false, .unlock 3 false]

/-- Thread `1` takes read, then `n` rounds of `overlapping_readers_round`. -/
def overlapping_readers : Nat → List GateEvent
  | 0 => [.lock 1 false]
  | n + 1 => overlapping_readers n ++ overlapping_readers_round

/-! ## Example stores -/

/-- The example process with one credential in the store: the key `3132` of the user
`alice` of the realm `example.org`. -/
def alice_world : World :=
  { example_world with
    db := { empty_db with turnusers_lt := [[lit "example.org", lit "alice", lit "3132"]] } }

/-! ## Notions used to state the results on connections -/

/-- A sequence of calls of `get_sqlite_connection`, each by some thread under some
surroundings: the state after the last call. -/
def connection_calls (C : Consts) : List (pthread_t × Env) → World → World
  | [], w => w
  | c :: rest, w => connection_calls C rest (get_sqlite_connection C c.1 c.2 w).2

/-- The example process at its start: no thread has a handle yet and no statement has been
handed to the backend. -/
def start_world : World := { example_world with connection_key := [] }

/-- The example process with two origins in the store, `http://a` of the realm `north` and
`http://b` of the realm `south`, both published by an earlier reload. -/
def two_origins_world : World :=
  { example_world with
    db := { empty_db with
      turn_origin_to_realm := [[lit "http://a", lit "north"], [lit "http://b", lit "south"]] }
    live :=
      { turn_params := ⟨0, 0, 0⟩
        realms := [(lit "north", ⟨0, 0, 0⟩), (lit "south", ⟨0, 0, 0⟩)]
        realms_list := [lit "north", lit "south"]
        o_to_realm := [(lit "http://a", lit "north"), (lit "http://b", lit "south")] } }

/-- Surroundings in which the backend delivers the first row of the first statement and
fails the step after it. -/
def second_step_fault_env : Env := { example_env with fault := ⟨false, some 1⟩ }

/-! ## Notions used to state the result on unrecognised option names -/

/-- Whether the option name of a row is one of the three names that the third block of
`sqlite_reread_realms` compares it with. -/
def recognised_option (row : Row) : Bool :=
  sqlite3_column_text row 1 == lit "max-bps" || sqlite3_column_text row 1 == lit "total-quota" ||
    sqlite3_column_text row 1 == lit "user-quota"

/-- The state with the rows of other option names removed from the option table. -/
def without_unrecognised (w : World) : World :=
  { w with db := { w.db with
      turn_realm_option := w.db.turn_realm_option.filter recognised_option } }

/-- The example process with two option rows in the store, a bandwidth cap of `1000` and
an option `bogus` of value `5`, both for the realm `example.org`. -/
def bogus_option_world : World :=
  { example_world with
    db := { empty_db with
      turn_realm_option :=
        [[lit "example.org", lit "max-bps", lit "1000"],
         [lit "example.org", lit "bogus", lit "5"]] } }

/-! ## Notions used to state the results on listings -/

/-- The three listing operations that share the loop body `list_body`. -/
inductive ListOp where
  | users | secrets | origins
deriving DecidableEq, Repr

/-- The call of a listing operation. -/
def ListOp.run (op : ListOp) (C : Consts) (t : pthread_t) (realm : Option Str)
    (keys realms : Option secrets_list_t) (e : Env) (w : World) :
    Option (Int × Option secrets_list_t × Option secrets_list_t × World) :=
  match op with
  | .users => sqlite_list_users C t realm keys realms e w
  | .secrets => sqlite_list_secrets C t realm keys realms e w
  | .origins => sqlite_list_origins C t realm keys realms e w

/-- What a listing adds to the collection of keys for the rows it is handed. -/
def listed_keys (rows : List Row) : List Str :=
  rows.map (fun row => sqlite3_column_text row 0)

/-- What a listing adds to the collection of realms for the rows it is handed: the realm
of the row, or the filter argument when the realm of the row is empty (nothing when that
argument is null). -/
def listed_realms (realm : Option Str) (rows : List Row) : List Str :=
  rows.filterMap (fun row =>
    if sqlite3_column_text row 1 ≠ [] then some (sqlite3_column_text row 1) else realm)

/-- What a listing prints for the rows it is handed. -/
def printed_lines (sep fin : Str) (rows : List Row) : List Str :=
  rows.map (fun row => sqlite3_column_text row 0 ++ sep ++ sqlite3_column_text row 1 ++ fin)

/-- The example process with two users in the store: `alice` of the realm `b.example` and
`bob` of the realm `a.example`. -/
def two_users_world : World :=
  { example_world with
    db := { empty_db with
      turnusers_lt := [[lit "b.example", lit "alice", lit "3132"],
                       [lit "a.example", lit "bob", lit "3334"]] } }

/-- The statement that the text of a listing operation stands for: with a realm filter
the rows of that realm ordered by the key, without one all rows ordered by realm and then
by the key. -/
def ListOp.stmt (op : ListOp) (realm : Option Str) : Stmt :=
  match op with
  | .users =>
    if has_filter realm then .select .turnusers_lt [1, 0] [(0, realm_text realm)] [1]
    else .select .turnusers_lt [1, 0] [] [0, 1]
  | .secrets =>
    if has_filter realm then .select .turn_secret [1, 0] [(0, realm_text realm)] [1]
    else .select .turn_secret [1, 0] [] [0, 1]
  | .origins =>
    if has_filter realm then .select .turn_origin_to_realm [0, 1] [(1, realm_text realm)] [0]
    else .select .turn_origin_to_realm [0, 1] [] [1, 0]

/-- The text a listing operation prints between key and realm. -/
def ListOp.sep : ListOp → Str
  | .users => lit "["
  | .secrets => lit "["
  | .origins => lit " ==>> "

/-- The text a listing operation prints after the realm. -/
def ListOp.fin : ListOp → Str
  | .users => lit "]\n"
  | .secrets => lit "]\n"
  | .origins => lit "\n"

/-! ## Notions used to state the result on the deletion of secrets -/

/-- The conditions of the statement that `sqlite_del_secret` writes: the realm alone when
the secret is null or empty, the secret and the realm otherwise. -/
def del_secret_conds (secret : Option Str) (realm : Str) : List (Nat × Str) :=
  match secret with
  | some (c :: cs) => [(1, c :: cs), (0, realm)]
  | _ => [(0, realm)]

/-- The example process with three shared secrets in the store: `s1` and `s2` of the realm
`example.org` and `s3` of the realm `other.org`. -/
def secrets_world : World :=
  { example_world with
    db := { empty_db with
      turn_secret := [[lit "example.org", lit "s1"], [lit "other.org", lit "s3"],
                      [lit "example.org", lit "s2"]] } }

/-! ## Notions used to state the result on gate bracketing -/

/-- A call of a driver operation by thread `t` from the state `w`, with `res` the state
it returns in (`none` while the thread waits at the gate), is balanced with `n` brackets
in the mode `write`: the call returns when the gate admits the thread in that mode, and
when it has returned the three gate variables have the values they had before and the
calls made on the gate are `n` times a `sqlite_lock` followed by its `sqlite_unlock`, all
in that mode. -/
def balanced_call (write : Bool) (t : pthread_t) (n : Nat) (w : World) (res : Option World) :
    Prop :=
  ((sqlite_lock_pass write t w.gate).1 = true → res.isSome = true) ∧
  ∀ w1, res = some w1 →
    w1.gate = w.gate ∧
    w1.gate_calls =
      w.gate_calls ++ (List.replicate n [GateEvent.lock t write, GateEvent.unlock t write]).flatten
/-! ## Theorems -/

theorem holds_cons (w : Bool) (h : pthread_t × Bool) (l : List (pthread_t × Bool)) :
    holds w (h :: l) = holds w l + (if h.2 = w then 1 else 0) := by
  simp [holds, List.countP_cons]

theorem holds_erase (w : Bool) (h : pthread_t × Bool) (l : List (pthread_t × Bool))
    (hm : h ∈ l) : holds w (l.erase h) + (if h.2 = w then 1 else 0) = holds w l := by
  induction l with
  | nil => simp at hm
  | cons a l ih =>
    by_cases hah : a = h
    · subst hah
      simp [holds_cons]
    · have hm' : h ∈ l := by
        rcases List.mem_cons.1 hm with h1 | h1
        · exact absurd h1.symm hah
        · exact h1
      have hne : (a == h) = false := by simpa using hah
      rw [List.erase_cons, hne]
      simp only [Bool.false_eq_true, if_false, holds_cons]
      have := ih hm'
      omega

theorem holds_pos_of_mem (t : pthread_t) (w : Bool) (l : List (pthread_t × Bool))
    (hm : (t, w) ∈ l) : 0 < holds w l := by
  unfold holds
  rw [List.countP_pos_iff]
  exact ⟨(t, w), hm, by simp⟩

theorem held_nil_of_holds_zero (l : List (pthread_t × Bool))
    (h0 : holds false l = 0) (h1 : holds true l = 0) : l = [] := by
  cases l with
  | nil => rfl
  | cons a l =>
    rcases a with ⟨t, w⟩
    cases w
    · have := holds_pos_of_mem t false ((t, false) :: l) (by simp); omega
    · have := holds_pos_of_mem t true ((t, true) :: l) (by simp); omega

theorem gateInv_init : GateInv GateSys.init := by
  simp [GateInv, GateSys.init, Gate.idle, holds, null_thread]

theorem gateInv_step (s s' : GateSys) (e : GateEvent) (hinv : GateInv s)
    (hs : gate_step s e = some s') : GateInv s' := by
  obtain ⟨hr, hw, hnull, hwr⟩ := hinv
  cases e with
  | lock t write =>
    simp only [gate_step] at hs
    by_cases ht : t = null_thread
    · simp [ht] at hs
    · simp only [ht, if_false] at hs
      cases write with
      | false =>
        by_cases hadm : s.gate.write_thread = null_thread ∨ s.gate.write_thread = t
        · simp [sqlite_lock_pass, hadm] at hs
          subst hs
          refine ⟨?_, ?_, ?_, ?_⟩
          · simp [holds_cons, hr]
          · simp [holds_cons, hw]
          · intro h; simpa [holds_cons] using hnull h
          · intro h
            have := hwr h
            refine ⟨by simpa [holds_cons] using this.1, ?_⟩
            intro x hx
            rcases List.mem_cons.1 hx with hx | hx
            · subst hx
              rcases hadm with h1 | h1
              · exact absurd h1 h
              · exact h1.symm
            · exact this.2 x hx
        · simp [sqlite_lock_pass, hadm] at hs
          subst hs
          exact ⟨hr, hw, hnull, hwr⟩
      | true =>
        by_cases hadm : (s.gate.write_thread = null_thread ∧ s.gate.read_threads < 1) ∨
            s.gate.write_thread = t
        · simp [sqlite_lock_pass, hadm] at hs
          subst hs
          refine ⟨?_, ?_, ?_, ?_⟩
          · simp [holds_cons, hr]
          · simp [holds_cons, hw]
          · intro h; exact absurd h ht
          · intro _
            refine ⟨by simp [holds_cons], ?_⟩
            intro x hx
            rcases List.mem_cons.1 hx with hx | hx
            · subst hx; rfl
            · rcases hadm with ⟨h1, h2⟩ | h1
              · have hz : holds false s.held = 0 := by omega
                have hnil := held_nil_of_holds_zero s.held hz (hnull h1)
                rw [hnil] at hx
                simp at hx
              · have h3 : s.gate.write_thread ≠ null_thread := by rw [h1]; exact ht
                have := (hwr h3).2 x hx
                simpa [h1] using this
        · simp [sqlite_lock_pass, hadm] at hs
          subst hs
          exact ⟨hr, hw, hnull, hwr⟩
  | unlock t write =>
    simp only [gate_step] at hs
    by_cases hm : (t, write) ∈ s.held
    · simp only [hm, if_true, Option.some.injEq] at hs
      subst hs
      have he := fun w => holds_erase w (t, write) s.held hm
      cases write with
      | false =>
        have hef := he false
        have het := he true
        simp at hef het
        have hrd : (sqlite_unlock false s.gate).1 =
            { s.gate with read_threads := s.gate.read_threads - 1 } := by
          unfold sqlite_unlock; split_ifs <;> simp_all
        simp only [hrd]
        refine ⟨?_, ?_, ?_, ?_⟩
        · simp; omega
        · simp [het, hw]
        · intro h; simp at h; rw [het]; exact hnull h
        · intro h
          simp at h
          have := hwr h
          refine ⟨by rw [het]; exact this.1, ?_⟩
          intro x hx
          exact this.2 x (List.mem_of_mem_erase hx)
      | true =>
        have hef := he false
        have het := he true
        simp at hef het
        have hpos := holds_pos_of_mem t true s.held hm
        have hwt : s.gate.write_thread ≠ null_thread := by
          intro h; have := hnull h; omega
        by_cases hz : s.gate.write_level - 1 = 0
        · simp only [sqlite_unlock, hz, if_true]
          refine ⟨?_, ?_, ?_, ?_⟩
          · simp [hef, hr]
          · simp; omega
          · intro _; dsimp only; omega
          · intro h; simp at h
        · simp only [sqlite_unlock, hz, if_true, if_false]
          refine ⟨?_, ?_, ?_, ?_⟩
          · simp [hef, hr]
          · simp; omega
          · intro h; exact absurd h hwt
          · intro _
            refine ⟨by dsimp only; omega, ?_⟩
            intro x hx
            exact (hwr hwt).2 x (List.mem_of_mem_erase hx)
    · simp [hm] at hs

theorem gateInv_run (evs : List GateEvent) (s s' : GateSys) (hinv : GateInv s)
    (hs : gate_run evs s = some s') : GateInv s' := by
  induction evs generalizing s with
  | nil => simp [gate_run] at hs; subst hs; exact hinv
  | cons e es ih =>
    simp only [gate_run] at hs
    cases hstep : gate_step s e with
    | none => simp [hstep] at hs
    | some s1 =>
      simp [hstep] at hs
      exact ih s1 (gateInv_step s s1 e hinv hstep) hs

/-- C1. Gate mutual exclusion: in every state reached from the idle gate by a schedule of
`sqlite_lock` passes and `sqlite_unlock` calls in which a thread releases only a mode it
holds, the writer identity is set exactly when `write_level > 0`, every write hold
belongs to `write_thread`, while a writer holds the gate every read hold belongs to that
writer too, and the two counters are non-negative (they count the outstanding holds). -/
theorem gate_mutual_exclusion (evs : List GateEvent) (s : GateSys)
    (hrun : gate_run evs GateSys.init = some s) :
    (s.gate.write_thread ≠ null_thread ↔ 0 < s.gate.write_level) ∧
    (∀ t, (t, true) ∈ s.held → t = s.gate.write_thread) ∧
    (s.gate.write_thread ≠ null_thread →
      ∀ t, (t, false) ∈ s.held → t = s.gate.write_thread) ∧
    0 ≤ s.gate.read_threads ∧ 0 ≤ s.gate.write_level ∧
    s.gate.read_threads = (holds false s.held : Int) ∧
    s.gate.write_level = (holds true s.held : Int) := by
  obtain ⟨hr, hw, hnull, hwr⟩ := gateInv_run evs GateSys.init s gateInv_init hrun
  refine ⟨⟨fun h => ?_, fun h => ?_⟩, ?_, ?_, ?_, ?_, hr, hw⟩
  · have := (hwr h).1; omega
  · intro h0; have := hnull h0; omega
  · intro t ht
    have hpos := holds_pos_of_mem t true s.held ht
    have hwt : s.gate.write_thread ≠ null_thread := by
      intro h0; have := hnull h0; omega
    exact (hwr hwt).2 (t, true) ht
  · intro hwt t ht
    exact (hwr hwt).2 (t, false) ht
  · omega
  · omega

/-- A schedule for C1: thread 1 takes write, then read; thread 2 asks for read and is
not admitted; thread 1 releases write; thread 2 is admitted for read. -/
theorem gate_mutual_exclusion_witness :
    gate_run [.lock 1 true, .lock 1 false, .lock 2 false, .unlock 1 true, .lock 2 false]
        GateSys.init = some ⟨⟨2, 0, 0⟩, [(2, false), (1, false)]⟩ ∧
    ((0 : pthread_t) ≠ null_thread ↔ (0 : Int) < 0) ∧
    (∀ t, (t, true) ∈ [((2 : pthread_t), false), (1, false)] → t = 0) ∧
    ((0 : pthread_t) ≠ null_thread →
      ∀ t, (t, false) ∈ [((2 : pthread_t), false), (1, false)] → t = 0) ∧
    (0 : Int) ≤ 2 ∧ (0 : Int) ≤ 0 ∧
    (2 : Int) = (holds false [((2 : pthread_t), false), (1, false)] : Int) ∧
    (0 : Int) = (holds true [((2 : pthread_t), false), (1, false)] : Int) :=
  ⟨by decide,
   gate_mutual_exclusion
     [.lock 1 true, .lock 1 false, .lock 2 false, .unlock 1 true, .lock 2 false]
     ⟨⟨2, 0, 0⟩, [(2, false), (1, false)]⟩ (by decide)⟩

theorem sqlite_lock_admitted (fuel : Nat) (write : Bool) (t : pthread_t) (g : Gate)
    (h : (sqlite_lock_pass write t g).1 = true) :
    sqlite_lock (fuel + 1) write t g = some (sqlite_lock_pass write t g).2 := by
  simp [sqlite_lock, h]

theorem sqlite_lock_blocked (fuel : Nat) (write : Bool) (t : pthread_t) (g : Gate)
    (h : (sqlite_lock_pass write t g).1 = false) :
    (sqlite_lock_pass write t g).2 = g ∧ sqlite_lock fuel write t g = none := by
  have hst : (sqlite_lock_pass write t g).2 = g := by
    unfold sqlite_lock_pass at h ⊢
    split_ifs at h ⊢ <;> simp_all
  refine ⟨hst, ?_⟩
  induction fuel with
  | zero => rfl
  | succ n ih => simp [sqlite_lock, h, hst, ih]

/-- C2. Gate admission condition, for a gate whose reader count is a count
(`0 ≤ read_threads`): a read-mode `sqlite_lock` by `t` is admitted iff no writer holds the
gate or `t` is the writer, whatever the reader count, and then returns with
`read_threads` incremented; a write-mode `sqlite_lock` is admitted iff there is no writer
and the reader count is zero, or `t` is the writer, and then returns with `write_level`
incremented and `write_thread = t`.  A call that is not admitted leaves the gate
unchanged and does not return, however many passes it makes. -/
theorem gate_admission (g : Gate) (t : pthread_t) (h0 : 0 ≤ g.read_threads) :
    ((sqlite_lock_pass false t g).1 = true ↔ read_admitted g t) ∧
    (read_admitted g t → ∀ fuel, sqlite_lock (fuel + 1) false t g =
        some { g with read_threads := g.read_threads + 1 }) ∧
    (¬ read_admitted g t →
        (sqlite_lock_pass false t g).2 = g ∧ ∀ fuel, sqlite_lock fuel false t g = none) ∧
    ((sqlite_lock_pass true t g).1 = true ↔ write_admitted g t) ∧
    (write_admitted g t → ∀ fuel, sqlite_lock (fuel + 1) true t g =
        some { g with write_level := g.write_level + 1, write_thread := t }) ∧
    (¬ write_admitted g t →
        (sqlite_lock_pass true t g).2 = g ∧ ∀ fuel, sqlite_lock fuel true t g = none) := by
  have hw : write_admitted g t ↔
      ((g.write_thread = null_thread ∧ g.read_threads < 1) ∨ g.write_thread = t) := by
    unfold write_admitted
    constructor
    · rintro (⟨h1, h2⟩ | h1)
      · exact Or.inl ⟨h1, by omega⟩
      · exact Or.inr h1
    · rintro (⟨h1, h2⟩ | h1)
      · exact Or.inl ⟨h1, by omega⟩
      · exact Or.inr h1
  have hrp : (sqlite_lock_pass false t g).1 = true ↔ read_admitted g t := by
    unfold sqlite_lock_pass read_admitted
    by_cases h : g.write_thread = null_thread ∨ g.write_thread = t <;> simp [h]
  have hwp : (sqlite_lock_pass true t g).1 = true ↔ write_admitted g t := by
    rw [hw]
    unfold sqlite_lock_pass
    by_cases h : (g.write_thread = null_thread ∧ g.read_threads < 1) ∨ g.write_thread = t <;>
      simp [h]
  refine ⟨hrp, ?_, ?_, hwp, ?_, ?_⟩
  · intro h fuel
    rw [sqlite_lock_admitted fuel false t g (hrp.2 h)]
    unfold read_admitted at h
    simp [sqlite_lock_pass, h]
  · intro h
    have hb : (sqlite_lock_pass false t g).1 = false := by
      cases hc : (sqlite_lock_pass false t g).1
      · rfl
      · exact absurd (hrp.1 hc) h
    exact ⟨(sqlite_lock_blocked 0 false t g hb).1, fun fuel =>
      (sqlite_lock_blocked fuel false t g hb).2⟩
  · intro h fuel
    rw [sqlite_lock_admitted fuel true t g (hwp.2 h)]
    rw [hw] at h
    simp [sqlite_lock_pass, h]
  · intro h
    have hb : (sqlite_lock_pass true t g).1 = false := by
      cases hc : (sqlite_lock_pass true t g).1
      · rfl
      · exact absurd (hwp.1 hc) h
    exact ⟨(sqlite_lock_blocked 0 true t g hb).1, fun fuel =>
      (sqlite_lock_blocked fuel true t g hb).2⟩

/-- C10. Gate release: `sqlite_unlock` in write mode lowers `write_level` by one, leaves
`read_threads` alone, and clears `write_thread` and broadcasts exactly when the new level
is zero; in read mode it lowers `read_threads` by one, leaves `write_level` and
`write_thread` alone, and broadcasts exactly when the new count is zero. -/
theorem gate_release (g : Gate) :
    (sqlite_unlock true g).1.write_level = g.write_level - 1 ∧
    (sqlite_unlock true g).1.read_threads = g.read_threads ∧
    (g.write_level - 1 = 0 →
      (sqlite_unlock true g).1.write_thread = null_thread ∧ (sqlite_unlock true g).2 = true) ∧
    (g.write_level - 1 ≠ 0 →
      (sqlite_unlock true g).1.write_thread = g.write_thread ∧
      (sqlite_unlock true g).2 = false) ∧
    (sqlite_unlock false g).1.read_threads = g.read_threads - 1 ∧
    (sqlite_unlock false g).1.write_level = g.write_level ∧
    (sqlite_unlock false g).1.write_thread = g.write_thread ∧
    ((sqlite_unlock false g).2 = true ↔ g.read_threads - 1 = 0) := by
  unfold sqlite_unlock
  by_cases hw : g.write_level - 1 = 0 <;> by_cases hr : g.read_threads - 1 = 0 <;>
    simp [hw, hr]

/-! ### Statement text -/

/-- A text without a quote character. -/
theorem split_quotes_clean (a : Str) (h : QUOTE ∉ a) : split_quotes a = [a] := by
  induction a with
  | nil => rfl
  | cons c cs ih =>
    have hc : c ≠ QUOTE := fun hc => h (by simp [hc])
    have hcs : QUOTE ∉ cs := fun hm => h (List.mem_cons_of_mem _ hm)
    simp [split_quotes, hc, ih hcs]

theorem split_quotes_append (a rest : Str) (h : QUOTE ∉ a) :
    split_quotes (a ++ QUOTE :: rest) = a :: split_quotes rest := by
  induction a with
  | nil => simp [split_quotes]
  | cons c cs ih =>
    have hc : c ≠ QUOTE := fun hc => h (by simp [hc])
    have hcs : QUOTE ∉ cs := fun hm => h (List.mem_cons_of_mem _ hm)
    simp [split_quotes, hc, ih hcs]

theorem split_quotes_quoted (c0 a rest : Str) (h0 : QUOTE ∉ c0) (ha : QUOTE ∉ a) :
    split_quotes (c0 ++ (quoted a ++ rest)) = c0 :: a :: split_quotes rest := by
  have : c0 ++ (quoted a ++ rest) = c0 ++ QUOTE :: (a ++ QUOTE :: rest) := by
    simp [quoted]
  rw [this, split_quotes_append _ _ h0, split_quotes_append _ _ ha]

theorem parse_statement_one (c0 a c1 : Str) (h0 : QUOTE ∉ c0) (ha : QUOTE ∉ a)
    (h1 : QUOTE ∉ c1) :
    parse_statement (c0 ++ (quoted a ++ c1)) = parse1 c0 a c1 := by
  unfold parse_statement
  rw [split_quotes_quoted _ _ _ h0 ha, split_quotes_clean _ h1]

theorem parse_statement_two (c0 a c1 b c2 : Str) (h0 : QUOTE ∉ c0) (ha : QUOTE ∉ a)
    (h1 : QUOTE ∉ c1) (hb : QUOTE ∉ b) (h2 : QUOTE ∉ c2) :
    parse_statement (c0 ++ (quoted a ++ (c1 ++ (quoted b ++ c2)))) = parse2 c0 a c1 b c2 := by
  unfold parse_statement
  rw [split_quotes_quoted _ _ _ h0 ha, split_quotes_quoted _ _ _ h1 hb,
    split_quotes_clean _ h2]

theorem parse_statement_three (c0 a c1 b c2 c c3 : Str) (h0 : QUOTE ∉ c0) (ha : QUOTE ∉ a)
    (h1 : QUOTE ∉ c1) (hb : QUOTE ∉ b) (h2 : QUOTE ∉ c2) (hc : QUOTE ∉ c) (h3 : QUOTE ∉ c3) :
    parse_statement (c0 ++ (quoted a ++ (c1 ++ (quoted b ++ (c2 ++ (quoted c ++ c3)))))) =
      parse3 c0 a c1 b c2 c c3 := by
  unfold parse_statement
  rw [split_quotes_quoted _ _ _ h0 ha, split_quotes_quoted _ _ _ h1 hb,
    split_quotes_quoted _ _ _ h2 hc, split_quotes_clean _ h3]

theorem snprintf_fits (size : Nat) (text : Str) (h : text.length < size) :
    snprintf size text = text := by
  unfold snprintf
  exact List.take_of_length_le (by omega)

/-- The text of the lookup of a user key compiles to the lookup. -/
theorem parse_select_hmackey (usname realm : Str) (hu : QUOTE ∉ usname) (hr : QUOTE ∉ realm) :
    parse_statement (lit "select hmackey from turnusers_lt where name=" ++ quoted usname ++
        lit " and realm=" ++ quoted realm) =
      some (.select .turnusers_lt [2] [(1, usname), (0, realm)] []) := by
  have h := parse_statement_two (lit "select hmackey from turnusers_lt where name=") usname
    (lit " and realm=") realm [] (by decide) hu (by decide) hr (by simp)
  simp only [List.append_nil] at h
  simp only [List.append_assoc]
  rw [h]
  simp [parse2]

/-- The text of the upsert of a user key compiles to the upsert. -/
theorem parse_upsert_user (usname realm key : Str) (hu : QUOTE ∉ usname) (hr : QUOTE ∉ realm)
    (hk : QUOTE ∉ key) :
    parse_statement (lit "insert or replace into turnusers_lt (realm,name,hmackey) values(" ++
        quoted realm ++ lit "," ++ quoted usname ++ lit "," ++ quoted key ++ lit ")") =
      some (.upsert .turnusers_lt [realm, usname, key]) := by
  have h := parse_statement_three
    (lit "insert or replace into turnusers_lt (realm,name,hmackey) values(") realm
    (lit ",") usname (lit ",") key (lit ")") (by decide) hr (by decide) hu (by decide) hk
    (by decide)
  simp only [List.append_assoc]
  rw [h]
  simp [parse3]

/-! ### Connection and gate steps of an operation -/

theorem get_sqlite_connection_cached (C : Consts) (t : pthread_t) (e : Env) (w : World)
    (c : sqlite3) (h : pthread_getspecific t w = some c) :
    get_sqlite_connection C t e w = (some c, w) := by
  simp [get_sqlite_connection, h]

/-- What `get_sqlite_connection` leaves alone when it yields a handle, and that the
handle is cached afterwards. -/
theorem get_sqlite_connection_frame (C : Consts) (t : pthread_t) (e : Env) (w w0 : World)
    (c : sqlite3) (h : get_sqlite_connection C t e w = (some c, w0)) :
    w0.db = w.db ∧ w0.gate = w.gate ∧ w0.gate_calls = w.gate_calls ∧ w0.live = w.live ∧
    w0.stdout = w.stdout ∧ pthread_getspecific t w0 = some c := by
  unfold get_sqlite_connection at h
  cases hg : pthread_getspecific t w with
  | some c' =>
    rw [hg] at h
    simp only [Prod.mk.injEq, Option.some.injEq] at h
    obtain ⟨h1, h2⟩ := h
    subst h1 h2
    exact ⟨rfl, rfl, rfl, rfl, rfl, hg⟩
  | none =>
    rw [hg] at h
    simp only at h
    cases hc : e.open_conn with
    | none => rw [hc] at h; simp at h
    | some c' =>
      rw [hc] at h
      simp only at h
      by_cases hrc : e.open_rc ≠ SQLITE_OK
      · rw [if_pos hrc] at h; simp at h
      · rw [if_neg hrc] at h
        simp only [Prod.mk.injEq, Option.some.injEq] at h
        obtain ⟨h1, h2⟩ := h
        subst h1 h2
        refine ⟨rfl, rfl, rfl, rfl, rfl, ?_⟩
        simp [pthread_getspecific, pthread_setspecific]

theorem usable_handle_iff (C : Consts) (t : pthread_t) (e : Env) (w : World) :
    usable_handle C t e w ↔
      ((pthread_getspecific t w).isSome = true ∨
        (e.open_conn.isSome = true ∧ e.open_rc = SQLITE_OK)) := by
  unfold usable_handle get_sqlite_connection
  cases hg : pthread_getspecific t w with
  | some c => simp
  | none =>
    cases hc : e.open_conn with
    | none => simp
    | some c =>
      by_cases hrc : e.open_rc = SQLITE_OK
      · simp [hrc]
      · simp [hrc]

theorem usable_handle_flag (C : Consts) (t : pthread_t) (e : Env) (w : World) (b : Bool) :
    usable_handle C t e { w with donot_print_connection_success := b } ↔
      usable_handle C t e w := by
  rw [usable_handle_iff, usable_handle_iff]
  rfl

theorem usable_handle_of_cached (C : Consts) (t : pthread_t) (e : Env) (w : World)
    (c : sqlite3) (h : pthread_getspecific t w = some c) : usable_handle C t e w := by
  rw [usable_handle_iff, h]
  exact Or.inl rfl

theorem usable_handle_get (C : Consts) (t : pthread_t) (e : Env) (w : World)
    (h : usable_handle C t e w) :
    ∃ c w0, get_sqlite_connection C t e w = (some c, w0) := by
  unfold usable_handle at h
  cases hg : get_sqlite_connection C t e w with
  | mk oc w0 =>
    cases oc with
    | none => rw [hg] at h; cases h
    | some c => exact ⟨c, w0, rfl⟩

theorem lock_pass_thread (write : Bool) (t : pthread_t) (g : Gate)
    (h : (sqlite_lock_pass write t g).1 = true) :
    (sqlite_lock_pass write t g).2.write_thread = null_thread ∨
      (sqlite_lock_pass write t g).2.write_thread = t := by
  unfold sqlite_lock_pass at h ⊢
  split_ifs at h ⊢ <;> simp_all

theorem read_pass_iff (t : pthread_t) (g : Gate) :
    (sqlite_lock_pass false t g).1 = true ↔
      (g.write_thread = null_thread ∨ g.write_thread = t) := by
  unfold sqlite_lock_pass
  by_cases h : g.write_thread = null_thread ∨ g.write_thread = t <;> simp [h]

/-- After a lock in some mode followed by the unlock in that mode the writer is nobody
or the caller, so the caller is admitted for reading. -/
theorem read_pass_after_bracket (write : Bool) (t : pthread_t) (g : Gate)
    (h : (sqlite_lock_pass write t g).1 = true) :
    (sqlite_lock_pass false t (sqlite_unlock write (sqlite_lock_pass write t g).2).1).1 = true := by
  have h1 := lock_pass_thread write t g h
  have h2 : (sqlite_unlock write (sqlite_lock_pass write t g).2).1.write_thread = null_thread ∨
      (sqlite_unlock write (sqlite_lock_pass write t g).2).1.write_thread = t := by
    unfold sqlite_unlock
    split_ifs <;> simp_all
  exact (read_pass_iff t _).2 h2

theorem read_pass_of_write_pass (t : pthread_t) (g : Gate)
    (h : (sqlite_lock_pass true t g).1 = true) : (sqlite_lock_pass false t g).1 = true := by
  unfold sqlite_lock_pass at h ⊢
  by_cases h1 : (g.write_thread = null_thread ∧ g.read_threads < 1) ∨ g.write_thread = t
  · have : g.write_thread = null_thread ∨ g.write_thread = t := by tauto
    simp [this]
  · simp [h1] at h

/-! ### The user table -/

theorem row_matches_user (u r : Str) (row : Row) :
    row_matches [(1, u), (0, r)] row =
      (sqlite3_column_text row 1 == u && sqlite3_column_text row 0 == r) := by
  simp [row_matches]

theorem same_key_user (u r k : Str) (row : Row) :
    (project (primary_key .turnusers_lt) row == project (primary_key .turnusers_lt) [r, u, k]) =
      (sqlite3_column_text row 0 == r && sqlite3_column_text row 1 == u) := by
  simp [project, primary_key, sqlite3_column_text]

/-- The rows found for `(u, r)` after the upsert of `(r, u, k)`: the new row only. -/
theorem filter_user_after_upsert (u r k : Str) (rows : List Row) :
    (rows.filter (fun row => !(project (primary_key .turnusers_lt) row ==
        project (primary_key .turnusers_lt) [r, u, k])) ++ [[r, u, k]]).filter
      (row_matches [(1, u), (0, r)]) = [[r, u, k]] := by
  rw [List.filter_append, List.filter_filter]
  have h1 : rows.filter (fun row => row_matches [(1, u), (0, r)] row &&
      !(project (primary_key .turnusers_lt) row ==
        project (primary_key .turnusers_lt) [r, u, k])) = [] := by
    rw [List.filter_eq_nil_iff]
    intro row _
    rw [row_matches_user, same_key_user]
    cases sqlite3_column_text row 1 == u <;> cases sqlite3_column_text row 0 == r <;> simp
  rw [h1]
  simp [row_matches, sqlite3_column_text]

/-- The rows found for another key after the upsert of `(r, u, k)`: as before. -/
theorem filter_other_after_upsert (u r k u' r' : Str) (rows : List Row)
    (hne : u' ≠ u ∨ r' ≠ r) :
    (rows.filter (fun row => !(project (primary_key .turnusers_lt) row ==
        project (primary_key .turnusers_lt) [r, u, k])) ++ [[r, u, k]]).filter
      (row_matches [(1, u'), (0, r')]) = rows.filter (row_matches [(1, u'), (0, r')]) := by
  rw [List.filter_append, List.filter_filter]
  have h2 : [[r, u, k]].filter (row_matches [(1, u'), (0, r')]) = [] := by
    rw [List.filter_eq_nil_iff]
    intro row hrow
    simp at hrow
    subst hrow
    simp [row_matches, sqlite3_column_text]
    intro h; rcases hne with h' | h'
    · exact absurd h.symm h'
    · exact fun h2 => h' h2.symm
  rw [h2, List.append_nil]
  apply List.filter_congr
  intro row _
  rw [row_matches_user, same_key_user]
  by_cases h0 : sqlite3_column_text row 0 = r <;> by_cases h1 : sqlite3_column_text row 1 = u
  · subst h0 h1
    have : ¬ (sqlite3_column_text row 1 = u' ∧ sqlite3_column_text row 0 = r') := by
      rintro ⟨ha, hb⟩
      rcases hne with h' | h'
      · exact h' ha.symm
      · exact h' hb.symm
    simp only [beq_self_eq_true, Bool.and_self, Bool.not_true, Bool.and_false]
    by_contra hc
    simp at hc
    exact this hc
  · simp [h0, h1]
  · simp [h0, h1]
  · simp [h0, h1]

theorem pthread_getspecific_flag (t : pthread_t) (w : World) (b : Bool) :
    pthread_getspecific t { w with donot_print_connection_success := b } =
      pthread_getspecific t w := rfl

/-- What a returned write statement tells: the gate admitted the writer, and the return
value is `0` exactly when the statement was prepared, in which case it was stepped. -/
theorem write_statement_returns (t : pthread_t) (f : Fault) (text : Str) (w w' : World)
    (ret : Int) (h : write_statement t f text w = some (ret, w')) :
    (sqlite_lock_pass true t w.gate).1 = true ∧
    ((∃ st, sqlite3_prepare f text = some st ∧ ret = 0 ∧
        w' = World.unlock true t
          { w with gate := (sqlite_lock_pass true t w.gate).2,
                   gate_calls := w.gate_calls ++ [.lock t true],
                   db := step_write f st w.db }) ∨
     (sqlite3_prepare f text = none ∧ ret = -1 ∧
        w' = World.unlock true t
          { w with gate := (sqlite_lock_pass true t w.gate).2,
                   gate_calls := w.gate_calls ++ [.lock t true] })) := by
  unfold write_statement World.lock at h
  by_cases hl : (sqlite_lock_pass true t w.gate).1 = true
  · refine ⟨hl, ?_⟩
    simp only [hl, if_true, Option.map_some'] at h
    cases hp : sqlite3_prepare f text with
    | none =>
      rw [hp] at h
      simp only [Option.some.injEq, Prod.mk.injEq] at h
      exact Or.inr ⟨rfl, h.1.symm, h.2.symm⟩
    | some st =>
      rw [hp] at h
      simp only [Option.some.injEq, Prod.mk.injEq] at h
      exact Or.inl ⟨st, rfl, h.1.symm, h.2.symm⟩
  · simp [hl] at h

/-- A keyed lookup of a user key by a thread that has a usable handle and is admitted for
reading, on a backend without fault: the return value and the key. -/
theorem get_user_key_result (C : Consts) (t : pthread_t) (u r : Str)
    (key : hmackey_t) (e : Env) (w : World)
    (husable : usable_handle C t e w)
    (hadm : (sqlite_lock_pass false t w.gate).1 = true)
    (hu : QUOTE ∉ u) (hr : QUOTE ∉ r)
    (hlen : (lit "select hmackey from turnusers_lt where name=" ++ quoted u ++
        lit " and realm=" ++ quoted r).length < C.TURN_LONG_STRING_SIZE)
    (hf : e.fault = Fault.none) :
    (sqlite_get_user_key C t u r key e w).map (fun x => (x.1, x.2.1)) =
      some (match (w.db.turnusers_lt.filter (row_matches [(1, u), (0, r)])).head? with
        | some row =>
          (0, C.convert_string_key_to_binary (sqlite3_column_text row 2) C.hmackey_size)
        | none => (-1, key)) := by
  obtain ⟨c, w0, hg⟩ := usable_handle_get C t e w husable
  obtain ⟨hdb, hgate, -, -, -, -⟩ := get_sqlite_connection_frame C t e w w0 c hg
  unfold sqlite_get_user_key
  rw [hg]
  rw [← hgate] at hadm
  simp only [lookup_statement, World.lock, hadm, if_true, Option.map_some', sqlite3_prepare, hf,
    Fault.none, Bool.false_eq_true, if_false]
  rw [snprintf_fits _ _ hlen, parse_select_hmackey u r hu hr]
  simp only [step_first, Stmt.rows, Db.get, if_true, reduceCtorEq, if_false, List.head?_map, hdb]
  cases (w.db.turnusers_lt.filter (row_matches [(1, u), (0, r)])).head? with
  | none => simp
  | some row => simp [project, sqlite3_column_text]

/-- The round trip of a credential when the upsert is executed: `u`, `r`, `K` hold no
quote character and the upsert statement fits the statement buffer; `sqlite_set_user_key(u,
r, K)` has returned `0` (so the thread has a usable handle) and the backend stepped its
statement without error; the backend prepares and steps the lookup without error.  Then
`sqlite_get_user_key(u, r)` returns `0` with the key material that `K` encodes, whatever
the store held for `(r, u)` before, and for every other `(r', u')` the lookup gives the
same return value and key as it gave before the upsert. -/
theorem upsert_then_get_executed (C : Consts) (t : pthread_t) (u r K : Str)
    (key0 : hmackey_t) (e e' : Env) (w w1 : World)
    (hu : QUOTE ∉ u) (hr : QUOTE ∉ r) (hK : QUOTE ∉ K)
    (hlen : (lit "insert or replace into turnusers_lt (realm,name,hmackey) values(" ++
        quoted r ++ lit "," ++ quoted u ++ lit "," ++ quoted K ++ lit ")").length <
        C.TURN_LONG_STRING_SIZE)
    (hstep : e.fault.step ≠ some 0)
    (hget : e'.fault = Fault.none)
    (hset : sqlite_set_user_key C t u r K e w = some (0, w1)) :
    (sqlite_get_user_key C t u r key0 e' w1).map (fun x => (x.1, x.2.1)) =
      some (0, C.convert_string_key_to_binary K C.hmackey_size) ∧
    ∀ u' r' : Str, (u' ≠ u ∨ r' ≠ r) → QUOTE ∉ u' → QUOTE ∉ r' →
      (lit "select hmackey from turnusers_lt where name=" ++ quoted u' ++
        lit " and realm=" ++ quoted r').length < C.TURN_LONG_STRING_SIZE →
      usable_handle C t e' w →
      (sqlite_get_user_key C t u' r' key0 e' w1).map (fun x => (x.1, x.2.1)) =
        (sqlite_get_user_key C t u' r' key0 e' w).map (fun x => (x.1, x.2.1)) := by
  unfold sqlite_set_user_key at hset
  cases hg : get_sqlite_connection C t e { w with donot_print_connection_success := true } with
  | mk oc w0 =>
  rw [hg] at hset
  cases oc with
  | none => simp at hset
  | some c =>
  simp only at hset
  obtain ⟨hdb0, hgate0, -, -, -, hc0⟩ := get_sqlite_connection_frame C t e _ w0 c hg
  simp only at hdb0 hgate0
  obtain ⟨hadm, hcase⟩ := write_statement_returns _ _ _ _ _ _ hset
  rcases hcase with ⟨st, hprep, -, hw1⟩ | ⟨-, hret, -⟩
  swap
  · omega
  rw [snprintf_fits _ _ hlen] at hprep
  unfold sqlite3_prepare at hprep
  split_ifs at hprep
  rw [parse_upsert_user u r K hu hr hK] at hprep
  simp only [Option.some.injEq] at hprep
  subst hprep
  have hdb : w1.db = Stmt.exec w.db (.upsert .turnusers_lt [r, u, K]) := by
    rw [hw1]; simp [World.unlock, step_write, hstep, hdb0]
  have husable1 : usable_handle C t e' w1 := by
    apply usable_handle_of_cached C t e' w1 c
    rw [hw1]; exact hc0
  have hadm1 : (sqlite_lock_pass false t w1.gate).1 = true := by
    rw [hw1]
    exact read_pass_after_bracket true t w0.gate hadm
  have husers : w1.db.turnusers_lt =
      w.db.turnusers_lt.filter (fun row => !(project (primary_key .turnusers_lt) row ==
        project (primary_key .turnusers_lt) [r, u, K])) ++ [[r, u, K]] := by
    rw [hdb]; rfl
  have hlen1 : (lit "select hmackey from turnusers_lt where name=" ++ quoted u ++
        lit " and realm=" ++ quoted r).length < C.TURN_LONG_STRING_SIZE := by
    simp only [List.length_append, quoted, List.length_cons, lit, List.length_nil] at hlen ⊢
    have h1 : "insert or replace into turnusers_lt (realm,name,hmackey) values(".toList.length
        = 64 := by decide
    have h2 : "select hmackey from turnusers_lt where name=".toList.length = 44 := by decide
    have h3 : " and realm=".toList.length = 11 := by decide
    have h4 : ",".toList.length = 1 := by decide
    have h5 : ")".toList.length = 1 := by decide
    omega
  constructor
  · rw [get_user_key_result C t u r key0 e' w1 husable1 hadm1 hu hr hlen1 hget, husers,
      filter_user_after_upsert]
    simp [sqlite3_column_text]
  · intro u' r' hne hu' hr' hlen' husable'
    rw [hgate0] at hadm
    rw [get_user_key_result C t u' r' key0 e' w1 husable1 hadm1 hu' hr' hlen' hget,
      get_user_key_result C t u' r' key0 e' w husable'
        (read_pass_of_write_pass t w.gate hadm) hu' hr' hlen' hget, husers,
      filter_other_after_upsert u r K u' r' _ hne]

/-- C3.  Credential upsert-then-get round trip.  When the step of the upsert is executed
(`u`, `r`, `K` without a quote character, the statement within the buffer,
`sqlite_set_user_key(u, r, K)` returned `0` and the lookup runs on a backend without
fault), `sqlite_get_user_key(u, r)` returns `0` with the key material that `K` encodes,
whatever the store held for `(r, u)` before, and for every other `(r', u')` the lookup
gives the same return value and key as before the upsert.  At the failing input the
backend prepares the upsert of Alice's key and fails its step: `sqlite_set_user_key`
returns `0` all the same, no row is stored, and the lookup that follows on a backend
without fault returns `-1` and writes no key. -/
theorem upsert_then_get (C : Consts) (t : pthread_t) (u r K : Str)
    (key0 : hmackey_t) (e e' : Env) (w w1 : World) :
    (QUOTE ∉ u → QUOTE ∉ r → QUOTE ∉ K →
      (lit "insert or replace into turnusers_lt (realm,name,hmackey) values(" ++
        quoted r ++ lit "," ++ quoted u ++ lit "," ++ quoted K ++ lit ")").length <
        C.TURN_LONG_STRING_SIZE →
      e.fault.step ≠ some 0 →
      e'.fault = Fault.none →
      sqlite_set_user_key C t u r K e w = some (0, w1) →
      (sqlite_get_user_key C t u r key0 e' w1).map (fun x => (x.1, x.2.1)) =
        some (0, C.convert_string_key_to_binary K C.hmackey_size) ∧
      ∀ u' r' : Str, (u' ≠ u ∨ r' ≠ r) → QUOTE ∉ u' → QUOTE ∉ r' →
        (lit "select hmackey from turnusers_lt where name=" ++ quoted u' ++
          lit " and realm=" ++ quoted r').length < C.TURN_LONG_STRING_SIZE →
        usable_handle C t e' w →
        (sqlite_get_user_key C t u' r' key0 e' w1).map (fun x => (x.1, x.2.1)) =
          (sqlite_get_user_key C t u' r' key0 e' w).map (fun x => (x.1, x.2.1))) ∧
    (sqlite_set_user_key example_consts 1 (lit "alice") (lit "example.org") (lit "3132")
        step_fault_env example_world).map (fun x => (x.1, x.2.db.turnusers_lt)) =
      some (0, []) ∧
    ((sqlite_set_user_key example_consts 1 (lit "alice") (lit "example.org") (lit "3132")
        step_fault_env example_world).bind (fun x =>
      sqlite_get_user_key example_consts 1 (lit "alice") (lit "example.org") [] example_env
        x.2)).map (fun x => (x.1, x.2.1)) = some (-1, []) := by
  refine ⟨?_, by decide, by decide⟩
  intro hu hr hK hlen hstep hget hset
  exact upsert_then_get_executed C t u r K key0 e e' w w1 hu hr hK hlen hstep hget hset

/-- C3, a case of the round trip: Alice's key is stored in the empty example store and
read back, and the lookup of Bob's key is as before. -/
theorem upsert_then_get_witness :
    (sqlite_get_user_key example_consts 1 (lit "alice") (lit "example.org") [] example_env
        { example_world with
          gate_calls := [.lock 1 true, .unlock 1 true]
          donot_print_connection_success := true
          db := { empty_db with turnusers_lt := [[lit "example.org", lit "alice", lit "3132"]] } }
      ).map (fun x => (x.1, x.2.1)) =
      some (0, example_consts.convert_string_key_to_binary (lit "3132")
        example_consts.hmackey_size) ∧
    (sqlite_get_user_key example_consts 1 (lit "bob") (lit "example.org") [] example_env
        { example_world with
          gate_calls := [.lock 1 true, .unlock 1 true]
          donot_print_connection_success := true
          db := { empty_db with turnusers_lt := [[lit "example.org", lit "alice", lit "3132"]] } }
      ).map (fun x => (x.1, x.2.1)) =
      (sqlite_get_user_key example_consts 1 (lit "bob") (lit "example.org") [] example_env
        example_world).map (fun x => (x.1, x.2.1)) :=
  have h := (upsert_then_get example_consts 1 (lit "alice") (lit "example.org") (lit "3132") []
    example_env example_env example_world
    { example_world with
      gate_calls := [.lock 1 true, .unlock 1 true]
      donot_print_connection_success := true
      db := { empty_db with turnusers_lt := [[lit "example.org", lit "alice", lit "3132"]] } }).1
    (by decide) (by decide) (by decide) (by decide) (by decide) (by decide) (by decide)
  ⟨h.1, h.2 (lit "bob") (lit "example.org") (by decide) (by decide) (by decide) (by decide)
    (by decide)⟩

theorem parse_select_oauth_key (kid : Str) (hk : QUOTE ∉ kid) :
    parse_statement
        (lit "select ikm_key,timestamp,lifetime,as_rs_alg,realm from oauth_key where kid=" ++
          quoted kid) =
      some (.select .oauth_key [1, 2, 3, 4, 5] [(0, kid)] []) := by
  have h := parse_statement_one
    (lit "select ikm_key,timestamp,lifetime,as_rs_alg,realm from oauth_key where kid=") kid []
    (by decide) hk (by simp)
  simp only [List.append_nil] at h
  rw [h]
  simp +decide [parse1]

theorem parse_select_admin_user (name : Str) (hn : QUOTE ∉ name) :
    parse_statement (lit "select realm,password from admin_user where name=" ++ quoted name) =
      some (.select .admin_user [1, 2] [(0, name)] []) := by
  have h := parse_statement_one (lit "select realm,password from admin_user where name=") name []
    (by decide) hn (by simp)
  simp only [List.append_nil] at h
  rw [h]
  simp +decide [parse1]

theorem row_matches_one (i : Nat) (v : Str) (row : Row) :
    row_matches [(i, v)] row = (sqlite3_column_text row i == v) := by
  simp [row_matches]

/-- C6 (as amended). A keyed lookup that finds nothing returns the failure value: thread
`t` has a usable handle and is admitted for reading, the key holds no quote character and
the statement fits its buffer, the backend prepares and steps the statement without error
(`e`), and no row matches the key.  Then each of `sqlite_get_user_key`,
`sqlite_get_oauth_key` and `sqlite_get_admin_user` returns `-1` and hands no record to
the caller (the key is as it was; the admin realm and password are empty), which is
exactly what it returns when the backend refuses the statement (`e2`). -/
theorem not_found_returns_failure (C : Consts) (t : pthread_t)
    (u r kid name : Str) (key : hmackey_t) (okey : oauth_key_data_raw) (realm0 pwd0 : Str)
    (e e2 : Env) (w : World)
    (husable : usable_handle C t e w) (husable2 : usable_handle C t e2 w)
    (hadm : (sqlite_lock_pass false t w.gate).1 = true)
    (hu : QUOTE ∉ u) (hr : QUOTE ∉ r) (hk : QUOTE ∉ kid) (hn : QUOTE ∉ name)
    (hlen1 : (lit "select hmackey from turnusers_lt where name=" ++ quoted u ++
        lit " and realm=" ++ quoted r).length < C.TURN_LONG_STRING_SIZE)
    (hlen2 : (lit "select ikm_key,timestamp,lifetime,as_rs_alg,realm from oauth_key where kid="
        ++ quoted kid).length < C.TURN_LONG_STRING_SIZE)
    (hlen3 : (lit "select realm,password from admin_user where name=" ++ quoted name).length <
        C.TURN_LONG_STRING_SIZE)
    (hf : e.fault = Fault.none) (hf2 : e2.fault.prepare = true)
    (hzero1 : ∀ row ∈ w.db.turnusers_lt,
      ¬ (sqlite3_column_text row 1 = u ∧ sqlite3_column_text row 0 = r))
    (hzero2 : ∀ row ∈ w.db.oauth_key, sqlite3_column_text row 0 ≠ kid)
    (hzero3 : ∀ row ∈ w.db.admin_user, sqlite3_column_text row 0 ≠ name) :
    (sqlite_get_user_key C t u r key e w).map (fun x => (x.1, x.2.1)) = some (-1, key) ∧
    (sqlite_get_user_key C t u r key e2 w).map (fun x => (x.1, x.2.1)) = some (-1, key) ∧
    (sqlite_get_oauth_key C t kid okey e w).map (fun x => (x.1, x.2.1)) = some (-1, okey) ∧
    (sqlite_get_oauth_key C t kid okey e2 w).map (fun x => (x.1, x.2.1)) = some (-1, okey) ∧
    (sqlite_get_admin_user C t (some name) (some realm0) pwd0 e w).map
        (fun x => (x.1, x.2.1, x.2.2.1)) = some (-1, some [], []) ∧
    (sqlite_get_admin_user C t (some name) (some realm0) pwd0 e2 w).map
        (fun x => (x.1, x.2.1, x.2.2.1)) = some (-1, some [], []) := by
  have hz1 : w.db.turnusers_lt.filter (row_matches [(1, u), (0, r)]) = [] := by
    rw [List.filter_eq_nil_iff]
    intro row hrow
    rw [row_matches_user]
    have := hzero1 row hrow
    simpa using this
  have hz2 : w.db.oauth_key.filter (row_matches [(0, kid)]) = [] := by
    rw [List.filter_eq_nil_iff]
    intro row hrow
    rw [row_matches_one]
    simpa using hzero2 row hrow
  have hz3 : w.db.admin_user.filter (row_matches [(0, name)]) = [] := by
    rw [List.filter_eq_nil_iff]
    intro row hrow
    rw [row_matches_one]
    simpa using hzero3 row hrow
  obtain ⟨c, w0, hg⟩ := usable_handle_get C t e w husable
  obtain ⟨hdb, hgate, -, -, -, -⟩ := get_sqlite_connection_frame C t e w w0 c hg
  obtain ⟨c2, w2, hg2⟩ := usable_handle_get C t e2 w husable2
  obtain ⟨-, hgate2, -, -, -, -⟩ := get_sqlite_connection_frame C t e2 w w2 c2 hg2
  have hadm0 : (sqlite_lock_pass false t w0.gate).1 = true := by rw [hgate]; exact hadm
  have hadm2 : (sqlite_lock_pass false t w2.gate).1 = true := by rw [hgate2]; exact hadm
  refine ⟨?_, ?_, ?_, ?_, ?_, ?_⟩
  · rw [get_user_key_result C t u r key e w husable hadm hu hr hlen1 hf, hz1]
    rfl
  · unfold sqlite_get_user_key
    rw [hg2]
    simp [lookup_statement, World.lock, hadm2, sqlite3_prepare, hf2]
  · unfold sqlite_get_oauth_key
    rw [hg]
    simp only [lookup_statement, World.lock, hadm0, if_true, Option.map_some', sqlite3_prepare,
      hf, Fault.none, Bool.false_eq_true, if_false]
    rw [snprintf_fits _ _ hlen2, parse_select_oauth_key kid hk]
    simp [step_first, Stmt.rows, Db.get, hdb, hz2]
  · unfold sqlite_get_oauth_key
    rw [hg2]
    simp [lookup_statement, World.lock, hadm2, sqlite3_prepare, hf2]
  · unfold sqlite_get_admin_user
    simp only
    rw [hg]
    simp only [lookup_statement, World.lock, hadm0, if_true, Option.map_some', sqlite3_prepare,
      hf, Fault.none, Bool.false_eq_true, if_false]
    rw [snprintf_fits _ _ hlen3, parse_select_admin_user name hn]
    simp [step_first, Stmt.rows, Db.get, hdb, hz3]
  · unfold sqlite_get_admin_user
    simp only
    rw [hg2]
    simp [lookup_statement, World.lock, hadm2, sqlite3_prepare, hf2]

/-- C6, a case: the three lookups in the empty example store. -/
theorem not_found_returns_failure_witness :
    (sqlite_get_user_key example_consts 1 (lit "alice") (lit "example.org") [] example_env
        example_world).map (fun x => (x.1, x.2.1)) = some (-1, []) ∧
    (sqlite_get_user_key example_consts 1 (lit "alice") (lit "example.org") [] prepare_fault_env
        example_world).map (fun x => (x.1, x.2.1)) = some (-1, []) ∧
    (sqlite_get_oauth_key example_consts 1 (lit "kid1") ⟨[], [], 0, 0, [], []⟩ example_env
        example_world).map (fun x => (x.1, x.2.1)) = some (-1, ⟨[], [], 0, 0, [], []⟩) ∧
    (sqlite_get_oauth_key example_consts 1 (lit "kid1") ⟨[], [], 0, 0, [], []⟩ prepare_fault_env
        example_world).map (fun x => (x.1, x.2.1)) = some (-1, ⟨[], [], 0, 0, [], []⟩) ∧
    (sqlite_get_admin_user example_consts 1 (some (lit "root")) (some (lit "x")) (lit "y")
        example_env example_world).map (fun x => (x.1, x.2.1, x.2.2.1)) =
      some (-1, some [], []) ∧
    (sqlite_get_admin_user example_consts 1 (some (lit "root")) (some (lit "x")) (lit "y")
        prepare_fault_env example_world).map (fun x => (x.1, x.2.1, x.2.2.1)) =
      some (-1, some [], []) :=
  not_found_returns_failure example_consts 1 (lit "alice") (lit "example.org") (lit "kid1")
    (lit "root") [] ⟨[], [], 0, 0, [], []⟩ (lit "x") (lit "y") example_env prepare_fault_env
    example_world (by decide) (by decide) (by decide) (by decide) (by decide) (by decide)
    (by decide) (by decide) (by decide) (by decide) (by decide) (by decide) (by decide)
    (by decide) (by decide)

/-- C6 as stated fails: in the empty example store, on a backend without fault, the
lookup of a user key returns `-1` and no key, the very result it returns when the backend
refuses the statement. -/
theorem not_found_counterexample :
    (sqlite_get_user_key example_consts 1 (lit "alice") (lit "example.org") [] example_env
        example_world).map (fun x => (x.1, x.2.1)) = some (-1, []) ∧
    (sqlite_get_user_key example_consts 1 (lit "alice") (lit "example.org") [] example_env
        example_world).map (fun x => (x.1, x.2.1)) =
      (sqlite_get_user_key example_consts 1 (lit "alice") (lit "example.org") []
        prepare_fault_env example_world).map (fun x => (x.1, x.2.1)) := by
  decide

/-- C7, the failing input: the backend prepares the statement and fails its step.
`sqlite_set_user_key`, `sqlite_set_secret` and `sqlite_set_permission_ip` return `0`, and
the store is as before. -/
theorem step_failure_not_reported :
    (sqlite_set_user_key example_consts 1 (lit "alice") (lit "example.org") (lit "3132")
        step_fault_env example_world).map (fun x => (x.1, x.2.db)) = some (0, empty_db) ∧
    (sqlite_set_secret example_consts 1 (lit "s1") (lit "example.org")
        step_fault_env example_world).map (fun x => (x.1, x.2.db)) = some (0, empty_db) ∧
    (sqlite_set_permission_ip example_consts 1 (lit "allowed") (some (lit "example.org"))
        (lit "10.0.0.0/8") false step_fault_env example_world).map (fun x => (x.1, x.2.db)) =
      some (0, empty_db) ∧
    (sqlite_set_user_key example_consts 1 (lit "alice") (lit "example.org") (lit "3132")
        prepare_fault_env example_world).map (fun x => (x.1, x.2.db)) = some (-1, empty_db) := by
  decide

/-! ### Operations without a handle -/

theorem get_sqlite_connection_none (C : Consts) (t : pthread_t) (e : Env) (w : World)
    (hno : pthread_getspecific t w = none)
    (hopen : e.open_conn = none ∨ e.open_rc ≠ SQLITE_OK) :
    get_sqlite_connection C t e w =
      (none, { w with userdb := fix_user_directory e w.userdb,
                      userdb_type := C.TURN_USERDB_TYPE_UNKNOWN }) := by
  unfold get_sqlite_connection
  rw [hno]
  cases hc : e.open_conn with
  | none => rfl
  | some c =>
    rcases hopen with h | h
    · rw [hc] at h; cases h
    · simp [h]

/-- C8. Graceful failure without a handle: the calling thread has no cached handle and
the open fails.  Then every driver operation that returns a status returns `-1`, with the
caller's output collections and buffers as they were, and `sqlite_reread_realms` returns;
in each case the gate and the record of its calls, the durable store, the live realm
state (realm table, list of realms, published mapping) and the standard output are as
before the call. -/
theorem no_handle_fails_gracefully (C : Consts) (t : pthread_t) (e : Env) (w : World)
    (hno : pthread_getspecific t w = none)
    (hopen : e.open_conn = none ∨ e.open_rc ≠ SQLITE_OK) :
    (∀ sl realm, ∃ w', sqlite_get_auth_secrets C t sl realm e w = some (-1, sl, w') ∧
      untouched w w') ∧
    (∀ usname realm key, ∃ w', sqlite_get_user_key C t usname realm key e w =
      some (-1, key, w') ∧ untouched w w') ∧
    (∀ usname realm key, ∃ w', sqlite_set_user_key C t usname realm key e w = some (-1, w') ∧
      untouched w w') ∧
    (∀ usname realm, ∃ w', sqlite_del_user C t usname realm e w = some (-1, w') ∧
      untouched w w') ∧
    (∀ realm users realms, ∃ w', sqlite_list_users C t realm users realms e w =
      some (-1, users, realms, w') ∧ untouched w w') ∧
    (∀ realm secrets realms, ∃ w', sqlite_list_secrets C t realm secrets realms e w =
      some (-1, secrets, realms, w') ∧ untouched w w') ∧
    (∀ secret realm, ∃ w', sqlite_del_secret C t secret realm e w = some (-1, w') ∧
      untouched w w') ∧
    (∀ secret realm, ∃ w', sqlite_set_secret C t secret realm e w = some (-1, w') ∧
      untouched w w') ∧
    (∀ origin realm, ∃ w', sqlite_add_origin C t origin realm e w = some (-1, w') ∧
      untouched w w') ∧
    (∀ origin, ∃ w', sqlite_del_origin C t origin e w = some (-1, w') ∧ untouched w w') ∧
    (∀ realm origins realms, ∃ w', sqlite_list_origins C t realm origins realms e w =
      some (-1, origins, realms, w') ∧ untouched w w') ∧
    (∀ realm value opt, ∃ w', sqlite_set_realm_option_one C t realm value opt e w =
      some (-1, w') ∧ untouched w w') ∧
    (∀ realm, ∃ w', sqlite_list_realm_options C t realm e w = some (-1, w') ∧
      untouched w w') ∧
    (∀ kind list, ∃ w', sqlite_get_ip_list C t kind list e w = some (-1, list, w') ∧
      untouched w w') ∧
    (∀ kind realm ip del, ∃ w', sqlite_set_permission_ip C t kind realm ip del e w =
      some (-1, w') ∧ untouched w w') ∧
    (∃ w', sqlite_reread_realms C t e w = some w' ∧ untouched w w') ∧
    (∀ key, ∃ w', sqlite_set_oauth_key C t key e w = some (-1, w') ∧ untouched w w') ∧
    (∀ kid key, ∃ w', sqlite_get_oauth_key C t kid key e w = some (-1, key, w') ∧
      untouched w w') ∧
    (∀ kid, ∃ w', sqlite_del_oauth_key C t kid e w = some (-1, w') ∧ untouched w w') ∧
    (∀ collect out, ∃ w', sqlite_list_oauth_keys C t collect out e w = some (-1, out, w') ∧
      untouched w w') ∧
    (∀ usname realm pwd, ∃ w', sqlite_get_admin_user C t usname realm pwd e w =
      some (-1, realm, pwd, w') ∧ untouched w w') ∧
    (∀ usname realm pwd, ∃ w', sqlite_set_admin_user C t usname realm pwd e w =
      some (-1, w') ∧ untouched w w') ∧
    (∀ usname, ∃ w', sqlite_del_admin_user C t usname e w = some (-1, w') ∧
      untouched w w') ∧
    (∀ no_print, ∃ w', sqlite_list_admin_users C t no_print e w = some (-1, w') ∧
      untouched w w') := by
  have h0 := get_sqlite_connection_none C t e w hno hopen
  have h1 := get_sqlite_connection_none C t e
    { w with donot_print_connection_success := true } hno hopen
  have hu2 : untouched w w := by simp [untouched]
  refine ⟨?_, ?_, ?_, ?_, ?_, ?_, ?_, ?_, ?_, ?_, ?_, ?_, ?_, ?_, ?_, ?_, ?_, ?_, ?_, ?_, ?_,
    ?_, ?_, ?_⟩
  · intro sl realm; exact ⟨_, by unfold sqlite_get_auth_secrets; rw [h0], by simp [untouched]⟩
  · intro usname realm key; exact ⟨_, by unfold sqlite_get_user_key; rw [h0], by simp [untouched]⟩
  · intro usname realm key; exact ⟨_, by unfold sqlite_set_user_key; rw [h1], by simp [untouched]⟩
  · intro usname realm; exact ⟨_, by unfold sqlite_del_user; rw [h1], by simp [untouched]⟩
  · intro realm users realms; exact ⟨_, by unfold sqlite_list_users; rw [h1], by simp [untouched]⟩
  · intro realm secrets realms; exact ⟨_, by unfold sqlite_list_secrets; rw [h1], by simp [untouched]⟩
  · intro secret realm; exact ⟨_, by unfold sqlite_del_secret; rw [h1], by simp [untouched]⟩
  · intro secret realm; exact ⟨_, by unfold sqlite_set_secret; rw [h1], by simp [untouched]⟩
  · intro origin realm; exact ⟨_, by unfold sqlite_add_origin; rw [h1], by simp [untouched]⟩
  · intro origin; exact ⟨_, by unfold sqlite_del_origin; rw [h1], by simp [untouched]⟩
  · intro realm origins realms; exact ⟨_, by unfold sqlite_list_origins; rw [h1], by simp [untouched]⟩
  · intro realm value opt
    unfold sqlite_set_realm_option_one
    by_cases hv : value ≤ 0
    · exact ⟨w, by rw [if_pos hv], hu2⟩
    · exact ⟨_, by rw [if_neg hv, h1], by simp [untouched]⟩
  · intro realm; exact ⟨_, by unfold sqlite_list_realm_options; rw [h1], by simp [untouched]⟩
  · intro kind list; exact ⟨_, by unfold sqlite_get_ip_list; rw [h1], by simp [untouched]⟩
  · intro kind realm ip del; exact ⟨_, by unfold sqlite_set_permission_ip; rw [h1], by simp [untouched]⟩
  · exact ⟨_, by unfold sqlite_reread_realms; rw [h1], by simp [untouched]⟩
  · intro key; exact ⟨_, by unfold sqlite_set_oauth_key; rw [h1], by simp [untouched]⟩
  · intro kid key; exact ⟨_, by unfold sqlite_get_oauth_key; rw [h0], by simp [untouched]⟩
  · intro kid; exact ⟨_, by unfold sqlite_del_oauth_key; rw [h1], by simp [untouched]⟩
  · intro collect out; exact ⟨_, by unfold sqlite_list_oauth_keys; rw [h0], by simp [untouched]⟩
  · intro usname realm pwd
    unfold sqlite_get_admin_user
    cases usname with
    | none => exact ⟨w, rfl, hu2⟩
    | some name =>
      cases realm with
      | none => exact ⟨w, rfl, hu2⟩
      | some r => exact ⟨_, by simp only; rw [h0], by simp [untouched]⟩
  · intro usname realm pwd; exact ⟨_, by unfold sqlite_set_admin_user; rw [h1], by simp [untouched]⟩
  · intro usname; exact ⟨_, by unfold sqlite_del_admin_user; rw [h1], by simp [untouched]⟩
  · intro no_print; exact ⟨_, by unfold sqlite_list_admin_users; rw [h1], by simp [untouched]⟩

/-- C8, a case: thread `2` has no handle in the example process and the open fails. -/
theorem no_handle_fails_gracefully_witness :
    (∃ w', sqlite_get_auth_secrets example_consts 2 [] (lit "example.org") open_fault_env
        example_world = some (-1, [], w') ∧ untouched example_world w') ∧
    (∃ w', sqlite_reread_realms example_consts 2 open_fault_env example_world = some w' ∧
      untouched example_world w') ∧
    (∃ w', sqlite_list_admin_users example_consts 2 false open_fault_env example_world =
      some (-1, w') ∧ untouched example_world w') :=
  have h := no_handle_fails_gracefully example_consts 2 open_fault_env example_world
    (by decide) (by decide)
  ⟨h.1 [] (lit "example.org"), h.2.2.2.2.2.2.2.2.2.2.2.2.2.2.2.1,
    h.2.2.2.2.2.2.2.2.2.2.2.2.2.2.2.2.2.2.2.2.2.2.2 false⟩

theorem pthread_getspecific_set (t : pthread_t) (c : sqlite3) (w : World) :
    pthread_getspecific t (pthread_setspecific t c w) = some c := by
  simp [pthread_getspecific, pthread_setspecific]

theorem get_sqlite_connection_opened (C : Consts) (t : pthread_t) (e : Env) (w : World)
    (c : sqlite3) (hno : pthread_getspecific t w = none) (hc : e.open_conn = some c)
    (hrc : e.open_rc = SQLITE_OK) :
    get_sqlite_connection C t e w =
      (some c, pthread_setspecific t c
        { init_sqlite_database { w with userdb := fix_user_directory e w.userdb } with
          donot_print_connection_success := true }) := by
  simp [get_sqlite_connection, hno, hc, hrc]

/-- C9. Open failure downgrades the store: the calling thread has no cached handle.  When
the open fails (no connection, or a return code other than `SQLITE_OK`),
`get_sqlite_connection` returns no handle, sets the store kind to
`TURN_USERDB_TYPE_UNKNOWN`, caches nothing and hands no schema statement to the backend.
When the open succeeds it returns the new handle, caches it for the thread and leaves the
store kind as it was. -/
theorem open_failure_downgrades (C : Consts) (t : pthread_t) (e : Env) (w : World)
    (hno : pthread_getspecific t w = none) :
    ((e.open_conn = none ∨ e.open_rc ≠ SQLITE_OK) →
      (get_sqlite_connection C t e w).1 = none ∧
      (get_sqlite_connection C t e w).2.userdb_type = C.TURN_USERDB_TYPE_UNKNOWN ∧
      (get_sqlite_connection C t e w).2.connection_key = w.connection_key ∧
      pthread_getspecific t (get_sqlite_connection C t e w).2 = none ∧
      (get_sqlite_connection C t e w).2.schema_statements = w.schema_statements) ∧
    (∀ c, e.open_conn = some c → e.open_rc = SQLITE_OK →
      (get_sqlite_connection C t e w).1 = some c ∧
      pthread_getspecific t (get_sqlite_connection C t e w).2 = some c ∧
      (get_sqlite_connection C t e w).2.userdb_type = w.userdb_type) := by
  constructor
  · intro hopen
    rw [get_sqlite_connection_none C t e w hno hopen]
    exact ⟨rfl, rfl, rfl, hno, rfl⟩
  · intro c hc hrc
    rw [get_sqlite_connection_opened C t e w c hno hc hrc]
    exact ⟨rfl, pthread_getspecific_set t c _, rfl⟩

/-- C9, a case: thread `2` of the example process, with an open that fails and with an
open that succeeds. -/
theorem open_failure_downgrades_witness :
    ((get_sqlite_connection example_consts 2 open_fault_env example_world).1 = none ∧
      (get_sqlite_connection example_consts 2 open_fault_env example_world).2.userdb_type =
        example_consts.TURN_USERDB_TYPE_UNKNOWN ∧
      (get_sqlite_connection example_consts 2 open_fault_env example_world).2.connection_key =
        example_world.connection_key ∧
      pthread_getspecific 2
        (get_sqlite_connection example_consts 2 open_fault_env example_world).2 = none ∧
      (get_sqlite_connection example_consts 2 open_fault_env example_world).2.schema_statements
        = example_world.schema_statements) ∧
    ((get_sqlite_connection example_consts 2 example_env example_world).1 = some 7 ∧
      pthread_getspecific 2
        (get_sqlite_connection example_consts 2 example_env example_world).2 = some 7 ∧
      (get_sqlite_connection example_consts 2 example_env example_world).2.userdb_type =
        example_world.userdb_type) :=
  ⟨(open_failure_downgrades example_consts 2 open_fault_env example_world (by decide)).1
      (by decide),
   (open_failure_downgrades example_consts 2 example_env example_world (by decide)).2 7
      (by decide) (by decide)⟩

/-- C2, a case: a gate held by three readers and no writer, asked by thread `5`. -/
theorem gate_admission_witness :
    ((sqlite_lock_pass false 5 ⟨3, 0, 0⟩).1 = true ↔ read_admitted ⟨3, 0, 0⟩ 5) ∧
    (read_admitted ⟨3, 0, 0⟩ 5 → ∀ fuel, sqlite_lock (fuel + 1) false 5 ⟨3, 0, 0⟩ =
        some { (⟨3, 0, 0⟩ : Gate) with read_threads := (⟨3, 0, 0⟩ : Gate).read_threads + 1 }) ∧
    (¬ read_admitted ⟨3, 0, 0⟩ 5 →
        (sqlite_lock_pass false 5 ⟨3, 0, 0⟩).2 = ⟨3, 0, 0⟩ ∧
        ∀ fuel, sqlite_lock fuel false 5 ⟨3, 0, 0⟩ = none) ∧
    ((sqlite_lock_pass true 5 ⟨3, 0, 0⟩).1 = true ↔ write_admitted ⟨3, 0, 0⟩ 5) ∧
    (write_admitted ⟨3, 0, 0⟩ 5 → ∀ fuel, sqlite_lock (fuel + 1) true 5 ⟨3, 0, 0⟩ =
        some { (⟨3, 0, 0⟩ : Gate) with write_level := (⟨3, 0, 0⟩ : Gate).write_level + 1,
                                       write_thread := 5 }) ∧
    (¬ write_admitted ⟨3, 0, 0⟩ 5 →
        (sqlite_lock_pass true 5 ⟨3, 0, 0⟩).2 = ⟨3, 0, 0⟩ ∧
        ∀ fuel, sqlite_lock fuel true 5 ⟨3, 0, 0⟩ = none) :=
  gate_admission ⟨3, 0, 0⟩ 5 (by decide)

/-! ### The live realm table -/

theorem step_loop_delivered {σ : Type} (f : Fault) (body : σ → Row → σ) (n : Nat)
    (rows : List Row) (acc : σ) :
    (step_loop f body n rows acc).1 = (delivered f n rows).foldl body acc := by
  induction rows generalizing n acc with
  | nil => unfold step_loop delivered; split_ifs <;> rfl
  | cons r rs ih =>
    unfold step_loop delivered
    split_ifs
    · rfl
    · simp [ih]

theorem delivered_no_fault (n : Nat) (rows : List Row) :
    delivered Fault.none n rows = rows := by
  induction rows generalizing n with
  | nil => rfl
  | cons r rs ih =>
    have h := ih (n + 1)
    unfold delivered
    rw [h]
    simp [Fault.none]

theorem find_realm_nil (n : Str) : find_realm n [] = none := rfl

theorem find_realm_cons (n : Str) (r : Str × perf_options_t)
    (T : List (Str × perf_options_t)) :
    find_realm n (r :: T) = if r.1 = n then some r.2 else find_realm n T := by
  unfold find_realm
  by_cases h : r.1 = n
  · simp [List.find?_cons, h]
  · have : (r.1 == n) = false := by simpa using h
    simp [List.find?_cons, this, h]

theorem has_realm_cons (n : Str) (r : Str × perf_options_t)
    (T : List (Str × perf_options_t)) :
    has_realm n (r :: T) = (decide (r.1 = n) || has_realm n T) := by
  unfold has_realm
  rw [List.any_cons]
  congr 1
  by_cases h : r.1 = n <;> simp [h]

theorem has_realm_iff (n : Str) (T : List (Str × perf_options_t)) :
    has_realm n T = (find_realm n T).isSome := by
  induction T with
  | nil => rfl
  | cons r T ih =>
    rw [has_realm_cons, find_realm_cons, ih]
    by_cases h : r.1 = n <;> simp [h]

theorem find_realm_append (n : Str) (T : List (Str × perf_options_t)) (m : Str)
    (p : perf_options_t) :
    find_realm n (T ++ [(m, p)]) =
      if (find_realm n T).isSome then find_realm n T
      else if m = n then some p else none := by
  induction T with
  | nil => simp [find_realm_cons, find_realm_nil]
  | cons r T ih =>
    rw [List.cons_append, find_realm_cons, find_realm_cons, ih]
    by_cases h : r.1 = n <;> simp [h]

theorem get_realm_present (m : Str) (l : Live) (h : has_realm m l.realms = true) :
    get_realm m l = l := by
  unfold get_realm
  unfold has_realm at h
  rw [if_pos h]

theorem get_realm_absent (m : Str) (l : Live) (h : has_realm m l.realms = false) :
    get_realm m l = { l with realms := l.realms ++ [(m, l.turn_params)],
                             realms_list := l.realms_list ++ [m] } := by
  unfold get_realm
  unfold has_realm at h
  rw [if_neg (by simp [h])]

theorem get_realm_turn_params (m : Str) (l : Live) :
    (get_realm m l).turn_params = l.turn_params := by
  unfold get_realm; split_ifs <;> rfl

theorem get_realm_o_to_realm (m : Str) (l : Live) :
    (get_realm m l).o_to_realm = l.o_to_realm := by
  unfold get_realm; split_ifs <;> rfl

theorem find_realm_get_realm (n m : Str) (l : Live) :
    find_realm n (get_realm m l).realms =
      if (find_realm n l.realms).isSome then find_realm n l.realms
      else if m = n then some l.turn_params else none := by
  cases h : has_realm m l.realms with
  | true =>
    rw [get_realm_present m l h]
    rw [has_realm_iff] at h
    by_cases hs : (find_realm n l.realms).isSome
    · simp [hs]
    · by_cases hmn : m = n
      · subst hmn; exact absurd h hs
      · simp only [hs, hmn, if_false]
        simpa using hs
  | false =>
    rw [get_realm_absent m l h]
    exact find_realm_append n l.realms m l.turn_params

theorem has_realm_get_realm (m : Str) (l : Live) :
    has_realm m (get_realm m l).realms = true := by
  rw [has_realm_iff, find_realm_get_realm]
  by_cases hs : (find_realm m l.realms).isSome <;> simp [hs]

theorem find_realm_update (n m : Str) (f : perf_options_t → perf_options_t)
    (T : List (Str × perf_options_t)) :
    find_realm n (update_realm m f T) =
      if m = n then (find_realm n T).map f else find_realm n T := by
  induction T with
  | nil => simp [update_realm, find_realm_nil]
  | cons r T ih =>
    unfold update_realm
    by_cases hrm : r.1 = m
    · rw [if_pos hrm, find_realm_cons, find_realm_cons]
      by_cases hmn : m = n
      · have : r.1 = n := hrm.trans hmn
        simp [this, hmn]
      · have : ¬ r.1 = n := fun h => hmn (hrm.symm.trans h)
        simp [this, hmn]
    · rw [if_neg hrm, find_realm_cons, find_realm_cons, ih]
      by_cases hmn : m = n
      · have : ¬ r.1 = n := fun h => hrm (h.trans hmn.symm)
        simp [this, hmn]
      · simp [hmn]

theorem mem_realms_list_get_realm (n m : Str) (l : Live)
    (h : n ∈ (get_realm m l).realms_list) :
    n ∈ l.realms_list ∨ (n = m ∧ has_realm m l.realms = false) := by
  cases hm : has_realm m l.realms with
  | true => rw [get_realm_present m l hm] at h; exact Or.inl h
  | false =>
    rw [get_realm_absent m l hm] at h
    simp only [List.mem_append, List.mem_singleton] at h
    rcases h with h | h
    · exact Or.inl h
    · exact Or.inr ⟨h, rfl⟩

theorem update_realm_id (m : Str) (T : List (Str × perf_options_t)) :
    update_realm m (fun p => p) T = T := by
  induction T with
  | nil => rfl
  | cons r T ih =>
    unfold update_realm
    split_ifs
    · rfl
    · rw [ih]

/-- The loop body of the third block, in one formula. -/
theorem reread_option_body_eq (l : Live) (row : Row) :
    reread_option_body l row =
      { get_realm (sqlite3_column_text row 0) l with
        realms := update_realm (sqlite3_column_text row 0) (assign_option row)
          (get_realm (sqlite3_column_text row 0) l).realms } := by
  unfold reread_option_body
  by_cases h1 : sqlite3_column_text row 1 = lit "max-bps"
  · have : assign_option row = fun p => { p with max_bps := strtoul (sqlite3_column_text row 2) } := by
      funext p; unfold assign_option; rw [if_pos h1]
    rw [if_pos h1, this]
  · by_cases h2 : sqlite3_column_text row 1 = lit "total-quota"
    · have : assign_option row =
          fun p => { p with total_quota := atoi (sqlite3_column_text row 2) } := by
        funext p; unfold assign_option; rw [if_neg h1, if_pos h2]
      rw [if_neg h1, if_pos h2, this]
    · by_cases h3 : sqlite3_column_text row 1 = lit "user-quota"
      · have : assign_option row =
            fun p => { p with user_quota := atoi (sqlite3_column_text row 2) } := by
          funext p; unfold assign_option; rw [if_neg h1, if_neg h2, if_pos h3]
        rw [if_neg h1, if_neg h2, if_pos h3, this]
      · have : assign_option row = fun p => p := by
          funext p; unfold assign_option; rw [if_neg h1, if_neg h2, if_neg h3]
        rw [if_neg h1, if_neg h2, if_neg h3, this, update_realm_id]

theorem reread_option_body_turn_params (l : Live) (row : Row) :
    (reread_option_body l row).turn_params = l.turn_params := by
  rw [reread_option_body_eq]; exact get_realm_turn_params _ l

theorem reread_option_body_o_to_realm (l : Live) (row : Row) :
    (reread_option_body l row).o_to_realm = l.o_to_realm := by
  rw [reread_option_body_eq]; exact get_realm_o_to_realm _ l

theorem reread_option_body_realms_list (l : Live) (row : Row) :
    (reread_option_body l row).realms_list =
      (get_realm (sqlite3_column_text row 0) l).realms_list := by
  rw [reread_option_body_eq]

theorem find_realm_option_body (n : Str) (l : Live) (row : Row) :
    find_realm n (reread_option_body l row).realms =
      if sqlite3_column_text row 0 = n then
        some (assign_option row ((find_realm n l.realms).getD l.turn_params))
      else find_realm n l.realms := by
  rw [reread_option_body_eq]
  simp only
  rw [find_realm_update, find_realm_get_realm]
  by_cases hmn : sqlite3_column_text row 0 = n
  · simp only [hmn, if_true]
    cases h : find_realm n l.realms <;> simp
  · simp only [hmn, if_false]
    cases h : find_realm n l.realms <;> simp

theorem foldl_option_turn_params (R : List Row) (l : Live) :
    (R.foldl reread_option_body l).turn_params = l.turn_params := by
  induction R generalizing l with
  | nil => rfl
  | cons row R ih => rw [List.foldl_cons, ih, reread_option_body_turn_params]

theorem foldl_option_o_to_realm (R : List Row) (l : Live) :
    (R.foldl reread_option_body l).o_to_realm = l.o_to_realm := by
  induction R generalizing l with
  | nil => rfl
  | cons row R ih => rw [List.foldl_cons, ih, reread_option_body_o_to_realm]

/-- The third block on the realm table: a realm that was live or is named by a row has
the fields it had (the defaults if it was not live) overwritten by its rows in order. -/
theorem find_realm_foldl_option (n : Str) (R : List Row) (l : Live)
    (h : (find_realm n l.realms).isSome ∨ ∃ row ∈ R, sqlite3_column_text row 0 = n) :
    find_realm n (R.foldl reread_option_body l).realms =
      some (R.foldl (apply_option n) ((find_realm n l.realms).getD l.turn_params)) := by
  induction R generalizing l with
  | nil =>
    rcases h with h | ⟨row, hrow, -⟩
    · cases hf : find_realm n l.realms with
      | none => rw [hf] at h; cases h
      | some p => simp only [List.foldl_nil, hf, Option.getD_some]
    · cases hrow
  | cons row R ih =>
    rw [List.foldl_cons, List.foldl_cons]
    by_cases hmn : sqlite3_column_text row 0 = n
    · have hfind := find_realm_option_body n l row
      rw [if_pos hmn] at hfind
      rw [ih (reread_option_body l row) (Or.inl (by rw [hfind]; rfl)), hfind,
        reread_option_body_turn_params]
      simp [apply_option, hmn]
    · have hfind := find_realm_option_body n l row
      rw [if_neg hmn] at hfind
      have h' : (find_realm n (reread_option_body l row).realms).isSome ∨
          ∃ r ∈ R, sqlite3_column_text r 0 = n := by
        rcases h with h | ⟨r, hr, hrn⟩
        · exact Or.inl (by rw [hfind]; exact h)
        · rcases List.mem_cons.1 hr with hr | hr
          · subst hr; exact absurd hrn hmn
          · exact Or.inr ⟨r, hr, hrn⟩
      rw [ih (reread_option_body l row) h', hfind, reread_option_body_turn_params]
      simp [apply_option, hmn]

theorem find_realm_foldl_option_none (n : Str) (R : List Row) (l : Live)
    (h1 : find_realm n l.realms = none) (h2 : ∀ row ∈ R, sqlite3_column_text row 0 ≠ n) :
    find_realm n (R.foldl reread_option_body l).realms = none := by
  induction R generalizing l with
  | nil => exact h1
  | cons row R ih =>
    rw [List.foldl_cons]
    apply ih
    · rw [find_realm_option_body, if_neg (h2 row (by simp))]; exact h1
    · exact fun r hr => h2 r (List.mem_cons_of_mem _ hr)

theorem mem_realms_list_foldl_option (n : Str) (R : List Row) (l : Live)
    (h : n ∈ (R.foldl reread_option_body l).realms_list) :
    n ∈ l.realms_list ∨ ∃ row ∈ R, sqlite3_column_text row 0 = n := by
  induction R generalizing l with
  | nil => exact Or.inl h
  | cons row R ih =>
    rw [List.foldl_cons] at h
    rcases ih _ h with h' | ⟨r, hr, hrn⟩
    · rw [reread_option_body_realms_list] at h'
      rcases mem_realms_list_get_realm n _ l h' with h'' | ⟨h'', -⟩
      · exact Or.inl h''
      · exact Or.inr ⟨row, by simp, h''.symm⟩
    · exact Or.inr ⟨r, List.mem_cons_of_mem _ hr, hrn⟩

theorem reread_default_body_eq (l : Live) (i : Nat) :
    reread_default_body l i =
      { get_realm (l.realms_list.getD i []) l with
        realms := update_realm (l.realms_list.getD i []) (fun _ => l.turn_params)
          (get_realm (l.realms_list.getD i []) l).realms } := rfl

theorem reread_default_body_turn_params (l : Live) (i : Nat) :
    (reread_default_body l i).turn_params = l.turn_params := by
  rw [reread_default_body_eq]; exact get_realm_turn_params _ l

theorem reread_default_body_o_to_realm (l : Live) (i : Nat) :
    (reread_default_body l i).o_to_realm = l.o_to_realm := by
  rw [reread_default_body_eq]; exact get_realm_o_to_realm _ l

theorem find_realm_default_body (n : Str) (l : Live) (i : Nat) :
    find_realm n (reread_default_body l i).realms =
      if l.realms_list.getD i [] = n then some l.turn_params else find_realm n l.realms := by
  rw [reread_default_body_eq]
  simp only
  rw [find_realm_update, find_realm_get_realm]
  by_cases hmn : l.realms_list.getD i [] = n
  · simp only [hmn, if_true]
    cases h : find_realm n l.realms <;> simp
  · simp only [hmn, if_false]
    cases h : find_realm n l.realms <;> simp

theorem realms_list_default_body (l : Live) (i : Nat) :
    (reread_default_body l i).realms_list = l.realms_list ∨
    (reread_default_body l i).realms_list = l.realms_list ++ [l.realms_list.getD i []] := by
  rw [reread_default_body_eq]
  simp only
  cases hm : has_realm (l.realms_list.getD i []) l.realms with
  | true => rw [get_realm_present _ l hm]; exact Or.inl rfl
  | false => rw [get_realm_absent _ l hm]; exact Or.inr rfl

/-- The second block, run over the first `k` entries of the list of realms `L0`: the
entries handled so far and the entries added to the list have the defaults. -/
theorem foldl_default_body (l : Live) (k : Nat) (hk : k ≤ l.realms_list.length) :
    ((List.range k).foldl reread_default_body l).turn_params = l.turn_params ∧
    ((List.range k).foldl reread_default_body l).o_to_realm = l.o_to_realm ∧
    (∃ extra, ((List.range k).foldl reread_default_body l).realms_list =
        l.realms_list ++ extra ∧
      ∀ n ∈ extra, find_realm n ((List.range k).foldl reread_default_body l).realms =
        some l.turn_params) ∧
    (∀ i, i < k → find_realm (l.realms_list.getD i [])
        ((List.range k).foldl reread_default_body l).realms = some l.turn_params) := by
  induction k with
  | zero =>
    refine ⟨rfl, rfl, ⟨[], by simp, by simp⟩, ?_⟩
    intro i hi; omega
  | succ k ih =>
    obtain ⟨htp, hom, ⟨extra, hlist, hextra⟩, hdone⟩ := ih (by omega)
    rw [List.range_succ, List.foldl_append]
    simp only [List.foldl_cons, List.foldl_nil]
    generalize (List.range k).foldl reread_default_body l = l' at htp hom hlist hextra hdone
    have hname : l'.realms_list.getD k [] = l.realms_list.getD k [] := by
      rw [hlist, List.getD_append _ _ _ _ (by omega)]
    have hfind : ∀ n, find_realm n (reread_default_body l' k).realms =
        if l.realms_list.getD k [] = n then some l.turn_params else find_realm n l'.realms := by
      intro n
      rw [find_realm_default_body, hname, htp]
    refine ⟨by rw [reread_default_body_turn_params, htp],
      by rw [reread_default_body_o_to_realm, hom], ?_, ?_⟩
    · rcases realms_list_default_body l' k with h | h
      · refine ⟨extra, by rw [h, hlist], ?_⟩
        intro n hn
        rw [hfind]
        split_ifs
        · rfl
        · exact hextra n hn
      · refine ⟨extra ++ [l.realms_list.getD k []], by
          rw [h, hname, hlist, List.append_assoc], ?_⟩
        intro n hn
        rw [hfind]
        split_ifs with hc
        · rfl
        · rcases List.mem_append.1 hn with hn | hn
          · exact hextra n hn
          · simp only [List.mem_singleton] at hn
            exact absurd hn.symm hc
    · intro i hi
      rw [hfind]
      split_ifs with hc
      · rfl
      · have : i < k := by
          rcases Nat.lt_succ_iff_lt_or_eq.1 hi with h | h
          · exact h
          · subst h; exact absurd rfl hc
        exact hdone i this

/-- After the second block every realm of the list has the defaults. -/
theorem reread_defaults_result (l : Live) :
    (reread_defaults l).turn_params = l.turn_params ∧
    (reread_defaults l).o_to_realm = l.o_to_realm ∧
    ∀ n ∈ (reread_defaults l).realms_list,
      find_realm n (reread_defaults l).realms = some l.turn_params := by
  obtain ⟨htp, hom, ⟨extra, hlist, hextra⟩, hdone⟩ :=
    foldl_default_body l l.realms_list.length (le_refl _)
  refine ⟨htp, hom, ?_⟩
  intro n hn
  unfold reread_defaults at hn ⊢
  rw [hlist] at hn
  rcases List.mem_append.1 hn with hn | hn
  · obtain ⟨i, hi, hget⟩ := List.getElem_of_mem hn
    have := hdone i hi
    rw [List.getD_eq_getElem _ _ hi, hget] at this
    exact this
  · exact hextra n hn

/-- The three ways `get_sqlite_connection` can go. -/
theorem get_sqlite_connection_cases (C : Consts) (t : pthread_t) (e : Env) (w : World) :
    (∃ c, pthread_getspecific t w = some c ∧ get_sqlite_connection C t e w = (some c, w)) ∨
    (pthread_getspecific t w = none ∧ (e.open_conn = none ∨ e.open_rc ≠ SQLITE_OK) ∧
      get_sqlite_connection C t e w =
        (none, { w with userdb := fix_user_directory e w.userdb,
                        userdb_type := C.TURN_USERDB_TYPE_UNKNOWN })) ∨
    (∃ c, pthread_getspecific t w = none ∧ e.open_conn = some c ∧ e.open_rc = SQLITE_OK ∧
      get_sqlite_connection C t e w =
        (some c, pthread_setspecific t c
          { init_sqlite_database { w with userdb := fix_user_directory e w.userdb } with
            donot_print_connection_success := true })) := by
  cases hg : pthread_getspecific t w with
  | some c => exact Or.inl ⟨c, rfl, get_sqlite_connection_cached C t e w c hg⟩
  | none =>
    right
    cases hc : e.open_conn with
    | none =>
      exact Or.inl ⟨rfl, Or.inl rfl, get_sqlite_connection_none C t e w hg (Or.inl hc)⟩
    | some c =>
      by_cases hrc : e.open_rc = SQLITE_OK
      · exact Or.inr ⟨c, rfl, rfl, hrc, get_sqlite_connection_opened C t e w c hg hc hrc⟩
      · exact Or.inl ⟨rfl, Or.inr hrc, get_sqlite_connection_none C t e w hg (Or.inr hrc)⟩

/-- The part of `sqlite_reread_realms` after the handle has been obtained, from a state
`w0`: when it returns it leaves the three blocks' result in the realm state. -/
theorem reread_blocks_return (C : Consts) (t : pthread_t) (e : Env) (w0 w' : World)
    (hrun : ((w0.lock false t).bind fun w2 =>
      (World.lock false t
        { World.unlock false t { w2 with live := reread_origins C e.fault w2.db w2.live } with
          live := reread_defaults (reread_origins C e.fault w2.db w2.live) }).map
        fun w3 =>
          World.unlock false t { w3 with live := reread_options C e.fault2 w3.db w3.live }) =
      some w') :
    w'.live = reread_live C e w0.db w0.live ∧ w'.db = w0.db ∧
    w'.connection_key = w0.connection_key ∧
    (sqlite_lock_pass false t w'.gate).1 = true := by
  by_cases hadm : (sqlite_lock_pass false t w0.gate).1 = true
  · have hadm2 := read_pass_after_bracket false t w0.gate hadm
    simp only [World.lock, World.unlock, hadm, if_true, Option.some_bind, hadm2,
      Option.map_some', Option.some.injEq] at hrun
    subst hrun
    exact ⟨rfl, rfl, rfl, read_pass_after_bracket false t _ hadm2⟩
  · simp [World.lock, hadm] at hrun

theorem reread_blocks_run (C : Consts) (t : pthread_t) (e : Env) (w0 : World)
    (hadm : (sqlite_lock_pass false t w0.gate).1 = true) :
    ∃ w', ((w0.lock false t).bind fun w2 =>
      (World.lock false t
        { World.unlock false t { w2 with live := reread_origins C e.fault w2.db w2.live } with
          live := reread_defaults (reread_origins C e.fault w2.db w2.live) }).map
        fun w3 =>
          World.unlock false t { w3 with live := reread_options C e.fault2 w3.db w3.live }) =
      some w' := by
  have hadm2 := read_pass_after_bracket false t w0.gate hadm
  simp only [World.lock, World.unlock, hadm, if_true, Option.some_bind, hadm2,
    Option.map_some', Option.some.injEq, exists_eq']

theorem reread_no_handle (C : Consts) (t : pthread_t) (e : Env) (w : World)
    (hno : pthread_getspecific t w = none)
    (hopen : e.open_conn = none ∨ e.open_rc ≠ SQLITE_OK) :
    ∃ w', sqlite_reread_realms C t e w = some w' ∧ w'.live = w.live := by
  unfold sqlite_reread_realms
  rw [get_sqlite_connection_none C t e _
    (by rw [pthread_getspecific_flag]; exact hno) hopen]
  exact ⟨_, rfl, rfl⟩

theorem parse_select_realm_options :
    parse_statement (lit "select realm,opt,value from turn_realm_option") =
      some (.select .turn_realm_option [0, 1, 2] [] []) := by
  decide

theorem column_of_project3 (row : Row) (i : Nat) (hi : i < 3) :
    sqlite3_column_text (project [0, 1, 2] row) i = sqlite3_column_text row i := by
  have : i = 0 ∨ i = 1 ∨ i = 2 := by omega
  rcases this with h | h | h <;> subst h <;> simp [project, sqlite3_column_text]

theorem apply_option_project (n : Str) (p : perf_options_t) (row : Row) :
    apply_option n p (project [0, 1, 2] row) = apply_option n p row := by
  unfold apply_option assign_option
  rw [column_of_project3 row 0 (by omega), column_of_project3 row 1 (by omega),
    column_of_project3 row 2 (by omega)]

theorem foldl_apply_option_project (n : Str) (p : perf_options_t) (rows : List Row) :
    (rows.map (project [0, 1, 2])).foldl (apply_option n) p =
      rows.foldl (apply_option n) p := by
  rw [List.foldl_map]
  simp only [apply_option_project]

/-- The third block on a backend without fault: the rows of the option table in order. -/
theorem reread_options_no_fault (C : Consts) (db : Db) (l : Live)
    (hsize : (lit "select realm,opt,value from turn_realm_option").length <
      C.TURN_LONG_STRING_SIZE) :
    reread_options C Fault.none db l =
      (db.turn_realm_option.map (project [0, 1, 2])).foldl reread_option_body l := by
  unfold reread_options sqlite3_prepare
  rw [snprintf_fits _ _ hsize]
  simp only [Fault.none, Bool.false_eq_true, if_false, parse_select_realm_options]
  rw [step_loop_delivered]
  have := delivered_no_fault 0 ((Stmt.select Table.turn_realm_option [0, 1, 2] [] []).rows db)
  unfold Fault.none at this
  rw [this]
  have hall : db.turn_realm_option.filter (row_matches []) = db.turn_realm_option :=
    List.filter_eq_self.2 (fun r _ => rfl)
  simp [Stmt.rows, Db.get, hall]

/-- One capacity field `g` under the option rows of a realm: untouched when no row of the
realm has the option name `opt` of the field, and the converted value of such a row
otherwise. -/
theorem foldl_apply_option_field {α : Type} (g : perf_options_t → α) (opt : Str)
    (conv : Str → α)
    (hset : ∀ row p, sqlite3_column_text row 1 = opt →
      g (assign_option row p) = conv (sqlite3_column_text row 2))
    (hkeep : ∀ row p, sqlite3_column_text row 1 ≠ opt → g (assign_option row p) = g p)
    (n : Str) (R : List Row) :
    (∀ p, (∀ row ∈ R, sqlite3_column_text row 0 = n → sqlite3_column_text row 1 ≠ opt) →
      g (R.foldl (apply_option n) p) = g p) ∧
    (∀ p, option_key_unique R → ∀ row ∈ R, sqlite3_column_text row 0 = n →
      sqlite3_column_text row 1 = opt →
      g (R.foldl (apply_option n) p) = conv (sqlite3_column_text row 2)) := by
  have hpart1 : ∀ (R : List Row) p,
      (∀ row ∈ R, sqlite3_column_text row 0 = n → sqlite3_column_text row 1 ≠ opt) →
      g (R.foldl (apply_option n) p) = g p := by
    intro R
    induction R with
    | nil => intro p _; rfl
    | cons x xs ih =>
      intro p h
      rw [List.foldl_cons, ih _ (fun r hr => h r (List.mem_cons_of_mem _ hr))]
      unfold apply_option
      split_ifs with hx
      · exact hkeep x p (h x (by simp) hx)
      · rfl
  refine ⟨hpart1 R, ?_⟩
  induction R with
  | nil => intro p _ row hrow; cases hrow
  | cons x xs ih =>
    intro p hpk row hrow h0 h1
    rw [List.foldl_cons]
    have hpk' : option_key_unique xs := fun r1 hr1 r2 hr2 =>
      hpk r1 (List.mem_cons_of_mem _ hr1) r2 (List.mem_cons_of_mem _ hr2)
    by_cases hex : ∃ r ∈ xs, sqlite3_column_text r 0 = n ∧ sqlite3_column_text r 1 = opt
    · obtain ⟨r, hr, hr0, hr1⟩ := hex
      rw [ih _ hpk' r hr hr0 hr1]
      exact congrArg conv (hpk r (List.mem_cons_of_mem _ hr) row hrow (hr0.trans h0.symm)
        (hr1.trans h1.symm))
    · have hrowx : row = x := by
        rcases List.mem_cons.1 hrow with h | h
        · exact h
        · exact absurd ⟨row, h, h0, h1⟩ hex
      subst hrowx
      rw [hpart1 xs _ (fun r hr hr0 hr1 => hex ⟨r, hr, hr0, hr1⟩)]
      unfold apply_option
      rw [if_pos h0]
      exact hset row p h1

/-- C4. Reload result for capacity fields: thread `t` has a usable handle, the statement fits
its buffer, the backend handles the option statement without error, and the option table
satisfies its primary key.  After `sqlite_reread_realms` has returned, every realm of the
live list of realms has a live instance, each of whose fields `max_bps`, `total_quota`,
`user_quota` is the numeric value (`strtoul`, `atoi`, `atoi`) of the realm's row for
`max-bps`, `total-quota`, `user-quota` when there is such a row, and the default of
`turn_params` when there is none. -/
theorem reload_capacity_fields (C : Consts) (t : pthread_t) (e : Env)
    (w w' : World)
    (husable : usable_handle C t e w)
    (hsize : (lit "select realm,opt,value from turn_realm_option").length <
      C.TURN_LONG_STRING_SIZE)
    (hf2 : e.fault2 = Fault.none)
    (hpk : option_key_unique w.db.turn_realm_option)
    (hrun : sqlite_reread_realms C t e w = some w') :
    ∀ n ∈ w'.live.realms_list, ∃ p, find_realm n w'.live.realms = some p ∧
      (∀ row ∈ w.db.turn_realm_option, sqlite3_column_text row 0 = n →
        sqlite3_column_text row 1 = lit "max-bps" →
        p.max_bps = strtoul (sqlite3_column_text row 2)) ∧
      ((∀ row ∈ w.db.turn_realm_option, sqlite3_column_text row 0 = n →
        sqlite3_column_text row 1 ≠ lit "max-bps") → p.max_bps = w.live.turn_params.max_bps) ∧
      (∀ row ∈ w.db.turn_realm_option, sqlite3_column_text row 0 = n →
        sqlite3_column_text row 1 = lit "total-quota" →
        p.total_quota = atoi (sqlite3_column_text row 2)) ∧
      ((∀ row ∈ w.db.turn_realm_option, sqlite3_column_text row 0 = n →
        sqlite3_column_text row 1 ≠ lit "total-quota") →
        p.total_quota = w.live.turn_params.total_quota) ∧
      (∀ row ∈ w.db.turn_realm_option, sqlite3_column_text row 0 = n →
        sqlite3_column_text row 1 = lit "user-quota" →
        p.user_quota = atoi (sqlite3_column_text row 2)) ∧
      ((∀ row ∈ w.db.turn_realm_option, sqlite3_column_text row 0 = n →
        sqlite3_column_text row 1 ≠ lit "user-quota") →
        p.user_quota = w.live.turn_params.user_quota) := by
  obtain ⟨c, w0, hg⟩ := usable_handle_get C t e _ ((usable_handle_flag C t e w true).2 husable)
  obtain ⟨hdb0, -, -, hlive0, -, -⟩ := get_sqlite_connection_frame C t e _ w0 c hg
  simp only at hdb0 hlive0
  unfold sqlite_reread_realms at hrun
  rw [hg] at hrun
  simp only at hrun
  obtain ⟨hlive, -, -, -⟩ := reread_blocks_return C t e w0 w' hrun
  rw [hdb0, hlive0] at hlive
  unfold reread_live at hlive
  rw [hf2, reread_options_no_fault C w.db _ hsize] at hlive
  obtain ⟨htp2, -, hgood⟩ := reread_defaults_result (reread_origins C e.fault w.db w.live)
  have htp1 : (reread_origins C e.fault w.db w.live).turn_params = w.live.turn_params := by
    unfold reread_origins
    cases sqlite3_prepare e.fault (snprintf C.TURN_LONG_STRING_SIZE
      (lit "select origin,realm from turn_origin_to_realm")) with
    | none => rfl
    | some st =>
      simp only [update_o_to_realm]
      rw [step_loop_delivered]
      generalize delivered e.fault 0 (st.rows w.db) = rows
      have : ∀ (acc : Live × List (Str × Str)),
          (rows.foldl reread_origin_body acc).1.turn_params = acc.1.turn_params := by
        induction rows with
        | nil => intro acc; rfl
        | cons r rs ih =>
          intro acc
          rw [List.foldl_cons, ih]
          exact get_realm_turn_params _ _
      exact this _
  generalize reread_origins C e.fault w.db w.live = l1 at hlive htp2 hgood htp1
  generalize hl2 : reread_defaults l1 = l2 at hlive htp2 hgood
  intro n hn
  rw [hlive] at hn ⊢
  have hfind : find_realm n
      ((w.db.turn_realm_option.map (project [0, 1, 2])).foldl reread_option_body l2).realms =
      some (w.db.turn_realm_option.foldl (apply_option n) w.live.turn_params) := by
    rcases mem_realms_list_foldl_option n _ l2 hn with h | h
    · have hg := hgood n h
      rw [find_realm_foldl_option n _ l2 (Or.inl (by rw [hg]; rfl)), hg,
        foldl_apply_option_project]
      simp [htp1]
    · cases hfn : find_realm n l2.realms with
      | some p =>
        by_cases hmem : n ∈ l2.realms_list
        · have hg := hgood n hmem
          rw [find_realm_foldl_option n _ l2 (Or.inl (by rw [hg]; rfl)), hg,
            foldl_apply_option_project]
          simp [htp1]
        · exfalso
          apply hmem
          have hstrong : ∀ (R : List Row) (l : Live),
              n ∈ (R.foldl reread_option_body l).realms_list →
              (find_realm n l.realms).isSome → n ∈ l.realms_list := by
            intro R
            induction R with
            | nil => intro l h _; exact h
            | cons row R ih =>
              intro l h hs
              rw [List.foldl_cons] at h
              have hs' : (find_realm n (reread_option_body l row).realms).isSome := by
                rw [find_realm_option_body]
                split_ifs
                · rfl
                · exact hs
              have := ih _ h hs'
              rw [reread_option_body_realms_list] at this
              rcases mem_realms_list_get_realm n _ l this with h1 | ⟨h1, h2⟩
              · exact h1
              · rw [has_realm_iff, ← h1] at h2
                rw [h2] at hs
                cases hs
          exact hstrong _ l2 hn (by rw [hfn]; rfl)
      | none =>
        rw [find_realm_foldl_option n _ l2 (Or.inr h), hfn, foldl_apply_option_project]
        simp [htp2, htp1]
  refine ⟨_, hfind, ?_⟩
  have hmax := foldl_apply_option_field (fun p => p.max_bps) (lit "max-bps") strtoul
    (fun row p h => by unfold assign_option; rw [if_pos h])
    (fun row p h => by unfold assign_option; rw [if_neg h]; split_ifs <;> rfl)
    n w.db.turn_realm_option
  have htot := foldl_apply_option_field (fun p => p.total_quota) (lit "total-quota") atoi
    (fun row p h => by
      unfold assign_option
      rw [if_neg (by rw [h]; decide), if_pos h])
    (fun row p h => by unfold assign_option; rw [if_neg h]; split_ifs <;> rfl)
    n w.db.turn_realm_option
  have husr := foldl_apply_option_field (fun p => p.user_quota) (lit "user-quota") atoi
    (fun row p h => by
      unfold assign_option
      rw [if_neg (by rw [h]; decide), if_neg (by rw [h]; decide), if_pos h])
    (fun row p h => by unfold assign_option; rw [if_neg h]; split_ifs <;> rfl)
    n w.db.turn_realm_option
  exact ⟨fun row hrow h0 h1 => hmax.2 _ hpk row hrow h0 h1, fun h => hmax.1 _ h,
    fun row hrow h0 h1 => htot.2 _ hpk row hrow h0 h1, fun h => htot.1 _ h,
    fun row hrow h0 h1 => husr.2 _ hpk row hrow h0 h1, fun h => husr.1 _ h⟩

/-! ### Idempotence of the reload -/

theorem table_map_cons (g : Str → perf_options_t → perf_options_t) (seen : List Str)
    (r : Str × perf_options_t) (T : List (Str × perf_options_t)) :
    table_map g seen (r :: T) =
      (if r.1 ∈ seen then r else (r.1, g r.1 r.2)) :: table_map g (r.1 :: seen) T := rfl

theorem table_map_id (g : Str → perf_options_t → perf_options_t) (seen : List Str)
    (T : List (Str × perf_options_t))
    (h : ∀ n p, n ∉ seen → find_realm n T = some p → g n p = p) :
    table_map g seen T = T := by
  induction T generalizing seen with
  | nil => rfl
  | cons r T ih =>
    unfold table_map
    have htail : table_map g (r.1 :: seen) T = T := by
      apply ih
      intro n p hn hf
      have hne : r.1 ≠ n := fun hc => hn (by simp [hc])
      apply h n p (fun hc => hn (List.mem_cons_of_mem _ hc))
      rw [find_realm_cons, if_neg hne]
      exact hf
    rw [htail]
    by_cases hs : r.1 ∈ seen
    · rw [if_pos hs]
    · rw [if_neg hs]
      have := h r.1 r.2 hs (by rw [find_realm_cons, if_pos rfl])
      rw [this]

theorem table_map_update (m : Str) (f : perf_options_t → perf_options_t) (seen : List Str)
    (T : List (Str × perf_options_t)) (hm : m ∉ seen) :
    table_map (fun n p => if n = m then f p else p) seen T = update_realm m f T := by
  induction T generalizing seen with
  | nil => rfl
  | cons r T ih =>
    unfold table_map update_realm
    by_cases hrm : r.1 = m
    · have hs : r.1 ∉ seen := by rw [hrm]; exact hm
      rw [if_neg hs, if_pos hrm, if_pos hrm]
      congr 1
      apply table_map_id
      intro n p hn _
      have : n ≠ m := fun hc => hn (by simp [hc, hrm])
      rw [if_neg this]
    · rw [if_neg hrm, if_neg hrm, ih (r.1 :: seen) (by
        intro hc
        rcases List.mem_cons.1 hc with h | h
        · exact hrm h.symm
        · exact hm h)]
      by_cases hs : r.1 ∈ seen
      · rw [if_pos hs]
      · rw [if_neg hs]

theorem table_map_comp (g1 g2 : Str → perf_options_t → perf_options_t) (seen : List Str)
    (T : List (Str × perf_options_t)) :
    table_map g2 seen (table_map g1 seen T) = table_map (fun n p => g2 n (g1 n p)) seen T := by
  induction T generalizing seen with
  | nil => rfl
  | cons r T ih =>
    by_cases hs : r.1 ∈ seen
    · rw [table_map_cons, if_pos hs, table_map_cons, if_pos hs, table_map_cons, if_pos hs, ih]
    · rw [table_map_cons, if_neg hs, table_map_cons, if_neg hs, table_map_cons, if_neg hs, ih]

theorem apply_updates_eq_table_map (us : List (Str × (perf_options_t → perf_options_t)))
    (T : List (Str × perf_options_t)) :
    apply_updates us T = table_map (compose_updates us) [] T := by
  induction us generalizing T with
  | nil =>
    unfold apply_updates compose_updates
    simp only [List.foldl_nil]
    exact (table_map_id _ [] T (fun _ _ _ _ => rfl)).symm
  | cons u us ih =>
    have h1 : apply_updates (u :: us) T = apply_updates us (update_realm u.1 u.2 T) := rfl
    rw [h1, ih, ← table_map_update u.1 u.2 [] T (by simp), table_map_comp]
    congr 1
    funext n p
    unfold compose_updates
    rw [List.foldl_cons]
    by_cases h : u.1 = n
    · simp [h]
    · have : ¬ n = u.1 := fun hc => h hc.symm
      simp [h, this]

theorem has_realm_update (n m : Str) (f : perf_options_t → perf_options_t)
    (T : List (Str × perf_options_t)) :
    has_realm n (update_realm m f T) = has_realm n T := by
  rw [has_realm_iff, has_realm_iff, find_realm_update]
  split_ifs <;> simp

theorem has_realm_apply_updates (n : Str)
    (us : List (Str × (perf_options_t → perf_options_t))) (T : List (Str × perf_options_t)) :
    has_realm n (apply_updates us T) = has_realm n T := by
  induction us generalizing T with
  | nil => rfl
  | cons u us ih =>
    have h1 : apply_updates (u :: us) T = apply_updates us (update_realm u.1 u.2 T) := rfl
    rw [h1, ih, has_realm_update]

theorem apply_updates_append (us vs : List (Str × (perf_options_t → perf_options_t)))
    (T : List (Str × perf_options_t)) :
    apply_updates (us ++ vs) T = apply_updates vs (apply_updates us T) := by
  unfold apply_updates
  rw [List.foldl_append]

/-- The third block when every realm named by a row is live: assignments only. -/
theorem foldl_option_present (R : List Row) (l : Live)
    (h : ∀ row ∈ R, has_realm (sqlite3_column_text row 0) l.realms = true) :
    R.foldl reread_option_body l =
      { l with
        realms := apply_updates
          (R.map (fun row => (sqlite3_column_text row 0, assign_option row))) l.realms } := by
  induction R generalizing l with
  | nil => rfl
  | cons row R ih =>
    rw [List.foldl_cons, reread_option_body_eq,
      get_realm_present _ l (h row (by simp))]
    rw [ih]
    · rfl
    · intro r hr
      simp only
      rw [has_realm_update]
      exact h r (List.mem_cons_of_mem _ hr)

/-- The second block when every realm of the list is live: assignments only. -/
theorem reread_defaults_present (l : Live)
    (h : ∀ n ∈ l.realms_list, has_realm n l.realms = true) :
    reread_defaults l =
      { l with
        realms := apply_updates
          (l.realms_list.map (fun n => (n, fun _ => l.turn_params))) l.realms } := by
  have key : ∀ k, k ≤ l.realms_list.length →
      (List.range k).foldl reread_default_body l =
        { l with
          realms := apply_updates
            ((l.realms_list.take k).map (fun n => (n, fun _ => l.turn_params))) l.realms } := by
    intro k
    induction k with
    | zero => intro _; rfl
    | succ k ih =>
      intro hk
      rw [List.range_succ, List.foldl_append, ih (by omega)]
      simp only [List.foldl_cons, List.foldl_nil]
      rw [reread_default_body_eq]
      simp only
      have hmem : l.realms_list.getD k [] ∈ l.realms_list := by
        rw [List.getD_eq_getElem _ _ (by omega)]
        exact List.getElem_mem _
      rw [get_realm_present _ _ (by
        simp only
        rw [has_realm_apply_updates]
        exact h _ hmem)]
      simp only
      have htake : l.realms_list.take (k + 1) =
          l.realms_list.take k ++ [l.realms_list.getD k []] := by
        rw [List.getD_eq_getElem _ _ (by omega), List.take_succ,
          List.getElem?_eq_getElem (by omega)]
        rfl
      rw [htake, List.map_append, apply_updates_append]
      rfl
  unfold reread_defaults
  rw [key _ (le_refl _), List.take_length]

theorem foldl_origin_body (R : List Row) (l : Live) (m : List (Str × Str)) :
    R.foldl reread_origin_body (l, m) =
      (R.foldl (fun l row => get_realm (sqlite3_column_text row 1) l) l,
       R.foldl (fun m row => ur_string_map_put m (sqlite3_column_text row 0)
         (sqlite3_column_text row 1)) m) := by
  induction R generalizing l m with
  | nil => rfl
  | cons row R ih =>
    rw [List.foldl_cons, List.foldl_cons, List.foldl_cons]
    exact ih _ _

/-- The first block when its statement is not prepared. -/
theorem reread_origins_none (C : Consts) (f : Fault) (db : Db) (l : Live)
    (hp : sqlite3_prepare f (snprintf C.TURN_LONG_STRING_SIZE
      (lit "select origin,realm from turn_origin_to_realm")) = none) :
    reread_origins C f db l = l := by
  unfold reread_origins
  rw [hp]

/-- The first block in terms of the rows it sees. -/
theorem reread_origins_some (C : Consts) (f : Fault) (db : Db) (l : Live) (st : Stmt)
    (hp : sqlite3_prepare f (snprintf C.TURN_LONG_STRING_SIZE
      (lit "select origin,realm from turn_origin_to_realm")) = some st) :
    reread_origins C f db l =
      update_o_to_realm
        ((origin_rows C f db).foldl (fun m row => ur_string_map_put m
          (sqlite3_column_text row 0) (sqlite3_column_text row 1)) [])
        ((origin_rows C f db).foldl (fun l row => get_realm (sqlite3_column_text row 1) l) l) := by
  unfold reread_origins origin_rows
  rw [hp]
  simp only
  rw [step_loop_delivered, foldl_origin_body]

/-- The third block in terms of the rows it sees. -/
theorem reread_options_eq (C : Consts) (f : Fault) (db : Db) (l : Live) :
    reread_options C f db l = (option_rows C f db).foldl reread_option_body l := by
  unfold reread_options option_rows
  cases sqlite3_prepare f (snprintf C.TURN_LONG_STRING_SIZE
    (lit "select realm,opt,value from turn_realm_option")) with
  | none => rfl
  | some st => simp only; rw [step_loop_delivered]

theorem has_realm_get_realm_mono (n m : Str) (l : Live) (h : has_realm n l.realms = true) :
    has_realm n (get_realm m l).realms = true := by
  rw [has_realm_iff] at h ⊢
  rw [find_realm_get_realm, if_pos h]
  exact h

theorem has_realm_default_body_mono (n : Str) (l : Live) (i : Nat)
    (h : has_realm n l.realms = true) :
    has_realm n (reread_default_body l i).realms = true := by
  rw [has_realm_iff] at h ⊢
  rw [find_realm_default_body]
  split_ifs
  · rfl
  · exact h

theorem has_realm_option_body_mono (n : Str) (l : Live) (row : Row)
    (h : has_realm n l.realms = true) :
    has_realm n (reread_option_body l row).realms = true := by
  rw [has_realm_iff] at h ⊢
  rw [find_realm_option_body]
  split_ifs
  · rfl
  · exact h

theorem has_realm_foldl_get_realm (n : Str) (R : List Row) (l : Live)
    (h : has_realm n l.realms = true ∨ ∃ row ∈ R, sqlite3_column_text row 1 = n) :
    has_realm n
      (R.foldl (fun l row => get_realm (sqlite3_column_text row 1) l) l).realms = true := by
  induction R generalizing l with
  | nil =>
    rcases h with h | ⟨row, hrow, -⟩
    · exact h
    · cases hrow
  | cons row R ih =>
    rw [List.foldl_cons]
    apply ih
    rcases h with h | ⟨r, hr, hrn⟩
    · exact Or.inl (has_realm_get_realm_mono n _ l h)
    · rcases List.mem_cons.1 hr with hr | hr
      · subst hr
        rw [← hrn]
        exact Or.inl (has_realm_get_realm _ l)
      · exact Or.inr ⟨r, hr, hrn⟩

theorem foldl_get_realm_present (R : List Row) (l : Live)
    (h : ∀ row ∈ R, has_realm (sqlite3_column_text row 1) l.realms = true) :
    R.foldl (fun l row => get_realm (sqlite3_column_text row 1) l) l = l := by
  induction R with
  | nil => rfl
  | cons row R ih =>
    rw [List.foldl_cons, get_realm_present _ l (h row (by simp))]
    exact ih (fun r hr => h r (List.mem_cons_of_mem _ hr))

theorem has_realm_reread_defaults_mono (n : Str) (l : Live)
    (h : has_realm n l.realms = true) : has_realm n (reread_defaults l).realms = true := by
  unfold reread_defaults
  generalize List.range l.realms_list.length = is
  induction is generalizing l with
  | nil => exact h
  | cons i is ih =>
    rw [List.foldl_cons]
    exact ih _ (has_realm_default_body_mono n l i h)

theorem has_realm_foldl_option_mono (n : Str) (R : List Row) (l : Live)
    (h : has_realm n l.realms = true) :
    has_realm n (R.foldl reread_option_body l).realms = true := by
  induction R generalizing l with
  | nil => exact h
  | cons row R ih =>
    rw [List.foldl_cons]
    exact ih _ (has_realm_option_body_mono n l row h)

theorem mem_realms_list_foldl_option_strong (n : Str) (R : List Row) (l : Live)
    (h : n ∈ (R.foldl reread_option_body l).realms_list) :
    n ∈ l.realms_list ∨
      (find_realm n l.realms = none ∧ ∃ row ∈ R, sqlite3_column_text row 0 = n) := by
  induction R generalizing l with
  | nil => exact Or.inl h
  | cons row R ih =>
    rw [List.foldl_cons] at h
    rcases ih _ h with h' | ⟨hnone, r, hr, hrn⟩
    · rw [reread_option_body_realms_list] at h'
      rcases mem_realms_list_get_realm n _ l h' with h'' | ⟨h1, h2⟩
      · exact Or.inl h''
      · right
        rw [has_realm_iff, ← h1] at h2
        refine ⟨?_, row, by simp, h1.symm⟩
        cases hf : find_realm n l.realms with
        | none => rfl
        | some p => rw [hf] at h2; cases h2
    · right
      rw [find_realm_option_body] at hnone
      split_ifs at hnone
      exact ⟨hnone, r, List.mem_cons_of_mem _ hr, hrn⟩

/-- After the second and third block every realm of the list has the defaults overwritten
by its rows. -/
theorem list_realms_after_options (R : List Row) (l2 : Live)
    (hgood : ∀ n ∈ l2.realms_list, find_realm n l2.realms = some l2.turn_params) :
    ∀ n ∈ (R.foldl reread_option_body l2).realms_list,
      find_realm n (R.foldl reread_option_body l2).realms =
        some (R.foldl (apply_option n) l2.turn_params) := by
  intro n hn
  rcases mem_realms_list_foldl_option_strong n R l2 hn with h | ⟨hnone, hrow⟩
  · have hg := hgood n h
    rw [find_realm_foldl_option n R l2 (Or.inl (by rw [hg]; rfl)), hg]
    rfl
  · rw [find_realm_foldl_option n R l2 (Or.inr hrow), hnone]
    rfl

theorem getD_orElse {α : Type} (a b : Option α) (x : α) :
    (a.orElse fun _ => b).getD x = a.getD (b.getD x) := by
  cases a <;> rfl

/-- The option rows of a realm overwrite each capacity field with a fixed value or leave
it alone. -/
theorem foldl_apply_option_overwrite (n : Str) (R : List Row) :
    ∃ (a : Option Nat) (b c : Option Int), ∀ p,
      R.foldl (apply_option n) p =
        ⟨a.getD p.max_bps, b.getD p.total_quota, c.getD p.user_quota⟩ := by
  induction R with
  | nil => exact ⟨none, none, none, fun p => rfl⟩
  | cons x xs ih =>
    obtain ⟨a, b, c, h⟩ := ih
    have hx : ∃ (a' : Option Nat) (b' c' : Option Int), ∀ p,
        apply_option n p x = ⟨a'.getD p.max_bps, b'.getD p.total_quota, c'.getD p.user_quota⟩ := by
      unfold apply_option assign_option
      by_cases h0 : sqlite3_column_text x 0 = n
      · by_cases h1 : sqlite3_column_text x 1 = lit "max-bps"
        · exact ⟨some (strtoul (sqlite3_column_text x 2)), none, none, fun p => by
            rw [if_pos h0, if_pos h1]; rfl⟩
        · by_cases h2 : sqlite3_column_text x 1 = lit "total-quota"
          · exact ⟨none, some (atoi (sqlite3_column_text x 2)), none, fun p => by
              rw [if_pos h0, if_neg h1, if_pos h2]; rfl⟩
          · by_cases h3 : sqlite3_column_text x 1 = lit "user-quota"
            · exact ⟨none, none, some (atoi (sqlite3_column_text x 2)), fun p => by
                rw [if_pos h0, if_neg h1, if_neg h2, if_pos h3]; rfl⟩
            · exact ⟨none, none, none, fun p => by
                rw [if_pos h0, if_neg h1, if_neg h2, if_neg h3]; rfl⟩
      · exact ⟨none, none, none, fun p => by rw [if_neg h0]; rfl⟩
    obtain ⟨a', b', c', h'⟩ := hx
    refine ⟨a.orElse fun _ => a', b.orElse fun _ => b', c.orElse fun _ => c', fun p => ?_⟩
    rw [List.foldl_cons, h, h', getD_orElse, getD_orElse, getD_orElse]

theorem foldl_apply_option_idem (n : Str) (R : List Row) (p : perf_options_t) :
    R.foldl (apply_option n) (R.foldl (apply_option n) p) = R.foldl (apply_option n) p := by
  obtain ⟨a, b, c, h⟩ := foldl_apply_option_overwrite n R
  rw [h (R.foldl (apply_option n) p), h p]
  cases a <;> cases b <;> cases c <;> rfl

/-- After the third block the fields of every live realm are stable under its rows. -/
theorem realms_stable_after_options (R : List Row) (l : Live) (n : Str) (p : perf_options_t)
    (h : find_realm n (R.foldl reread_option_body l).realms = some p) :
    R.foldl (apply_option n) p = p := by
  by_cases hc : (find_realm n l.realms).isSome ∨ ∃ row ∈ R, sqlite3_column_text row 0 = n
  · rw [find_realm_foldl_option n R l hc] at h
    simp only [Option.some.injEq] at h
    rw [← h]
    exact foldl_apply_option_idem n R _
  · have h1 : find_realm n l.realms = none := by
      cases hf : find_realm n l.realms with
      | none => rfl
      | some q => exact absurd (Or.inl (by rw [hf]; rfl)) hc
    have h2 : ∀ row ∈ R, sqlite3_column_text row 0 ≠ n :=
      fun row hrow hrn => hc (Or.inr ⟨row, hrow, hrn⟩)
    rw [find_realm_foldl_option_none n R l h1 h2] at h
    cases h

theorem compose_updates_append (us vs : List (Str × (perf_options_t → perf_options_t)))
    (n : Str) (p : perf_options_t) :
    compose_updates (us ++ vs) n p = compose_updates vs n (compose_updates us n p) := by
  unfold compose_updates
  rw [List.foldl_append]

theorem compose_updates_defaults (names : List Str) (d : perf_options_t) (n : Str)
    (p : perf_options_t) :
    compose_updates (names.map (fun m => (m, fun _ => d))) n p =
      if n ∈ names then d else p := by
  induction names generalizing p with
  | nil => rfl
  | cons m names ih =>
    unfold compose_updates at ih ⊢
    rw [List.map_cons, List.foldl_cons]
    simp only
    by_cases hmn : m = n
    · rw [if_pos hmn, ih]
      have : n ∈ m :: names := by simp [hmn]
      rw [if_pos this]
      split_ifs <;> rfl
    · rw [if_neg hmn, ih]
      have : n ∈ m :: names ↔ n ∈ names := by
        simp only [List.mem_cons]
        constructor
        · rintro (h | h)
          · exact absurd h.symm hmn
          · exact h
        · exact Or.inr
      by_cases hmem : n ∈ names
      · rw [if_pos hmem, if_pos (this.2 hmem)]
      · rw [if_neg hmem, if_neg (fun hc => hmem (this.1 hc))]

theorem compose_updates_options (R : List Row) (n : Str) (p : perf_options_t) :
    compose_updates (R.map (fun row => (sqlite3_column_text row 0, assign_option row))) n p =
      R.foldl (apply_option n) p := by
  induction R generalizing p with
  | nil => rfl
  | cons row R ih =>
    unfold compose_updates at ih ⊢
    rw [List.map_cons, List.foldl_cons, List.foldl_cons]
    simp only
    rw [ih]
    rfl

/-- The three blocks of the reload, run a second time on their own result, change
nothing. -/
theorem reread_live_idempotent (C : Consts) (e : Env) (db : Db) (l : Live) :
    reread_live C e db (reread_live C e db l) = reread_live C e db l := by
  -- the first run
  have hres := reread_defaults_result (reread_origins C e.fault db l)
  obtain ⟨htp2, hom2, hgood⟩ := hres
  have hl3 : reread_live C e db l = (option_rows C e.fault2 db).foldl reread_option_body
      (reread_defaults (reread_origins C e.fault db l)) := by
    unfold reread_live; rw [reread_options_eq]
  have hgood' : ∀ n ∈ (reread_defaults (reread_origins C e.fault db l)).realms_list,
      find_realm n (reread_defaults (reread_origins C e.fault db l)).realms =
        some (reread_defaults (reread_origins C e.fault db l)).turn_params := by
    intro n hn; rw [htp2]; exact hgood n hn
  have hlist := list_realms_after_options (option_rows C e.fault2 db) _ hgood'
  have hstable := realms_stable_after_options (option_rows C e.fault2 db)
    (reread_defaults (reread_origins C e.fault db l))
  have hrows : ∀ row ∈ option_rows C e.fault2 db,
      has_realm (sqlite3_column_text row 0)
        ((option_rows C e.fault2 db).foldl reread_option_body
          (reread_defaults (reread_origins C e.fault db l))).realms = true := by
    intro row hrow
    rw [has_realm_iff, find_realm_foldl_option _ _ _ (Or.inr ⟨row, hrow, rfl⟩)]
    rfl
  have htp3 : ((option_rows C e.fault2 db).foldl reread_option_body
      (reread_defaults (reread_origins C e.fault db l))).turn_params =
      (reread_defaults (reread_origins C e.fault db l)).turn_params :=
    foldl_option_turn_params _ _
  have hom3 : ((option_rows C e.fault2 db).foldl reread_option_body
      (reread_defaults (reread_origins C e.fault db l))).o_to_realm =
      (reread_origins C e.fault db l).o_to_realm := by
    rw [foldl_option_o_to_realm, hom2]
  -- the first block of the second run
  have hfirst : reread_origins C e.fault db (reread_live C e db l) = reread_live C e db l := by
    cases hp : sqlite3_prepare e.fault (snprintf C.TURN_LONG_STRING_SIZE
      (lit "select origin,realm from turn_origin_to_realm")) with
    | none => exact reread_origins_none C e.fault db _ hp
    | some st =>
      rw [reread_origins_some C e.fault db _ st hp]
      have h1 := reread_origins_some C e.fault db l st hp
      have hpres : ∀ row ∈ origin_rows C e.fault db,
          has_realm (sqlite3_column_text row 1) (reread_live C e db l).realms = true := by
        intro row hrow
        rw [hl3]
        apply has_realm_foldl_option_mono
        apply has_realm_reread_defaults_mono
        rw [h1]
        unfold update_o_to_realm
        simp only
        apply has_realm_foldl_get_realm
        exact Or.inr ⟨row, hrow, rfl⟩
      rw [foldl_get_realm_present _ _ hpres]
      have hmap : (reread_live C e db l).o_to_realm =
          (origin_rows C e.fault db).foldl (fun m row => ur_string_map_put m
            (sqlite3_column_text row 0) (sqlite3_column_text row 1)) [] := by
        rw [hl3, hom3, h1]
        rfl
      unfold update_o_to_realm
      rw [← hmap]
  -- the second and third block of the second run
  have hsecond : reread_live C e db (reread_live C e db l) =
      (option_rows C e.fault2 db).foldl reread_option_body
        (reread_defaults (reread_live C e db l)) := by
    have hun : reread_live C e db (reread_live C e db l) =
        reread_options C e.fault2 db
          (reread_defaults (reread_origins C e.fault db (reread_live C e db l))) := rfl
    rw [hun, reread_options_eq, hfirst]
  rw [hsecond]
  generalize hg : reread_live C e db l = l3 at *
  have hlist3 : ∀ n ∈ l3.realms_list,
      find_realm n l3.realms = some ((option_rows C e.fault2 db).foldl (apply_option n)
        l3.turn_params) := by
    intro n hn
    rw [hl3] at hn ⊢
    rw [hlist n hn, htp3]
  have hstable3 : ∀ n p, find_realm n l3.realms = some p →
      (option_rows C e.fault2 db).foldl (apply_option n) p = p := by
    intro n p hf
    rw [hl3] at hf
    exact hstable n p hf
  have hrows3 : ∀ row ∈ option_rows C e.fault2 db,
      has_realm (sqlite3_column_text row 0) l3.realms = true := by
    intro row hrow
    rw [hl3]
    exact hrows row hrow
  have hpresent : ∀ n ∈ l3.realms_list, has_realm n l3.realms = true := by
    intro n hn
    rw [has_realm_iff, hlist3 n hn]
    rfl
  rw [reread_defaults_present l3 hpresent, foldl_option_present]
  · simp only
    rw [← apply_updates_append, apply_updates_eq_table_map, table_map_id]
    intro n p _ hf
    rw [compose_updates_append, compose_updates_defaults, compose_updates_options]
    by_cases hmem : n ∈ l3.realms_list
    · rw [if_pos hmem]
      have := hlist3 n hmem
      rw [hf] at this
      simp only [Option.some.injEq] at this
      exact this.symm
    · rw [if_neg hmem]
      exact hstable3 n p hf
  · intro row hrow
    simp only
    rw [has_realm_apply_updates]
    exact hrows3 row hrow

/-- C5. Reload idempotence: when `sqlite_reread_realms` has returned, a second run in the
same surroundings, with the durable store and the defaults as they are, returns as well
and leaves the live realm table, the live list of realms and the published
origin-to-realm mapping exactly as the first run left them. -/
theorem reload_idempotent (C : Consts) (t : pthread_t) (e : Env) (w w1 : World)
    (h1 : sqlite_reread_realms C t e w = some w1) :
    ∃ w2, sqlite_reread_realms C t e w1 = some w2 ∧
      w2.live.realms = w1.live.realms ∧ w2.live.realms_list = w1.live.realms_list ∧
      w2.live.o_to_realm = w1.live.o_to_realm := by
  unfold sqlite_reread_realms at h1
  rcases get_sqlite_connection_cases C t e { w with donot_print_connection_success := true }
    with ⟨c, hc, hget⟩ | ⟨hno, hopen, hget⟩ | ⟨c, hno, hoc, hrc, hget⟩
  · -- the thread had its handle
    rw [hget] at h1
    simp only at h1
    obtain ⟨hlive, hdb, hkey, hadm⟩ := reread_blocks_return C t e _ w1 h1
    have hc1 : pthread_getspecific t { w1 with donot_print_connection_success := true } =
        some c := by
      unfold pthread_getspecific at hc ⊢
      simp only at hc ⊢
      rw [hkey]; exact hc
    obtain ⟨w2, h2⟩ := reread_blocks_run C t e
      { w1 with donot_print_connection_success := true } hadm
    refine ⟨w2, ?_, ?_⟩
    · unfold sqlite_reread_realms
      rw [get_sqlite_connection_cached C t e _ c hc1]
      exact h2
    · obtain ⟨hlive2, -, -, -⟩ := reread_blocks_return C t e _ w2 h2
      simp only at hlive2 hlive hdb
      rw [hlive2, hdb, hlive, reread_live_idempotent]
      exact ⟨rfl, rfl, rfl⟩
  · -- no handle: the reload gives up, both times
    rw [hget] at h1
    simp only [Option.some.injEq] at h1
    subst h1
    obtain ⟨w2, h2, hl2⟩ := reread_no_handle C t e
      { w with donot_print_connection_success := true,
               userdb := fix_user_directory e w.userdb,
               userdb_type := C.TURN_USERDB_TYPE_UNKNOWN } hno hopen
    exact ⟨w2, h2, by rw [hl2], by rw [hl2], by rw [hl2]⟩
  · -- the handle is opened in the first run and cached for the second
    rw [hget] at h1
    simp only at h1
    obtain ⟨hlive, hdb, hkey, hadm⟩ := reread_blocks_return C t e _ w1 h1
    have hc1 : pthread_getspecific t { w1 with donot_print_connection_success := true } =
        some c := by
      unfold pthread_getspecific
      simp only
      rw [hkey]
      exact pthread_getspecific_set t c _
    obtain ⟨w2, h2⟩ := reread_blocks_run C t e
      { w1 with donot_print_connection_success := true } hadm
    refine ⟨w2, ?_, ?_⟩
    · unfold sqlite_reread_realms
      rw [get_sqlite_connection_cached C t e _ c hc1]
      exact h2
    · obtain ⟨hlive2, -, -, -⟩ := reread_blocks_return C t e _ w2 h2
      simp only at hlive2 hlive hdb
      rw [hlive2, hdb, hlive]
      have : (pthread_setspecific t c
          { init_sqlite_database
              { ({ w with donot_print_connection_success := true } : World) with
                userdb := fix_user_directory e w.userdb } with
            donot_print_connection_success := true }).live = w.live := rfl
      have hdb0 : (pthread_setspecific t c
          { init_sqlite_database
              { ({ w with donot_print_connection_success := true } : World) with
                userdb := fix_user_directory e w.userdb } with
            donot_print_connection_success := true }).db = w.db := rfl
      simp only [this, hdb0] at *
      rw [reread_live_idempotent]
      exact ⟨rfl, rfl, rfl⟩

/-- C4, a case: the realm `example.org` after the reload of `reload_world`. -/
theorem reload_capacity_fields_witness :
    ∃ p, find_realm (lit "example.org") reload_world_after.live.realms = some p ∧
      (∀ row ∈ reload_world.db.turn_realm_option,
        sqlite3_column_text row 0 = lit "example.org" →
        sqlite3_column_text row 1 = lit "max-bps" →
        p.max_bps = strtoul (sqlite3_column_text row 2)) ∧
      ((∀ row ∈ reload_world.db.turn_realm_option,
        sqlite3_column_text row 0 = lit "example.org" →
        sqlite3_column_text row 1 ≠ lit "max-bps") →
        p.max_bps = reload_world.live.turn_params.max_bps) ∧
      (∀ row ∈ reload_world.db.turn_realm_option,
        sqlite3_column_text row 0 = lit "example.org" →
        sqlite3_column_text row 1 = lit "total-quota" →
        p.total_quota = atoi (sqlite3_column_text row 2)) ∧
      ((∀ row ∈ reload_world.db.turn_realm_option,
        sqlite3_column_text row 0 = lit "example.org" →
        sqlite3_column_text row 1 ≠ lit "total-quota") →
        p.total_quota = reload_world.live.turn_params.total_quota) ∧
      (∀ row ∈ reload_world.db.turn_realm_option,
        sqlite3_column_text row 0 = lit "example.org" →
        sqlite3_column_text row 1 = lit "user-quota" →
        p.user_quota = atoi (sqlite3_column_text row 2)) ∧
      ((∀ row ∈ reload_world.db.turn_realm_option,
        sqlite3_column_text row 0 = lit "example.org" →
        sqlite3_column_text row 1 ≠ lit "user-quota") →
        p.user_quota = reload_world.live.turn_params.user_quota) :=
  reload_capacity_fields example_consts 1 example_env reload_world reload_world_after
    (by decide) (by decide) (by decide) (by decide) (by decide) (lit "example.org") (by decide)

/-- C5, a case: the reload of `reload_world`, run a second time. -/
theorem reload_idempotent_witness :
    ∃ w2, sqlite_reread_realms example_consts 1 example_env reload_world_after = some w2 ∧
      w2.live.realms = reload_world_after.live.realms ∧
      w2.live.realms_list = reload_world_after.live.realms_list ∧
      w2.live.o_to_realm = reload_world_after.live.o_to_realm :=
  reload_idempotent example_consts 1 example_env reload_world reload_world_after (by decide)

theorem gate_run_append (es1 es2 : List GateEvent) (s : GateSys) :
    gate_run (es1 ++ es2) s = (gate_run es1 s).bind (gate_run es2) := by
  induction es1 generalizing s with
  | nil => simp [gate_run]
  | cons e es ih =>
    simp only [List.cons_append, gate_run]
    cases gate_step s e with
    | none => simp
    | some s1 => simp [ih]

theorem nested_write_locks (t : pthread_t) (ht : t ≠ null_thread) (n : Nat) (g : Gate)
    (held : List (pthread_t × Bool)) (hw : g.write_thread = t) :
    gate_run (List.replicate n (.lock t true)) ⟨g, held⟩ =
      some ⟨{ g with write_level := g.write_level + n },
        List.replicate n (t, true) ++ held⟩ := by
  induction n generalizing g held with
  | zero => simp [gate_run]
  | succ n ih =>
    have hp : sqlite_lock_pass true t g =
        (true, { g with write_level := g.write_level + 1, write_thread := t }) := by
      simp [sqlite_lock_pass, hw]
    simp only [List.replicate_succ, gate_run, gate_step, if_neg ht, hp, if_true,
      Option.some_bind]
    rw [ih _ _ rfl]
    simp only [Option.some.injEq, GateSys.mk.injEq]
    refine ⟨?_, ?_⟩
    · cases g; simp at hw; simp [hw]; omega
    · have h1 : List.replicate n (t, true) ++ [(t, true)] = (t, true) :: List.replicate n (t, true) := by
        rw [← List.replicate_succ', List.replicate_succ]
      rw [← h1, List.append_assoc]; rfl

theorem nested_write_unlocks (t : pthread_t) (k : Nat) (g : Gate)
    (held : List (pthread_t × Bool)) (hw : g.write_thread = t) (hk : (k : Int) ≤ g.write_level)
    (hpos : 0 < g.write_level) :
    gate_run (List.replicate k (.unlock t true)) ⟨g, List.replicate k (t, true) ++ held⟩ =
      some ⟨{ g with write_level := g.write_level - k,
                     write_thread := if g.write_level - k = 0 then null_thread else t },
        held⟩ := by
  induction k generalizing g with
  | zero =>
    have h1 : g.write_level - ((0 : Nat) : Int) ≠ 0 := by simp; omega
    simp only [List.replicate_zero, gate_run, List.nil_append, if_neg h1]
    cases g; simp at hw; simp [hw]
  | succ k ih =>
    have hmem : (t, true) ∈ List.replicate (k + 1) (t, true) ++ held := by
      simp [List.replicate_succ]
    have her : (List.replicate (k + 1) (t, true) ++ held).erase (t, true) =
        List.replicate k (t, true) ++ held := by
      simp [List.replicate_succ]
    simp only [List.replicate_succ, gate_run, gate_step]
    simp only [← List.replicate_succ, if_pos hmem, her, Option.some_bind]
    by_cases hz : g.write_level - 1 = 0
    · have hk0 : k = 0 := by push_cast at hk; omega
      subst hk0
      simp only [sqlite_unlock, if_true, if_pos hz, List.replicate_zero, gate_run,
        List.nil_append, Option.some.injEq, GateSys.mk.injEq, and_true]
      have h2 : g.write_level - ((0 + 1 : Nat) : Int) = 0 := by push_cast; omega
      rw [if_pos h2]
      simp
    · have hun : (sqlite_unlock true g).1 = { g with write_level := g.write_level - 1 } := by
        simp [sqlite_unlock, hz]
      rw [hun, ih { g with write_level := g.write_level - 1 } hw
        (by dsimp only; push_cast at hk; omega) (by dsimp only; omega)]
      simp only [Option.some.injEq, GateSys.mk.injEq, and_true]
      have e1 : g.write_level - 1 - (k : Int) = g.write_level - ((k + 1 : Nat) : Int) := by
        push_cast; omega
      simp only [e1]

theorem first_write_lock (t : pthread_t) (ht : t ≠ null_thread) (n : Nat) (g : Gate)
    (held : List (pthread_t × Bool)) (hadm : (sqlite_lock_pass true t g).1 = true) :
    gate_run (List.replicate (n + 1) (.lock t true)) ⟨g, held⟩ =
      some ⟨{ g with write_level := g.write_level + (n + 1 : Nat), write_thread := t },
        List.replicate (n + 1) (t, true) ++ held⟩ := by
  have hp : (sqlite_lock_pass true t g).2 =
      { g with write_level := g.write_level + 1, write_thread := t } := by
    unfold sqlite_lock_pass at hadm ⊢
    split_ifs at hadm ⊢ <;> simp_all
  simp only [List.replicate_succ, gate_run, gate_step, if_neg ht, hadm, if_true,
    Option.some_bind, hp]
  rw [nested_write_locks t ht n _ _ rfl]
  simp only [Option.some.injEq, GateSys.mk.injEq, Gate.mk.injEq, true_and, and_true]
  refine ⟨by push_cast; omega, ?_⟩
  have h1 : List.replicate n (t, true) ++ [(t, true)] = (t, true) :: List.replicate n (t, true) := by
    rw [← List.replicate_succ', List.replicate_succ]
  rw [← h1, List.append_assoc]; rfl

/-- C11. Reentrant writer.  In a state reached from the idle gate in which thread `t`
holds the write role, `t` is `write_thread` and a further `sqlite_lock` by `t`, in read
mode and in write mode, is admitted in its first pass and returns.  And from a state
reached from the idle gate in which nobody holds the write role and a write-mode
`sqlite_lock` by the thread `t0` is admitted, `n ≥ 1` nested write acquisitions by `t0`
followed by `k ≤ n` write releases are all enabled and leave `write_level = n - k`; `t0`
is still the writer when `k < n`, and the writer identity is cleared when `k = n`. -/
theorem reentrant_writer (evs evs0 : List GateEvent) (s s0 : GateSys) (t t0 : pthread_t)
    (n k : Nat) (hrun : gate_run evs GateSys.init = some s) (hheld : (t, true) ∈ s.held)
    (hrun0 : gate_run evs0 GateSys.init = some s0) (ht0 : t0 ≠ null_thread)
    (hfree : s0.gate.write_thread = null_thread)
    (hadm : (sqlite_lock_pass true t0 s0.gate).1 = true) (hn : 1 ≤ n) (hk : k ≤ n) :
    (s.gate.write_thread = t ∧
      ∀ write, (sqlite_lock_pass write t s.gate).1 = true ∧
        ∀ fuel, sqlite_lock (fuel + 1) write t s.gate =
          some (sqlite_lock_pass write t s.gate).2) ∧
    ∃ s1, gate_run (List.replicate n (.lock t0 true) ++ List.replicate k (.unlock t0 true))
        s0 = some s1 ∧
      s1.gate.write_level = (n : Int) - k ∧
      (k < n → s1.gate.write_thread = t0) ∧ (k = n → s1.gate.write_thread = null_thread) := by
  constructor
  · obtain ⟨_, _, hnull, hwr⟩ := gateInv_run evs GateSys.init s gateInv_init hrun
    have hpos := holds_pos_of_mem t true s.held hheld
    have hwt : s.gate.write_thread ≠ null_thread := by
      intro h0; have := hnull h0; omega
    have heq : s.gate.write_thread = t := ((hwr hwt).2 (t, true) hheld).symm
    refine ⟨heq, fun write => ?_⟩
    have hp : (sqlite_lock_pass write t s.gate).1 = true := by
      cases write <;> simp [sqlite_lock_pass, heq]
    exact ⟨hp, fun fuel => sqlite_lock_admitted fuel write t s.gate hp⟩
  · obtain ⟨_, hw, hnull, _⟩ := gateInv_run evs0 GateSys.init s0 gateInv_init hrun0
    have hlev : s0.gate.write_level = 0 := by rw [hw, hnull hfree]; rfl
    obtain ⟨m, rfl⟩ : ∃ m, n = m + 1 := ⟨n - 1, by omega⟩
    have hsplit : List.replicate (m + 1) ((t0, true) : pthread_t × Bool) ++ s0.held =
        List.replicate k (t0, true) ++ (List.replicate (m + 1 - k) (t0, true) ++ s0.held) := by
      rw [← List.append_assoc, List.append_replicate_replicate]
      congr 2; omega
    rw [gate_run_append]
    have h1 := first_write_lock t0 ht0 m s0.gate s0.held hadm
    rw [show s0 = ⟨s0.gate, s0.held⟩ from rfl, h1, Option.some_bind, hsplit,
      nested_write_unlocks t0 k _ _ rfl (by dsimp only; rw [hlev]; push_cast; omega)
        (by dsimp only; rw [hlev]; push_cast; omega)]
    refine ⟨_, rfl, ?_, ?_, ?_⟩
    · dsimp only; rw [hlev]; push_cast; omega
    · intro hlt
      dsimp only
      rw [if_neg (by rw [hlev]; push_cast; omega)]
    · intro heq
      dsimp only
      rw [if_pos (by rw [hlev]; push_cast; omega)]

/-- An instance of C11: thread `1` holds write and read and is admitted again; thread `3`
takes write three times nested from a free gate and releases twice. -/
theorem reentrant_writer_witness :
    ((⟨⟨1, 1, 1⟩, [(1, false), (1, true)]⟩ : GateSys).gate.write_thread = 1 ∧
      ∀ write, (sqlite_lock_pass write 1
          (⟨⟨1, 1, 1⟩, [(1, false), (1, true)]⟩ : GateSys).gate).1 = true ∧
        ∀ fuel, sqlite_lock (fuel + 1) write 1
            (⟨⟨1, 1, 1⟩, [(1, false), (1, true)]⟩ : GateSys).gate =
          some (sqlite_lock_pass write 1
            (⟨⟨1, 1, 1⟩, [(1, false), (1, true)]⟩ : GateSys).gate).2) ∧
    ∃ s1, gate_run (List.replicate 3 (.lock 3 true) ++ List.replicate 2 (.unlock 3 true))
        GateSys.init = some s1 ∧
      s1.gate.write_level = ((3 : Nat) : Int) - (2 : Nat) ∧
      (2 < 3 → s1.gate.write_thread = 3) ∧ (2 = 3 → s1.gate.write_thread = null_thread) :=
  reentrant_writer [.lock 1 true, .lock 1 false] [.lock 2 false, .unlock 2 false]
    ⟨⟨1, 1, 1⟩, [(1, false), (1, true)]⟩ GateSys.init 1 3 3 2 (by decide) (by decide)
    (by decide) (by decide) (by decide) (by decide) (by decide) (by decide)

theorem overlapping_readers_run (n : Nat) :
    gate_run (overlapping_readers n) GateSys.init = some ⟨⟨1, 0, 0⟩, [(1, false)]⟩ := by
  induction n with
  | zero => decide
  | succ n ih =>
    rw [overlapping_readers, gate_run_append, ih]
    decide

/-- C12, as the code has it.  The gate keeps no record of a waiting writer.  In every gate
state without a writer in which the write-mode pass of a thread `tw` is not admitted, the
pass leaves the gate as it was, the reader count is at least one, a read-mode `sqlite_lock`
by any thread `tr` is admitted in its first pass and returns, and after it the write-mode
pass of `tw` is still not admitted.  And readers that overlap keep a writer waiting for as
long as they like: after any number `n` of rounds in which thread `2` asks for the write
role twice while the readers `1` and `3` take turns, thread `2` has never been admitted. -/
theorem readers_pass_waiting_writer (g : Gate) (tw tr : pthread_t)
    (hfree : g.write_thread = null_thread)
    (hblocked : (sqlite_lock_pass true tw g).1 = false) :
    (sqlite_lock_pass true tw g).2 = g ∧ 1 ≤ g.read_threads ∧
    (sqlite_lock_pass false tr g).1 = true ∧
    (∀ fuel, sqlite_lock (fuel + 1) false tr g =
      some { g with read_threads := g.read_threads + 1 }) ∧
    (sqlite_lock_pass true tw (sqlite_lock_pass false tr g).2).1 = false ∧
    ∀ n, gate_run (overlapping_readers n) GateSys.init = some ⟨⟨1, 0, 0⟩, [(1, false)]⟩ := by
  have hr : 1 ≤ g.read_threads := by
    unfold sqlite_lock_pass at hblocked
    by_cases h : g.read_threads < 1
    · simp [hfree, h] at hblocked
    · omega
  have htw : tw ≠ null_thread := by
    intro h
    unfold sqlite_lock_pass at hblocked
    simp [hfree, h] at hblocked
  have hp : sqlite_lock_pass false tr g = (true, { g with read_threads := g.read_threads + 1 }) := by
    simp [sqlite_lock_pass, hfree]
  refine ⟨(sqlite_lock_blocked 0 true tw g hblocked).1, hr, by rw [hp], ?_, ?_,
    overlapping_readers_run⟩
  · intro fuel
    rw [sqlite_lock_admitted fuel false tr g (by rw [hp]), hp]
  · rw [hp]
    unfold sqlite_lock_pass
    have h1 : ¬ (g.read_threads + 1 < 1) := by omega
    have h2 : ¬ (null_thread = tw) := fun h => htw h.symm
    simp [hfree, h1, h2]

/-- An instance of C12 as the code has it: one reader holds the gate, thread `2` waits for
the write role, thread `3` is admitted for read. -/
theorem readers_pass_waiting_writer_witness :
    (sqlite_lock_pass true 2 ⟨1, 0, 0⟩).2 = ⟨1, 0, 0⟩ ∧ (1 : Int) ≤ (⟨1, 0, 0⟩ : Gate).read_threads ∧
    (sqlite_lock_pass false 3 ⟨1, 0, 0⟩).1 = true ∧
    (∀ fuel, sqlite_lock (fuel + 1) false 3 ⟨1, 0, 0⟩ =
      some { (⟨1, 0, 0⟩ : Gate) with read_threads := (⟨1, 0, 0⟩ : Gate).read_threads + 1 }) ∧
    (sqlite_lock_pass true 2 (sqlite_lock_pass false 3 ⟨1, 0, 0⟩).2).1 = false ∧
    ∀ n, gate_run (overlapping_readers n) GateSys.init = some ⟨⟨1, 0, 0⟩, [(1, false)]⟩ :=
  readers_pass_waiting_writer ⟨1, 0, 0⟩ 2 3 (by decide) (by decide)

/-- C12 as stated fails.  Thread `1` holds the gate for read, a state reached from the
idle gate; the write-mode pass of thread `2` is not admitted, so thread `2` waits for the
reader to release; the read-mode pass of thread `3` is admitted all the same, and the
schedule of the three calls ends with both readers holding the gate and thread `2` still
outside. -/
theorem waiting_writer_counterexample :
    gate_run [.lock 1 false] GateSys.init = some ⟨⟨1, 0, 0⟩, [(1, false)]⟩ ∧
    (sqlite_lock_pass true 2 ⟨1, 0, 0⟩).1 = false ∧
    (sqlite_lock_pass false 3 ⟨1, 0, 0⟩).1 = true ∧
    gate_run [.lock 1 false, .lock 2 true, .lock 3 false] GateSys.init =
      some ⟨⟨2, 0, 0⟩, [(3, false), (1, false)]⟩ := by
  decide

/-! ### Delete, then get -/

/-- The text of the delete of a user compiles to the delete. -/
theorem parse_delete_user (usname realm : Str) (hu : QUOTE ∉ usname) (hr : QUOTE ∉ realm) :
    parse_statement (lit "delete from turnusers_lt where name=" ++ quoted usname ++
        lit " and realm=" ++ quoted realm) =
      some (.delete .turnusers_lt [(1, usname), (0, realm)]) := by
  have h := parse_statement_two (lit "delete from turnusers_lt where name=") usname
    (lit " and realm=") realm [] (by decide) hu (by decide) hr (by simp)
  simp only [List.append_nil] at h
  simp only [List.append_assoc]
  rw [h]
  simp +decide [parse2]

/-- Delete, then get, on a backend that executes the delete.  `u` and `r` hold no quote
character and the statements fit the statement buffer; `sqlite_del_user(u, r)` has
returned `0` and the backend stepped its statement without error; the backend prepares and
steps the lookups without error.  Then `sqlite_get_user_key(u, r)` returns `-1` and leaves
the key buffer as it was, and for every other `(r', u')` the lookup gives the same return
value and key as it gave before the delete. -/
theorem delete_then_get_executed (C : Consts) (t : pthread_t) (u r : Str)
    (key0 : hmackey_t) (e e' : Env) (w w1 : World)
    (hu : QUOTE ∉ u) (hr : QUOTE ∉ r)
    (hlen : (lit "delete from turnusers_lt where name=" ++ quoted u ++
        lit " and realm=" ++ quoted r).length < C.TURN_LONG_STRING_SIZE)
    (hlen1 : (lit "select hmackey from turnusers_lt where name=" ++ quoted u ++
        lit " and realm=" ++ quoted r).length < C.TURN_LONG_STRING_SIZE)
    (hstep : e.fault.step ≠ some 0)
    (hget : e'.fault = Fault.none)
    (hdel : sqlite_del_user C t u r e w = some (0, w1)) :
    (sqlite_get_user_key C t u r key0 e' w1).map (fun x => (x.1, x.2.1)) = some (-1, key0) ∧
    ∀ u' r' : Str, (u' ≠ u ∨ r' ≠ r) → QUOTE ∉ u' → QUOTE ∉ r' →
      (lit "select hmackey from turnusers_lt where name=" ++ quoted u' ++
        lit " and realm=" ++ quoted r').length < C.TURN_LONG_STRING_SIZE →
      usable_handle C t e' w →
      (sqlite_get_user_key C t u' r' key0 e' w1).map (fun x => (x.1, x.2.1)) =
        (sqlite_get_user_key C t u' r' key0 e' w).map (fun x => (x.1, x.2.1)) := by
  unfold sqlite_del_user at hdel
  cases hg : get_sqlite_connection C t e { w with donot_print_connection_success := true } with
  | mk oc w0 =>
  rw [hg] at hdel
  cases oc with
  | none => simp at hdel
  | some c =>
  simp only at hdel
  obtain ⟨hdb0, hgate0, -, -, -, hc0⟩ := get_sqlite_connection_frame C t e _ w0 c hg
  simp only at hdb0 hgate0
  obtain ⟨hadm, hcase⟩ := write_statement_returns _ _ _ _ _ _ hdel
  rcases hcase with ⟨st, hprep, -, hw1⟩ | ⟨-, hret, -⟩
  swap
  · omega
  rw [snprintf_fits _ _ hlen] at hprep
  unfold sqlite3_prepare at hprep
  split_ifs at hprep
  rw [parse_delete_user u r hu hr] at hprep
  simp only [Option.some.injEq] at hprep
  subst hprep
  have hdb : w1.db = Stmt.exec w.db (.delete .turnusers_lt [(1, u), (0, r)]) := by
    rw [hw1]; simp [World.unlock, step_write, hstep, hdb0]
  have husable1 : usable_handle C t e' w1 := by
    apply usable_handle_of_cached C t e' w1 c
    rw [hw1]; exact hc0
  have hadm1 : (sqlite_lock_pass false t w1.gate).1 = true := by
    rw [hw1]
    exact read_pass_after_bracket true t w0.gate hadm
  have husers : w1.db.turnusers_lt =
      w.db.turnusers_lt.filter (fun row => !(row_matches [(1, u), (0, r)] row)) := by
    rw [hdb]; rfl
  constructor
  · rw [get_user_key_result C t u r key0 e' w1 husable1 hadm1 hu hr hlen1 hget, husers,
      List.filter_filter]
    have h1 : w.db.turnusers_lt.filter (fun row => row_matches [(1, u), (0, r)] row &&
        !(row_matches [(1, u), (0, r)] row)) = [] := by
      rw [List.filter_eq_nil_iff]
      intro row _
      simp
    rw [h1]
    rfl
  · intro u' r' hne hu' hr' hlen' husable'
    rw [hgate0] at hadm
    rw [get_user_key_result C t u' r' key0 e' w1 husable1 hadm1 hu' hr' hlen' hget,
      get_user_key_result C t u' r' key0 e' w husable'
        (read_pass_of_write_pass t w.gate hadm) hu' hr' hlen' hget, husers,
      List.filter_filter]
    have h2 : w.db.turnusers_lt.filter (fun row => row_matches [(1, u'), (0, r')] row &&
        !(row_matches [(1, u), (0, r)] row)) =
        w.db.turnusers_lt.filter (row_matches [(1, u'), (0, r')]) := by
      apply List.filter_congr
      intro row _
      rw [row_matches_user, row_matches_user]
      by_cases h0 : sqlite3_column_text row 1 = u' <;>
        by_cases h1 : sqlite3_column_text row 0 = r'
      · subst h0 h1
        have : ¬ (sqlite3_column_text row 1 = u ∧ sqlite3_column_text row 0 = r) := by
          rintro ⟨ha, hb⟩
          rcases hne with h' | h'
          · exact h' ha
          · exact h' hb
        simp only [beq_self_eq_true, Bool.and_self, Bool.true_and, Bool.not_eq_true',
          Bool.and_eq_false_iff, beq_eq_false_iff_ne, ne_eq]
        tauto
      · simp [h0, h1]
      · simp [h0, h1]
      · simp [h0, h1]
    rw [h2]

/-- C13.  Delete then get.  When the backend executes the step of the delete (`u` and `r`
hold no quote character, the statements fit the buffer, the lookups run on a backend
without fault) and `sqlite_del_user(u, r)` has returned `0`, then
`sqlite_get_user_key(u, r)` returns `-1` and leaves the key buffer as it was, and the
lookup of every other `(r', u')` gives what it gave before the delete.  At the failing
input the store holds the key `3132` of `alice` in `example.org` and the backend prepares
the delete and fails its step: `sqlite_del_user("alice", "example.org")` returns `0`, the
row is still in the store, and the `sqlite_get_user_key("alice", "example.org")` that
follows on a backend without fault returns `0` and writes the key. -/
theorem delete_then_get (C : Consts) (t : pthread_t) (u r : Str)
    (key0 : hmackey_t) (e e' : Env) (w w1 : World) :
    (QUOTE ∉ u → QUOTE ∉ r →
      (lit "delete from turnusers_lt where name=" ++ quoted u ++
        lit " and realm=" ++ quoted r).length < C.TURN_LONG_STRING_SIZE →
      (lit "select hmackey from turnusers_lt where name=" ++ quoted u ++
        lit " and realm=" ++ quoted r).length < C.TURN_LONG_STRING_SIZE →
      e.fault.step ≠ some 0 → e'.fault = Fault.none →
      sqlite_del_user C t u r e w = some (0, w1) →
      (sqlite_get_user_key C t u r key0 e' w1).map (fun x => (x.1, x.2.1)) = some (-1, key0) ∧
      ∀ u' r' : Str, (u' ≠ u ∨ r' ≠ r) → QUOTE ∉ u' → QUOTE ∉ r' →
        (lit "select hmackey from turnusers_lt where name=" ++ quoted u' ++
          lit " and realm=" ++ quoted r').length < C.TURN_LONG_STRING_SIZE →
        usable_handle C t e' w →
        (sqlite_get_user_key C t u' r' key0 e' w1).map (fun x => (x.1, x.2.1)) =
          (sqlite_get_user_key C t u' r' key0 e' w).map (fun x => (x.1, x.2.1))) ∧
    (sqlite_del_user example_consts 1 (lit "alice") (lit "example.org") step_fault_env
        alice_world).map (fun x => (x.1, x.2.db)) = some (0, alice_world.db) ∧
    ((sqlite_del_user example_consts 1 (lit "alice") (lit "example.org") step_fault_env
        alice_world).bind (fun x =>
      sqlite_get_user_key example_consts 1 (lit "alice") (lit "example.org") [] example_env
        x.2)).map (fun x => (x.1, x.2.1)) = some (0, [51, 49, 51, 50]) := by
  refine ⟨?_, by decide, by decide⟩
  intro hu hr hlen hlen1 hstep hget hdel
  exact delete_then_get_executed C t u r key0 e e' w w1 hu hr hlen hlen1 hstep hget hdel

/-- An instance of C13 on a backend without fault: Alice's credential is deleted from the
example store with one credential; her key is not found afterwards, and the lookup of
Bob's key is as before. -/
theorem delete_then_get_witness :
    (sqlite_get_user_key example_consts 1 (lit "alice") (lit "example.org") [] example_env
        { alice_world with
          gate_calls := [.lock 1 true, .unlock 1 true]
          donot_print_connection_success := true
          db := empty_db }).map (fun x => (x.1, x.2.1)) = some (-1, []) ∧
    (sqlite_get_user_key example_consts 1 (lit "bob") (lit "example.org") [] example_env
        { alice_world with
          gate_calls := [.lock 1 true, .unlock 1 true]
          donot_print_connection_success := true
          db := empty_db }).map (fun x => (x.1, x.2.1)) =
      (sqlite_get_user_key example_consts 1 (lit "bob") (lit "example.org") [] example_env
        alice_world).map (fun x => (x.1, x.2.1)) :=
  have h := (delete_then_get example_consts 1 (lit "alice") (lit "example.org") []
    example_env example_env alice_world
    { alice_world with
      gate_calls := [.lock 1 true, .unlock 1 true]
      donot_print_connection_success := true
      db := empty_db }).1
    (by decide) (by decide) (by decide) (by decide) (by decide) (by decide) (by decide)
  ⟨h.1, h.2 (lit "bob") (lit "example.org") (by decide) (by decide) (by decide) (by decide)
    (by decide)⟩

/-! ### Realm options written through the driver -/

theorem digitChar_ne_quote (m : Nat) (hm : m < 10) : Nat.digitChar m ≠ QUOTE := by
  interval_cases m <;> decide

theorem toDigitsCore_no_quote (fuel n : Nat) (ds : List Char) (h : QUOTE ∉ ds) :
    QUOTE ∉ Nat.toDigitsCore 10 fuel n ds := by
  induction fuel generalizing n ds with
  | zero => simpa [Nat.toDigitsCore] using h
  | succ fuel ih =>
    have hd : QUOTE ∉ Nat.digitChar (n % 10) :: ds := by
      intro hm
      rcases List.mem_cons.1 hm with h1 | h1
      · exact digitChar_ne_quote _ (Nat.mod_lt _ (by decide)) h1.symm
      · exact h h1
    unfold Nat.toDigitsCore
    by_cases h0 : n / 10 = 0
    · simpa [h0] using hd
    · simp only [h0, if_false]
      exact ih _ _ hd

theorem decimal_no_quote (n : Nat) : QUOTE ∉ decimal n := by
  unfold decimal Nat.toDigits
  exact toDigitsCore_no_quote _ _ _ (by simp)

/-- The text of the upsert of a realm option compiles to the upsert. -/
theorem parse_upsert_realm_option (realm opt : Str) (value : Nat) (hr : QUOTE ∉ realm)
    (ho : QUOTE ∉ opt) :
    parse_statement
        (lit "insert or replace into turn_realm_option (realm,opt,value) values(" ++
          quoted realm ++ lit "," ++ quoted opt ++ lit "," ++ quoted (decimal value) ++
          lit ")") =
      some (.upsert .turn_realm_option [realm, opt, decimal value]) := by
  have h := parse_statement_three
    (lit "insert or replace into turn_realm_option (realm,opt,value) values(") realm
    (lit ",") opt (lit ",") (decimal value) (lit ")") (by decide) hr (by decide) ho (by decide)
    (decimal_no_quote value) (by decide)
  simp only [List.append_assoc]
  rw [h]
  simp +decide [parse3]

/-- What a returned `sqlite_set_realm_option_one` has done, for a positive value, texts
without a quote character, a statement that fits the buffer and a backend that prepares
it: the return value is `0`, and the store is the one after the upsert when the step was
executed and the one before when the step failed. -/
theorem set_realm_option_result (C : Consts) (t : pthread_t) (realm opt : Str) (value : Nat)
    (e : Env) (w w1 : World) (ret : Int) (hv : 0 < value)
    (husable : usable_handle C t e w) (hr : QUOTE ∉ realm) (ho : QUOTE ∉ opt)
    (hlen : (lit "insert or replace into turn_realm_option (realm,opt,value) values(" ++
        quoted realm ++ lit "," ++ quoted opt ++ lit "," ++ quoted (decimal value) ++
        lit ")").length < C.TURN_LONG_STRING_SIZE)
    (hprep : e.fault.prepare = false)
    (hrun : sqlite_set_realm_option_one C t realm value opt e w = some (ret, w1)) :
    ret = 0 ∧
    w1.db = (if e.fault.step = some 0 then w.db
      else Stmt.exec w.db (.upsert .turn_realm_option [realm, opt, decimal value])) := by
  unfold sqlite_set_realm_option_one at hrun
  rw [if_neg (by omega)] at hrun
  cases hg : get_sqlite_connection C t e { w with donot_print_connection_success := true } with
  | mk oc w0 =>
  rw [hg] at hrun
  cases oc with
  | none =>
    have h1 := (usable_handle_flag C t e w true).2 husable
    unfold usable_handle at h1
    rw [hg] at h1
    cases h1
  | some c =>
  simp only at hrun
  obtain ⟨hdb0, -, -, -, -, -⟩ := get_sqlite_connection_frame C t e _ w0 c hg
  simp only at hdb0
  obtain ⟨-, hcase⟩ := write_statement_returns _ _ _ _ _ _ hrun
  rw [snprintf_fits _ _ hlen] at hcase
  unfold sqlite3_prepare at hcase
  simp only [hprep, Bool.false_eq_true, if_false,
    parse_upsert_realm_option realm opt value hr ho] at hcase
  rcases hcase with ⟨st, hst, hret, hw1⟩ | ⟨hnone, -, -⟩
  · simp only [Option.some.injEq] at hst
    subst hst
    refine ⟨hret, ?_⟩
    rw [hw1]
    simp only [World.unlock, step_write, hdb0]
  · cases hnone

/-- A write operation returns once it has its handle and the gate admits the writer. -/
theorem set_realm_option_returns (C : Consts) (t : pthread_t) (realm opt : Str) (value : Nat)
    (e : Env) (w : World) (hadm : (sqlite_lock_pass true t w.gate).1 = true) :
    ∃ r, sqlite_set_realm_option_one C t realm value opt e w = some r := by
  unfold sqlite_set_realm_option_one
  by_cases hv : value ≤ 0
  · rw [if_pos hv]; exact ⟨_, rfl⟩
  · rw [if_neg hv]
    cases hg : get_sqlite_connection C t e { w with donot_print_connection_success := true } with
    | mk oc w0 =>
    cases oc with
    | none => exact ⟨_, rfl⟩
    | some c =>
      obtain ⟨-, hgate0, -, -, -, -⟩ := get_sqlite_connection_frame C t e _ w0 c hg
      simp only at hgate0
      rw [← hgate0] at hadm
      simp only [write_statement, World.lock, hadm, if_true, Option.map_some']
      exact ⟨_, rfl⟩

/-- The rows of the option table with the key of an upserted row, after the upsert: the
upserted row only; and the rows with another key: as before. -/
theorem option_rows_after_upsert (realm opt v : Str) (db : Db) :
    ((Stmt.exec db (.upsert .turn_realm_option [realm, opt, v])).turn_realm_option.filter
      (row_matches [(0, realm), (1, opt)]) = [[realm, opt, v]]) ∧
    ((Stmt.exec db (.upsert .turn_realm_option [realm, opt, v])).turn_realm_option.filter
      (fun row => !(row_matches [(0, realm), (1, opt)] row)) =
      db.turn_realm_option.filter (fun row => !(row_matches [(0, realm), (1, opt)] row))) := by
  have hex : (Stmt.exec db (.upsert .turn_realm_option [realm, opt, v])).turn_realm_option =
      db.turn_realm_option.filter (fun row => !(row_matches [(0, realm), (1, opt)] row)) ++
        [[realm, opt, v]] := by
    simp only [Stmt.exec, Db.get, Db.set]
    congr 1
  rw [hex]
  constructor
  · rw [List.filter_append, List.filter_filter]
    have h1 : db.turn_realm_option.filter (fun row => row_matches [(0, realm), (1, opt)] row &&
        !(row_matches [(0, realm), (1, opt)] row)) = [] := by
      rw [List.filter_eq_nil_iff]
      intro row _
      simp
    rw [h1]
    simp [row_matches, sqlite3_column_text]
  · rw [List.filter_append, List.filter_filter]
    have h2 : [[realm, opt, v]].filter (fun row => !(row_matches [(0, realm), (1, opt)] row)) =
        [] := by
      simp [row_matches, sqlite3_column_text]
    rw [h2, List.append_nil]
    apply List.filter_congr
    intro row _
    simp

/-- C16.  `sqlite_set_realm_option_one` takes an `unsigned long`, whose only non-positive
value is `0`: for the value `0` it returns `-1` at once and leaves the whole state as it
was, for every realm and option name.  For a positive value, when the thread has a usable
handle, the gate admits it, realm and option name hold no quote character, the statement
fits the buffer, the backend prepares it and executes its step, the operation returns `0`,
the only row of the option table with the key `(realm, opt)` holds the decimal text of the
value, and the rows with other keys are as before.  At the failing input, a backend that
prepares the statement and fails its step, the operation returns `0` as well and the
option table of the example store is still empty. -/
theorem realm_option_value_check (C : Consts) (t : pthread_t) (realm opt : Str) (e : Env)
    (w : World) :
    sqlite_set_realm_option_one C t realm 0 opt e w = some (-1, w) ∧
    (∀ value : Nat, 0 < value → usable_handle C t e w →
      (sqlite_lock_pass true t w.gate).1 = true → QUOTE ∉ realm → QUOTE ∉ opt →
      (lit "insert or replace into turn_realm_option (realm,opt,value) values(" ++
        quoted realm ++ lit "," ++ quoted opt ++ lit "," ++ quoted (decimal value) ++
        lit ")").length < C.TURN_LONG_STRING_SIZE →
      e.fault.prepare = false → e.fault.step ≠ some 0 →
      ∃ w1, sqlite_set_realm_option_one C t realm value opt e w = some (0, w1) ∧
        w1.db.turn_realm_option.filter (row_matches [(0, realm), (1, opt)]) =
          [[realm, opt, decimal value]] ∧
        w1.db.turn_realm_option.filter (fun row => !(row_matches [(0, realm), (1, opt)] row)) =
          w.db.turn_realm_option.filter
            (fun row => !(row_matches [(0, realm), (1, opt)] row))) ∧
    (sqlite_set_realm_option_one example_consts 1 (lit "example.org") 1000 (lit "max-bps")
        step_fault_env example_world).map (fun x => (x.1, x.2.db.turn_realm_option)) =
      some (0, []) := by
  refine ⟨by simp [sqlite_set_realm_option_one], ?_, by decide⟩
  intro value hv husable hadm hr ho hlen hprep hstep
  obtain ⟨⟨ret, w1⟩, hrun⟩ := set_realm_option_returns C t realm opt value e w hadm
  obtain ⟨hret, hdb⟩ :=
    set_realm_option_result C t realm opt value e w w1 ret hv husable hr ho hlen hprep hrun
  subst hret
  rw [if_neg hstep] at hdb
  refine ⟨w1, hrun, ?_, ?_⟩
  · rw [hdb]; exact (option_rows_after_upsert realm opt (decimal value) w.db).1
  · rw [hdb]; exact (option_rows_after_upsert realm opt (decimal value) w.db).2

/-- An instance of C16 in the example process: the value `0` is refused, and the value
`1000` for `max-bps` of `example.org` is stored as the text `1000`. -/
theorem realm_option_value_check_witness :
    sqlite_set_realm_option_one example_consts 1 (lit "example.org") 0 (lit "max-bps") example_env
        example_world = some (-1, example_world) ∧
    ∃ w1, sqlite_set_realm_option_one example_consts 1 (lit "example.org") 1000 (lit "max-bps")
        example_env example_world = some (0, w1) ∧
      w1.db.turn_realm_option.filter (row_matches [(0, lit "example.org"), (1, lit "max-bps")]) =
        [[lit "example.org", lit "max-bps", decimal 1000]] ∧
      w1.db.turn_realm_option.filter
          (fun row => !(row_matches [(0, lit "example.org"), (1, lit "max-bps")] row)) =
        example_world.db.turn_realm_option.filter
          (fun row => !(row_matches [(0, lit "example.org"), (1, lit "max-bps")] row)) :=
  have h := realm_option_value_check example_consts 1 (lit "example.org") (lit "max-bps")
    example_env example_world
  ⟨h.1, h.2.1 1000 (by decide) (by decide) (by decide) (by decide) (by decide) (by decide)
    (by decide) (by decide)⟩

/-- C17, as the code has it.  `sqlite_set_realm_option_one` does not look at the option
name.  For every realm, every option name and every positive value, when the thread has a
usable handle, the gate admits it, realm and option name hold no quote character, the
statement fits the buffer and the backend prepares it and executes its step, the operation
returns `0` and the store afterwards is the store after the upsert of the row
`(realm, opt, value)`, which is in the option table. -/
theorem option_name_not_checked (C : Consts) (t : pthread_t) (realm opt : Str) (value : Nat)
    (e : Env) (w : World) (hv : 0 < value) (husable : usable_handle C t e w)
    (hadm : (sqlite_lock_pass true t w.gate).1 = true) (hr : QUOTE ∉ realm) (ho : QUOTE ∉ opt)
    (hlen : (lit "insert or replace into turn_realm_option (realm,opt,value) values(" ++
        quoted realm ++ lit "," ++ quoted opt ++ lit "," ++ quoted (decimal value) ++
        lit ")").length < C.TURN_LONG_STRING_SIZE)
    (hprep : e.fault.prepare = false) (hstep : e.fault.step ≠ some 0) :
    ∃ w1, sqlite_set_realm_option_one C t realm value opt e w = some (0, w1) ∧
      w1.db = Stmt.exec w.db (.upsert .turn_realm_option [realm, opt, decimal value]) ∧
      [realm, opt, decimal value] ∈ w1.db.turn_realm_option := by
  obtain ⟨⟨ret, w1⟩, hrun⟩ := set_realm_option_returns C t realm opt value e w hadm
  obtain ⟨hret, hdb⟩ :=
    set_realm_option_result C t realm opt value e w w1 ret hv husable hr ho hlen hprep hrun
  subst hret
  rw [if_neg hstep] at hdb
  refine ⟨w1, hrun, hdb, ?_⟩
  have h1 := (option_rows_after_upsert realm opt (decimal value) w.db).1
  rw [← hdb] at h1
  have h2 : [realm, opt, decimal value] ∈
      w1.db.turn_realm_option.filter (row_matches [(0, realm), (1, opt)]) := by
    rw [h1]; simp
  exact (List.mem_filter.1 h2).1

/-- An instance of C17 as the code has it: the option `bogus` of `example.org` is stored
in the example process. -/
theorem option_name_not_checked_witness :
    ∃ w1, sqlite_set_realm_option_one example_consts 1 (lit "example.org") 5 (lit "bogus")
        example_env example_world = some (0, w1) ∧
      w1.db = Stmt.exec example_world.db
        (.upsert .turn_realm_option [lit "example.org", lit "bogus", decimal 5]) ∧
      [lit "example.org", lit "bogus", decimal 5] ∈ w1.db.turn_realm_option :=
  option_name_not_checked example_consts 1 (lit "example.org") (lit "bogus") 5 example_env
    example_world (by decide) (by decide) (by decide) (by decide) (by decide) (by decide)
    (by decide) (by decide)

/-- C17 as stated fails: in the example process, with an empty store,
`sqlite_set_realm_option_one("example.org", 5, "bogus")` returns `0`, and the option table
afterwards holds the row `(example.org, bogus, 5)`. -/
theorem unknown_option_counterexample :
    (sqlite_set_realm_option_one example_consts 1 (lit "example.org") 5 (lit "bogus")
        example_env example_world).map (fun x => (x.1, x.2.db.turn_realm_option)) =
      some (0, [[lit "example.org", lit "bogus", lit "5"]]) ∧
    example_world.db.turn_realm_option = [] := by
  decide

/-! ### Connections and the schema -/

theorem pthread_getspecific_none_iff (t : pthread_t) (w : World) :
    pthread_getspecific t w = none ↔ t ∉ w.connection_key.map Prod.fst := by
  unfold pthread_getspecific
  simp only [Option.map_eq_none', List.find?_eq_none, List.mem_map, not_exists, not_and]
  constructor
  · intro h p hp heq
    exact h p hp (by simp [heq])
  · intro h p hp heq
    exact h p hp (by simpa using heq)

/-- The invariant of the calls of `get_sqlite_connection`: no thread has two cached
handles, and the schema has been issued once for each cached handle. -/
theorem connection_step (C : Consts) (t : pthread_t) (e : Env) (w : World)
    (hnodup : (w.connection_key.map Prod.fst).Nodup)
    (hschema : w.schema_statements = (List.replicate w.connection_key.length schema).flatten) :
    ((get_sqlite_connection C t e w).2.connection_key.map Prod.fst).Nodup ∧
    (get_sqlite_connection C t e w).2.schema_statements =
      (List.replicate (get_sqlite_connection C t e w).2.connection_key.length schema).flatten ∧
    ∀ t1 c1, pthread_getspecific t1 w = some c1 →
      pthread_getspecific t1 (get_sqlite_connection C t e w).2 = some c1 := by
  unfold get_sqlite_connection
  cases hg : pthread_getspecific t w with
  | some c => exact ⟨hnodup, hschema, fun _ _ h => h⟩
  | none =>
    have hnot := (pthread_getspecific_none_iff t w).1 hg
    cases hc : e.open_conn with
    | none => exact ⟨hnodup, hschema, fun _ _ h => h⟩
    | some c =>
      by_cases hrc : e.open_rc ≠ SQLITE_OK
      · simp only [if_pos hrc]
        exact ⟨hnodup, hschema, fun _ _ h => h⟩
      · simp only [if_neg hrc]
        have hfil : w.connection_key.filter (fun p => !(p.1 == t)) = w.connection_key := by
          rw [List.filter_eq_self]
          intro p hp
          have : p.1 ≠ t := fun h => hnot (List.mem_map.2 ⟨p, hp, h⟩)
          simpa using this
        simp only [pthread_setspecific, init_sqlite_database, hfil]
        refine ⟨?_, ?_, ?_⟩
        · simp only [List.map_cons, List.nodup_cons]
          exact ⟨hnot, hnodup⟩
        · rw [hschema, List.length_cons, List.replicate_succ', List.flatten_append]
          simp
        · intro t1 c1 h1
          have hne : t ≠ t1 := by
            intro h
            subst h
            rw [hg] at h1
            cases h1
          simp only [pthread_getspecific, List.find?_cons] at h1 ⊢
          have : ((t : pthread_t) == t1) = false := by simpa using hne
          simp only [this]
          exact h1

theorem connection_calls_inv (C : Consts) (calls : List (pthread_t × Env)) (w : World)
    (hnodup : (w.connection_key.map Prod.fst).Nodup)
    (hschema : w.schema_statements = (List.replicate w.connection_key.length schema).flatten) :
    ((connection_calls C calls w).connection_key.map Prod.fst).Nodup ∧
    (connection_calls C calls w).schema_statements =
      (List.replicate (connection_calls C calls w).connection_key.length schema).flatten ∧
    ∀ t1 c1, pthread_getspecific t1 w = some c1 →
      pthread_getspecific t1 (connection_calls C calls w) = some c1 := by
  induction calls generalizing w with
  | nil => exact ⟨hnodup, hschema, fun _ _ h => h⟩
  | cons c rest ih =>
    obtain ⟨h1, h2, h3⟩ := connection_step C c.1 c.2 w hnodup hschema
    obtain ⟨h4, h5, h6⟩ := ih _ h1 h2
    exact ⟨h4, h5, fun t1 c1 h => h6 t1 c1 (h3 t1 c1 h)⟩

theorem connection_calls_append (C : Consts) (pre post : List (pthread_t × Env)) (w : World) :
    connection_calls C (pre ++ post) w = connection_calls C post (connection_calls C pre w) := by
  induction pre generalizing w with
  | nil => rfl
  | cons c rest ih => exact ih _

/-- C20, as the code has it.  Over every sequence of calls of `get_sqlite_connection` by
any threads, from the start of the process: no thread ever has two cached handles; a
handle cached at some point of the sequence is the handle of that thread at the end; a
call by a thread that has a cached handle returns that handle and changes nothing (no
open, no schema statement); a call by a thread without a cached handle that opens a
connection hands the eight schema statements to the backend once more; and so the
statements issued in total are the schema once for each thread that has opened a
handle. -/
theorem schema_issued_per_open (C : Consts) (calls : List (pthread_t × Env)) (w : World)
    (hkeys : w.connection_key = []) (hschema : w.schema_statements = []) :
    ((connection_calls C calls w).connection_key.map Prod.fst).Nodup ∧
    (∀ pre post t c, calls = pre ++ post →
      pthread_getspecific t (connection_calls C pre w) = some c →
      pthread_getspecific t (connection_calls C calls w) = some c) ∧
    (∀ t e c, pthread_getspecific t (connection_calls C calls w) = some c →
      get_sqlite_connection C t e (connection_calls C calls w) =
        (some c, connection_calls C calls w)) ∧
    (∀ t e, pthread_getspecific t (connection_calls C calls w) = none →
      (get_sqlite_connection C t e (connection_calls C calls w)).1.isSome = true →
      (get_sqlite_connection C t e (connection_calls C calls w)).2.schema_statements =
        (connection_calls C calls w).schema_statements ++ schema) ∧
    (connection_calls C calls w).schema_statements =
      (List.replicate (connection_calls C calls w).connection_key.length schema).flatten := by
  have h0 : (w.connection_key.map Prod.fst).Nodup := by rw [hkeys]; simp
  have h1 : w.schema_statements = (List.replicate w.connection_key.length schema).flatten := by
    rw [hkeys, hschema]; rfl
  obtain ⟨hn, hs, -⟩ := connection_calls_inv C calls w h0 h1
  refine ⟨hn, ?_, ?_, ?_, hs⟩
  · intro pre post t c hcalls hpre
    obtain ⟨hn1, hs1, -⟩ := connection_calls_inv C pre w h0 h1
    rw [hcalls, connection_calls_append]
    exact (connection_calls_inv C post _ hn1 hs1).2.2 t c hpre
  · intro t e c hc
    exact get_sqlite_connection_cached C t e _ c hc
  · intro t e hnone hsome
    unfold get_sqlite_connection at hsome ⊢
    rw [hnone] at hsome ⊢
    cases hc : e.open_conn with
    | none => rw [hc] at hsome; simp at hsome
    | some c =>
      rw [hc] at hsome
      by_cases hrc : e.open_rc ≠ SQLITE_OK
      · simp [if_pos hrc] at hsome
      · simp only [if_neg hrc]
        rfl

/-- An instance of C20 as the code has it: thread `1` calls twice and thread `2` once. -/
theorem schema_issued_per_open_witness :
    ((connection_calls example_consts
      [(1, example_env), (1, example_env), (2, { example_env with open_conn := some 8 })]
      start_world).connection_key.map Prod.fst).Nodup ∧
    (connection_calls example_consts
      [(1, example_env), (1, example_env), (2, { example_env with open_conn := some 8 })]
      start_world).connection_key = [(2, 8), (1, 7)] ∧
    (connection_calls example_consts
      [(1, example_env), (1, example_env), (2, { example_env with open_conn := some 8 })]
      start_world).schema_statements =
      (List.replicate (connection_calls example_consts
        [(1, example_env), (1, example_env), (2, { example_env with open_conn := some 8 })]
        start_world).connection_key.length schema).flatten :=
  have h := schema_issued_per_open example_consts
    [(1, example_env), (1, example_env), (2, { example_env with open_conn := some 8 })]
    start_world (by decide) (by decide)
  ⟨h.1, by decide, h.2.2.2.2⟩

/-- C20 as stated fails: at the start of the example process thread `1` opens its
connection and then thread `2` opens its own; the schema statements have then been handed
to the backend twice, sixteen statements in all. -/
theorem schema_once_counterexample :
    (connection_calls example_consts
      [(1, example_env), (2, { example_env with open_conn := some 8 })]
      start_world).schema_statements = schema ++ schema ∧
    (connection_calls example_consts
      [(1, example_env), (2, { example_env with open_conn := some 8 })]
      start_world).schema_statements.length = 16 ∧
    (connection_calls example_consts [(1, example_env)] start_world).schema_statements =
      schema :=
  ⟨rfl, rfl, rfl⟩

/-! ### The published origin mapping -/

theorem delivered_map (f : Fault) (g : Row → Row) (n : Nat) (rows : List Row) :
    delivered f n (rows.map g) = (delivered f n rows).map g := by
  induction rows generalizing n with
  | nil => rfl
  | cons r rs ih =>
    simp only [List.map_cons, delivered]
    split_ifs
    · rfl
    · rw [ih]; rfl

theorem delivered_prefix (f : Fault) (n : Nat) (rows : List Row) :
    delivered f n rows <+: rows := by
  induction rows generalizing n with
  | nil => exact List.prefix_refl _
  | cons r rs ih =>
    unfold delivered
    split_ifs
    · exact List.nil_prefix
    · exact (List.prefix_cons_inj r).2 (ih (n + 1))

theorem delivered_no_step_fault (f : Fault) (hf : f.step = none) (n : Nat) (rows : List Row) :
    delivered f n rows = rows := by
  induction rows generalizing n with
  | nil => rfl
  | cons r rs ih =>
    unfold delivered
    rw [ih (n + 1)]
    simp [hf]

theorem ur_string_map_put_new (m : List (Str × Str)) (k v : Str)
    (h : k ∉ m.map Prod.fst) : ur_string_map_put m k v = m ++ [(k, v)] := by
  induction m with
  | nil => rfl
  | cons p ps ih =>
    have h1 : p.1 ≠ k := fun heq => h (by simp [heq])
    have h2 : k ∉ ps.map Prod.fst := fun hm => h (by simp at hm ⊢; exact Or.inr hm)
    simp only [ur_string_map_put, if_neg h1, ih h2, List.cons_append]

/-- A mapping built from rows with distinct origins has one entry for each row. -/
theorem foldl_put_distinct (rows : List Row) (m : List (Str × Str))
    (hnodup : (m.map Prod.fst ++ rows.map (fun row => sqlite3_column_text row 0)).Nodup) :
    rows.foldl (fun m row => ur_string_map_put m (sqlite3_column_text row 0)
        (sqlite3_column_text row 1)) m =
      m ++ rows.map (fun row => (sqlite3_column_text row 0, sqlite3_column_text row 1)) := by
  induction rows generalizing m with
  | nil => simp
  | cons r rs ih =>
    rw [List.foldl_cons]
    have hk : sqlite3_column_text r 0 ∉ m.map Prod.fst := by
      intro hm
      rw [List.nodup_append] at hnodup
      exact hnodup.2.2 hm (by simp)
    rw [ur_string_map_put_new m _ _ hk, ih]
    · simp
    · simpa [List.nodup_append, List.nodup_cons, and_assoc] using hnodup

theorem parse_select_origins :
    parse_statement (lit "select origin,realm from turn_origin_to_realm") =
      some (.select .turn_origin_to_realm [0, 1] [] []) := by
  decide

/-- The origin rows that the first block gets to see, when its statement is prepared: the
rows of the table that are delivered before the stream ends, two columns each. -/
theorem origin_rows_eq (C : Consts) (f : Fault) (db : Db)
    (hsize : (lit "select origin,realm from turn_origin_to_realm").length <
      C.TURN_LONG_STRING_SIZE) (hprep : f.prepare = false) :
    sqlite3_prepare f (snprintf C.TURN_LONG_STRING_SIZE
      (lit "select origin,realm from turn_origin_to_realm")) =
      some (.select .turn_origin_to_realm [0, 1] [] []) ∧
    origin_rows C f db = (delivered f 0 db.turn_origin_to_realm).map (project [0, 1]) := by
  have hp : sqlite3_prepare f (snprintf C.TURN_LONG_STRING_SIZE
      (lit "select origin,realm from turn_origin_to_realm")) =
      some (.select .turn_origin_to_realm [0, 1] [] []) := by
    unfold sqlite3_prepare
    rw [snprintf_fits _ _ hsize, parse_select_origins]
    simp [hprep]
  refine ⟨hp, ?_⟩
  unfold origin_rows
  rw [hp]
  have hall : db.turn_origin_to_realm.filter (row_matches []) = db.turn_origin_to_realm :=
    List.filter_eq_self.2 (fun r _ => rfl)
  simp only [Stmt.rows, Db.get, if_true, hall]
  exact delivered_map f _ 0 _

/-- The mapping left published by a returned reload is the one the first block has
published or left alone. -/
theorem reread_live_o_to_realm (C : Consts) (e : Env) (db : Db) (l : Live) :
    (reread_live C e db l).o_to_realm = (reread_origins C e.fault db l).o_to_realm := by
  unfold reread_live
  rw [reread_options_eq, foldl_option_o_to_realm]
  exact (reread_defaults_result _).2.1

/-- C15, as the code has it.  Thread `t` has a usable handle, the statement fits its
buffer, the origins of the durable table are distinct (its primary key), and
`sqlite_reread_realms` has returned.  When the origin statement could not be prepared
nothing has been published: the mapping is the one published before.  When it was
prepared, the published mapping has exactly one entry `origin -> realm` for every row
that was delivered before the stream ended, in order, and nothing else; these rows are a
leading part of the table, and all of it when no step has failed. -/
theorem reload_publishes_rows_read (C : Consts) (t : pthread_t) (e : Env) (w w1 : World)
    (husable : usable_handle C t e w)
    (hsize : (lit "select origin,realm from turn_origin_to_realm").length <
      C.TURN_LONG_STRING_SIZE)
    (hpk : (w.db.turn_origin_to_realm.map (fun row => sqlite3_column_text row 0)).Nodup)
    (hrun : sqlite_reread_realms C t e w = some w1) :
    (e.fault.prepare = true → w1.live.o_to_realm = w.live.o_to_realm) ∧
    (e.fault.prepare = false →
      w1.live.o_to_realm = (delivered e.fault 0 w.db.turn_origin_to_realm).map
        (fun row => (sqlite3_column_text row 0, sqlite3_column_text row 1))) ∧
    delivered e.fault 0 w.db.turn_origin_to_realm <+: w.db.turn_origin_to_realm ∧
    (e.fault.prepare = false → e.fault.step = none →
      w1.live.o_to_realm = w.db.turn_origin_to_realm.map
        (fun row => (sqlite3_column_text row 0, sqlite3_column_text row 1))) := by
  obtain ⟨c, w0, hg⟩ := usable_handle_get C t e _ ((usable_handle_flag C t e w true).2 husable)
  obtain ⟨hdb0, -, -, hlive0, -, -⟩ := get_sqlite_connection_frame C t e _ w0 c hg
  simp only at hdb0 hlive0
  unfold sqlite_reread_realms at hrun
  rw [hg] at hrun
  simp only at hrun
  obtain ⟨hlive, -, -, -⟩ := reread_blocks_return C t e w0 w1 hrun
  rw [hdb0, hlive0] at hlive
  have hmap : w1.live.o_to_realm = (reread_origins C e.fault w.db w.live).o_to_realm := by
    rw [hlive, reread_live_o_to_realm]
  have hpre := delivered_prefix e.fault 0 w.db.turn_origin_to_realm
  have hsome : e.fault.prepare = false →
      w1.live.o_to_realm = (delivered e.fault 0 w.db.turn_origin_to_realm).map
        (fun row => (sqlite3_column_text row 0, sqlite3_column_text row 1)) := by
    intro hprep
    obtain ⟨hp, hrows⟩ := origin_rows_eq C e.fault w.db hsize hprep
    rw [hmap, reread_origins_some C e.fault w.db w.live _ hp, hrows]
    simp only [update_o_to_realm]
    have hnd : (([] : List (Str × Str)).map Prod.fst ++
        ((delivered e.fault 0 w.db.turn_origin_to_realm).map (project [0, 1])).map
          (fun row => sqlite3_column_text row 0)).Nodup := by
      simp only [List.map_nil, List.nil_append, List.map_map]
      have hsub : ((delivered e.fault 0 w.db.turn_origin_to_realm).map
          ((fun row => sqlite3_column_text row 0) ∘ project [0, 1])).Sublist
          (w.db.turn_origin_to_realm.map (fun row => sqlite3_column_text row 0)) := by
        have h1 : ((fun row => sqlite3_column_text row 0) ∘ project [0, 1]) =
            (fun row : Row => sqlite3_column_text row 0) := by
          funext row; simp [project, sqlite3_column_text]
        rw [h1]
        exact hpre.sublist.map _
      exact hsub.nodup hpk
    rw [foldl_put_distinct _ _ hnd, List.nil_append, List.map_map]
    apply List.map_congr_left
    intro row _
    simp [project, sqlite3_column_text]
  refine ⟨?_, hsome, hpre, ?_⟩
  · intro hprep
    rw [hmap, reread_origins_none]
    unfold sqlite3_prepare
    simp [hprep]
  · intro hprep hstep
    rw [hsome hprep, delivered_no_step_fault e.fault hstep]

/-- An instance of C15 as the code has it: the reload of the example process with two
origins, on a backend without fault. -/
theorem reload_publishes_rows_read_witness :
    (example_env.fault.prepare = true →
      ({ two_origins_world with
         gate_calls := [.lock 1 false, .unlock 1 false, .lock 1 false, .unlock 1 false]
         donot_print_connection_success := true } : World).live.o_to_realm =
        two_origins_world.live.o_to_realm) ∧
    (example_env.fault.prepare = false →
      ({ two_origins_world with
         gate_calls := [.lock 1 false, .unlock 1 false, .lock 1 false, .unlock 1 false]
         donot_print_connection_success := true } : World).live.o_to_realm =
        (delivered example_env.fault 0 two_origins_world.db.turn_origin_to_realm).map
          (fun row => (sqlite3_column_text row 0, sqlite3_column_text row 1))) ∧
    delivered example_env.fault 0 two_origins_world.db.turn_origin_to_realm <+:
      two_origins_world.db.turn_origin_to_realm ∧
    (example_env.fault.prepare = false → example_env.fault.step = none →
      ({ two_origins_world with
         gate_calls := [.lock 1 false, .unlock 1 false, .lock 1 false, .unlock 1 false]
         donot_print_connection_success := true } : World).live.o_to_realm =
        two_origins_world.db.turn_origin_to_realm.map
          (fun row => (sqlite3_column_text row 0, sqlite3_column_text row 1))) :=
  reload_publishes_rows_read example_consts 1 example_env two_origins_world
    { two_origins_world with
      gate_calls := [.lock 1 false, .unlock 1 false, .lock 1 false, .unlock 1 false]
      donot_print_connection_success := true }
    (by decide) (by decide) (by decide) (by decide)

/-- C15 as stated fails.  The store maps `http://a` to `north` and `http://b` to `south`,
and both entries are published.  The backend delivers the first row and fails the step
after it; `sqlite_reread_realms` then publishes the mapping with the entry of `http://a`
only, which is not a mapping with an entry for every row of the table. -/
theorem partial_mapping_counterexample :
    (sqlite_reread_realms example_consts 1 second_step_fault_env two_origins_world).map
        (fun w => w.live.o_to_realm) = some [(lit "http://a", lit "north")] ∧
    two_origins_world.db.turn_origin_to_realm =
      [[lit "http://a", lit "north"], [lit "http://b", lit "south"]] ∧
    two_origins_world.live.o_to_realm =
      [(lit "http://a", lit "north"), (lit "http://b", lit "south")] := by
  decide

/-! ### Unrecognised option names -/

theorem assign_option_unrecognised (row : Row) (p : perf_options_t)
    (h : recognised_option row = false) : assign_option row p = p := by
  unfold recognised_option at h
  simp only [Bool.or_eq_false_iff, beq_eq_false_iff_ne, ne_eq] at h
  unfold assign_option
  rw [if_neg h.1.1, if_neg h.1.2, if_neg h.2]

theorem foldl_apply_option_filter (n : Str) (R : List Row) (p : perf_options_t) :
    (R.filter recognised_option).foldl (apply_option n) p = R.foldl (apply_option n) p := by
  induction R generalizing p with
  | nil => rfl
  | cons row R ih =>
    by_cases h : recognised_option row = true
    · rw [List.filter_cons_of_pos h, List.foldl_cons, List.foldl_cons, ih]
    · have h' : recognised_option row = false := by simpa using h
      rw [List.filter_cons_of_neg h, List.foldl_cons, ih]
      congr 1
      unfold apply_option
      split_ifs
      · exact (assign_option_unrecognised row p h').symm
      · rfl

theorem foldl_apply_option_other (n : Str) (R : List Row) (p : perf_options_t)
    (h : ∀ row ∈ R, sqlite3_column_text row 0 ≠ n) : R.foldl (apply_option n) p = p := by
  induction R generalizing p with
  | nil => rfl
  | cons row R ih =>
    rw [List.foldl_cons, ih _ (fun r hr => h r (List.mem_cons_of_mem _ hr))]
    unfold apply_option
    rw [if_neg (h row (by simp))]

/-- The realm table after the third block has seen the rows `R`, in one formula. -/
theorem find_realm_foldl_option_eq (n : Str) (R : List Row) (l : Live) :
    find_realm n (R.foldl reread_option_body l).realms =
      if (find_realm n l.realms).isSome ∨ ∃ row ∈ R, sqlite3_column_text row 0 = n then
        some (R.foldl (apply_option n) ((find_realm n l.realms).getD l.turn_params))
      else none := by
  by_cases h : (find_realm n l.realms).isSome ∨ ∃ row ∈ R, sqlite3_column_text row 0 = n
  · rw [if_pos h, find_realm_foldl_option n R l h]
  · rw [if_neg h]
    push_neg at h
    apply find_realm_foldl_option_none n R l
    · cases hf : find_realm n l.realms with
      | none => rfl
      | some p => rw [hf] at h; exact absurd rfl h.1
    · exact h.2

/-- The third block with and without the rows of unrecognised option names: every realm
that is live without them is live with them and has the same fields, and a realm that is
live with them has the fields it has, or would be given on first reference, without
them. -/
theorem foldl_option_filter (R : List Row) (l : Live) (n : Str) (p : perf_options_t) :
    (find_realm n ((R.filter recognised_option).foldl reread_option_body l).realms = some p →
      find_realm n (R.foldl reread_option_body l).realms = some p) ∧
    (find_realm n (R.foldl reread_option_body l).realms = some p →
      (find_realm n ((R.filter recognised_option).foldl reread_option_body l).realms).getD
        l.turn_params = p) := by
  rw [find_realm_foldl_option_eq n R l, find_realm_foldl_option_eq n _ l,
    foldl_apply_option_filter]
  constructor
  · intro h
    split_ifs at h with hc
    have hc' : (find_realm n l.realms).isSome ∨ ∃ row ∈ R, sqlite3_column_text row 0 = n := by
      rcases hc with hc | ⟨row, hrow, hn⟩
      · exact Or.inl hc
      · exact Or.inr ⟨row, (List.mem_filter.1 hrow).1, hn⟩
    rw [if_pos hc']
    exact h
  · intro h
    split_ifs at h with hc
    simp only [Option.some.injEq] at h
    by_cases hc' : (find_realm n l.realms).isSome ∨
        ∃ row ∈ R.filter recognised_option, sqlite3_column_text row 0 = n
    · rw [if_pos hc']
      exact h
    · rw [if_neg hc']
      push_neg at hc'
      have hnone : find_realm n l.realms = none := by
        cases hf : find_realm n l.realms with
        | none => rfl
        | some q => rw [hf] at hc'; exact absurd rfl hc'.1
      rw [hnone, ← foldl_apply_option_filter, foldl_apply_option_other n _ _ hc'.2] at h
      simpa using h

theorem reread_origins_turn_params (C : Consts) (f : Fault) (db : Db) (l : Live) :
    (reread_origins C f db l).turn_params = l.turn_params := by
  unfold reread_origins
  cases sqlite3_prepare f (snprintf C.TURN_LONG_STRING_SIZE
    (lit "select origin,realm from turn_origin_to_realm")) with
  | none => rfl
  | some st =>
    simp only [update_o_to_realm]
    rw [step_loop_delivered, foldl_origin_body]
    simp only
    generalize delivered f 0 (st.rows db) = rows
    induction rows generalizing l with
    | nil => rfl
    | cons r rs ih => rw [List.foldl_cons, ih, get_realm_turn_params]

/-- The first block does not look at the option table. -/
theorem reread_origins_option_table (C : Consts) (f : Fault) (db : Db) (l : Live)
    (rows : List Row)
    (hsize : (lit "select origin,realm from turn_origin_to_realm").length <
      C.TURN_LONG_STRING_SIZE) :
    reread_origins C f { db with turn_realm_option := rows } l = reread_origins C f db l := by
  by_cases hprep : f.prepare = true
  · have hp : sqlite3_prepare f (snprintf C.TURN_LONG_STRING_SIZE
        (lit "select origin,realm from turn_origin_to_realm")) = none := by
      unfold sqlite3_prepare; simp [hprep]
    rw [reread_origins_none _ _ _ _ hp, reread_origins_none _ _ _ _ hp]
  · have hprep' : f.prepare = false := by simpa using hprep
    obtain ⟨hp, h1⟩ := origin_rows_eq C f db hsize hprep'
    obtain ⟨-, h2⟩ := origin_rows_eq C f { db with turn_realm_option := rows } hsize hprep'
    rw [reread_origins_some _ _ _ _ _ hp, reread_origins_some _ _ _ _ _ hp, h1, h2]

/-- The option rows that the third block gets to see, when no step fails. -/
theorem option_rows_eq (C : Consts) (f : Fault) (db : Db)
    (hsize : (lit "select realm,opt,value from turn_realm_option").length <
      C.TURN_LONG_STRING_SIZE) (hstep : f.step = none) :
    option_rows C f db =
      if f.prepare = true then [] else db.turn_realm_option.map (project [0, 1, 2]) := by
  unfold option_rows sqlite3_prepare
  by_cases hprep : f.prepare = true
  · simp [hprep]
  · rw [if_neg hprep, if_neg hprep, snprintf_fits _ _ hsize, parse_select_realm_options]
    simp only
    rw [delivered_no_step_fault f hstep]
    have hall : db.turn_realm_option.filter (row_matches []) = db.turn_realm_option :=
      List.filter_eq_self.2 (fun r _ => rfl)
    simp [Stmt.rows, Db.get, hall]

/-- The three blocks of the reload with and without the rows of unrecognised option
names. -/
theorem reread_live_filter (C : Consts) (e : Env) (db : Db) (l : Live) (n : Str)
    (p : perf_options_t)
    (hsize1 : (lit "select origin,realm from turn_origin_to_realm").length <
      C.TURN_LONG_STRING_SIZE)
    (hsize2 : (lit "select realm,opt,value from turn_realm_option").length <
      C.TURN_LONG_STRING_SIZE)
    (hstep : e.fault2.step = none) :
    (find_realm n (reread_live C e
        { db with turn_realm_option := db.turn_realm_option.filter recognised_option }
        l).realms = some p →
      find_realm n (reread_live C e db l).realms = some p) ∧
    (find_realm n (reread_live C e db l).realms = some p →
      (find_realm n (reread_live C e
        { db with turn_realm_option := db.turn_realm_option.filter recognised_option }
        l).realms).getD l.turn_params = p) := by
  unfold reread_live
  rw [reread_origins_option_table C e.fault db l _ hsize1, reread_options_eq, reread_options_eq,
    option_rows_eq C e.fault2 db hsize2 hstep, option_rows_eq C e.fault2 _ hsize2 hstep]
  have htp : (reread_defaults (reread_origins C e.fault db l)).turn_params = l.turn_params := by
    rw [(reread_defaults_result _).1, reread_origins_turn_params]
  by_cases hprep : e.fault2.prepare = true
  · simp only [if_pos hprep, List.foldl_nil]
    exact ⟨fun h => h, fun h => by rw [h]; rfl⟩
  · simp only [if_neg hprep]
    have hfil : (db.turn_realm_option.filter recognised_option).map (project [0, 1, 2]) =
        (db.turn_realm_option.map (project [0, 1, 2])).filter recognised_option := by
      rw [List.filter_map]
      rfl
    rw [hfil, ← htp]
    exact foldl_option_filter _ _ n p

/-- C14. Unrecognised realm options are skipped during reload.  Both statements of the
reload fit their buffer and no step of the option statement fails.  When
`sqlite_reread_realms` has returned from a state `w`, it also returns from the state
whose option table has lost every row with an option name other than `max-bps`,
`total-quota` and `user-quota`; every realm that is live after the reload without these
rows is live after the reload with them and has the same three capacity fields; and every
realm that is live after the reload with them has the capacity fields it has after the
reload without them, where a realm that is not live then (one named by unrecognised rows
only) counts with the defaults of `turn_params`, which it is given on first reference. -/
theorem unknown_options_skipped (C : Consts) (t : pthread_t) (e : Env) (w w1 : World)
    (hsize1 : (lit "select origin,realm from turn_origin_to_realm").length <
      C.TURN_LONG_STRING_SIZE)
    (hsize2 : (lit "select realm,opt,value from turn_realm_option").length <
      C.TURN_LONG_STRING_SIZE)
    (hstep : e.fault2.step = none)
    (hrun : sqlite_reread_realms C t e w = some w1) :
    ∃ w2, sqlite_reread_realms C t e (without_unrecognised w) = some w2 ∧
      ∀ n p,
        (find_realm n w2.live.realms = some p → find_realm n w1.live.realms = some p) ∧
        (find_realm n w1.live.realms = some p →
          (find_realm n w2.live.realms).getD w.live.turn_params = p) := by
  by_cases hu : usable_handle C t e w
  · have hu' : usable_handle C t e (without_unrecognised w) := by
      rw [usable_handle_iff] at hu ⊢
      exact hu
    obtain ⟨c, w0, hg⟩ :=
      usable_handle_get C t e _ ((usable_handle_flag C t e w true).2 hu)
    obtain ⟨c', w0', hg'⟩ :=
      usable_handle_get C t e _ ((usable_handle_flag C t e _ true).2 hu')
    obtain ⟨hdb0, hgate0, -, hlive0, -, -⟩ := get_sqlite_connection_frame C t e _ w0 c hg
    obtain ⟨hdb0', hgate0', -, hlive0', -, -⟩ := get_sqlite_connection_frame C t e _ w0' c' hg'
    simp only at hdb0 hgate0 hlive0 hdb0' hgate0' hlive0'
    unfold sqlite_reread_realms at hrun ⊢
    rw [hg] at hrun
    rw [hg']
    simp only at hrun ⊢
    have hadm : (sqlite_lock_pass false t w0.gate).1 = true := by
      by_contra hadm
      simp [World.lock, hadm] at hrun
    have hadm' : (sqlite_lock_pass false t w0'.gate).1 = true := by
      rw [hgate0']
      rw [hgate0] at hadm
      exact hadm
    obtain ⟨w2, hrun2⟩ := reread_blocks_run C t e w0' hadm'
    obtain ⟨hlive, -, -, -⟩ := reread_blocks_return C t e w0 w1 hrun
    obtain ⟨hlive2, -, -, -⟩ := reread_blocks_return C t e w0' w2 hrun2
    rw [hdb0, hlive0] at hlive
    rw [hdb0', hlive0'] at hlive2
    refine ⟨w2, hrun2, fun n p => ?_⟩
    rw [hlive, hlive2]
    exact reread_live_filter C e w.db w.live n p hsize1 hsize2 hstep
  · rw [usable_handle_iff] at hu
    push_neg at hu
    obtain ⟨hno, hopen⟩ := hu
    have hno' : pthread_getspecific t w = none := by
      cases h : pthread_getspecific t w with
      | none => rfl
      | some c => rw [h] at hno; exact absurd rfl hno
    have hopen' : e.open_conn = none ∨ e.open_rc ≠ SQLITE_OK := by
      cases h : e.open_conn with
      | none => exact Or.inl rfl
      | some c => exact Or.inr (hopen (by rw [h]; rfl))
    obtain ⟨w1', hrun1, hlive1⟩ := reread_no_handle C t e w hno' hopen'
    obtain ⟨w2, hrun2, hlive2⟩ := reread_no_handle C t e (without_unrecognised w) hno' hopen'
    rw [hrun] at hrun1
    simp only [Option.some.injEq] at hrun1
    subst hrun1
    refine ⟨w2, hrun2, fun n p => ?_⟩
    rw [hlive1, hlive2]
    exact ⟨fun h => h, fun h => by rw [show (without_unrecognised w).live = w.live from rfl, h]; rfl⟩

/-- The scenario of C14: with the rows `(example.org, max-bps, 1000)` and
`(example.org, bogus, 5)` in the store the reload leaves `example.org` with the bandwidth
cap `1000` and the other two fields at their defaults, as does the reload without the
second row. -/
theorem unknown_options_skipped_witness :
    (sqlite_reread_realms example_consts 1 example_env bogus_option_world).map
        (fun w => w.live.realms) = some [(lit "example.org", ⟨1000, 0, 0⟩)] ∧
    ∃ w2, sqlite_reread_realms example_consts 1 example_env
        (without_unrecognised bogus_option_world) = some w2 ∧
      ∀ n p,
        (find_realm n w2.live.realms = some p →
          find_realm n
            ({ bogus_option_world with
               gate_calls := [.lock 1 false, .unlock 1 false, .lock 1 false, .unlock 1 false]
               donot_print_connection_success := true
               live := ⟨⟨0, 0, 0⟩, [(lit "example.org", ⟨1000, 0, 0⟩)], [lit "example.org"], []⟩ }
              : World).live.realms = some p) ∧
        (find_realm n
            ({ bogus_option_world with
               gate_calls := [.lock 1 false, .unlock 1 false, .lock 1 false, .unlock 1 false]
               donot_print_connection_success := true
               live := ⟨⟨0, 0, 0⟩, [(lit "example.org", ⟨1000, 0, 0⟩)], [lit "example.org"], []⟩ }
              : World).live.realms = some p →
          (find_realm n w2.live.realms).getD bogus_option_world.live.turn_params = p) :=
  ⟨by decide,
   unknown_options_skipped example_consts 1 example_env bogus_option_world
    { bogus_option_world with
      gate_calls := [.lock 1 false, .unlock 1 false, .lock 1 false, .unlock 1 false]
      donot_print_connection_success := true
      live := ⟨⟨0, 0, 0⟩, [(lit "example.org", ⟨1000, 0, 0⟩)], [lit "example.org"], []⟩ }
    (by decide) (by decide) (by decide) (by decide)⟩

/-! ### The order of a result -/

theorem char_toNat_inj (a b : Char) (h : a.toNat = b.toNat) : a = b := by
  rw [← Char.ofNat_toNat a, ← Char.ofNat_toNat b, h]

theorem str_lt_irrefl (a : Str) : str_lt a a = false := by
  induction a with
  | nil => rfl
  | cons c cs ih => simp [str_lt, ih]

theorem str_lt_total (a b : Str) : str_lt a b = true ∨ a = b ∨ str_lt b a = true := by
  induction a generalizing b with
  | nil =>
    cases b with
    | nil => exact Or.inr (Or.inl rfl)
    | cons d ds => exact Or.inl rfl
  | cons c cs ih =>
    cases b with
    | nil => exact Or.inr (Or.inr rfl)
    | cons d ds =>
      simp only [str_lt, Bool.or_eq_true, decide_eq_true_eq, Bool.and_eq_true, beq_iff_eq,
        List.cons.injEq]
      rcases Nat.lt_trichotomy c.toNat d.toNat with h | h | h
      · exact Or.inl (Or.inl h)
      · have hcd := char_toNat_inj c d h
        rcases ih ds with h1 | h1 | h1
        · exact Or.inl (Or.inr ⟨hcd, h1⟩)
        · exact Or.inr (Or.inl ⟨hcd, h1⟩)
        · exact Or.inr (Or.inr (Or.inr ⟨hcd.symm, h1⟩))
      · exact Or.inr (Or.inr (Or.inl h))

theorem str_lt_trans (a b c : Str) (h1 : str_lt a b = true) (h2 : str_lt b c = true) :
    str_lt a c = true := by
  induction a generalizing b c with
  | nil =>
    cases b with
    | nil => simp [str_lt] at h1
    | cons y ys =>
      cases c with
      | nil => simp [str_lt] at h2
      | cons z zs => rfl
  | cons x xs ih =>
    cases b with
    | nil => simp [str_lt] at h1
    | cons y ys =>
      cases c with
      | nil => simp [str_lt] at h2
      | cons z zs =>
        simp only [str_lt, Bool.or_eq_true, decide_eq_true_eq, Bool.and_eq_true,
          beq_iff_eq] at h1 h2 ⊢
        rcases h1 with h1 | ⟨h1, h1'⟩
        · rcases h2 with h2 | ⟨h2, -⟩
          · exact Or.inl (by omega)
          · subst h2; exact Or.inl h1
        · subst h1
          rcases h2 with h2 | ⟨h2, h2'⟩
          · exact Or.inl h2
          · exact Or.inr ⟨h2, ih ys zs h1' h2'⟩

theorem key_le_total (a b : List Str) : key_le a b = true ∨ key_le b a = true := by
  induction a generalizing b with
  | nil => exact Or.inl (by cases b <;> rfl)
  | cons x xs ih =>
    cases b with
    | nil => exact Or.inr rfl
    | cons y ys =>
      simp only [key_le, Bool.or_eq_true, Bool.and_eq_true, beq_iff_eq]
      rcases str_lt_total x y with h | h | h
      · exact Or.inl (Or.inl h)
      · rcases ih ys with h1 | h1
        · exact Or.inl (Or.inr ⟨h, h1⟩)
        · exact Or.inr (Or.inr ⟨h.symm, h1⟩)
      · exact Or.inr (Or.inl h)

theorem key_le_trans (a b c : List Str) (h1 : key_le a b = true) (h2 : key_le b c = true) :
    key_le a c = true := by
  induction a generalizing b c with
  | nil => cases c <;> rfl
  | cons x xs ih =>
    cases b with
    | nil => simp [key_le] at h1
    | cons y ys =>
      cases c with
      | nil => simp [key_le] at h2
      | cons z zs =>
        simp only [key_le, Bool.or_eq_true, Bool.and_eq_true, beq_iff_eq] at h1 h2 ⊢
        rcases h1 with h1 | ⟨h1, h1'⟩
        · rcases h2 with h2 | ⟨h2, -⟩
          · exact Or.inl (str_lt_trans x y z h1 h2)
          · subst h2; exact Or.inl h1
        · subst h1
          rcases h2 with h2 | ⟨h2, h2'⟩
          · exact Or.inl h2
          · exact Or.inr ⟨h2, ih ys zs h1' h2'⟩

theorem mem_insert_by (order : List Nat) (r x : Row) (xs : List Row) :
    x ∈ insert_by order r xs ↔ x = r ∨ x ∈ xs := by
  induction xs with
  | nil => simp [insert_by]
  | cons y ys ih =>
    unfold insert_by
    split_ifs
    · simp only [List.mem_cons, ih]; tauto
    · simp only [List.mem_cons]

theorem insert_by_sorted (order : List Nat) (r : Row) (xs : List Row)
    (h : xs.Pairwise (fun x y => key_le (project order x) (project order y) = true)) :
    (insert_by order r xs).Pairwise
      (fun x y => key_le (project order x) (project order y) = true) := by
  induction xs with
  | nil => simp [insert_by]
  | cons y ys ih =>
    rw [List.pairwise_cons] at h
    unfold insert_by
    split_ifs with hle
    · rw [List.pairwise_cons]
      refine ⟨?_, ih h.2⟩
      intro z hz
      rcases (mem_insert_by order r z ys).1 hz with hz | hz
      · subst hz; exact hle
      · exact h.1 z hz
    · have hry : key_le (project order r) (project order y) = true := by
        rcases key_le_total (project order r) (project order y) with h1 | h1
        · exact h1
        · exact absurd h1 hle
      rw [List.pairwise_cons]
      refine ⟨?_, List.pairwise_cons.2 h⟩
      intro z hz
      rcases List.mem_cons.1 hz with hz | hz
      · subst hz; exact hry
      · exact key_le_trans _ _ _ hry (h.1 z hz)

/-- The rows of an `order by` come out in ascending order of the key columns. -/
theorem sort_rows_sorted (order : List Nat) (rows : List Row) :
    (sort_rows order rows).Pairwise
      (fun x y => key_le (project order x) (project order y) = true) := by
  induction rows with
  | nil => exact List.Pairwise.nil
  | cons r rs ih => exact insert_by_sorted order r _ ih

theorem insert_by_perm (order : List Nat) (r : Row) (xs : List Row) :
    (insert_by order r xs).Perm (r :: xs) := by
  induction xs with
  | nil => exact List.Perm.refl _
  | cons y ys ih =>
    unfold insert_by
    split_ifs
    · exact ((List.Perm.cons y ih).trans (List.Perm.swap r y ys))
    · exact List.Perm.refl _

/-- The rows of an `order by` are the rows found, rearranged. -/
theorem sort_rows_perm (order : List Nat) (rows : List Row) :
    (sort_rows order rows).Perm rows := by
  induction rows with
  | nil => exact List.Perm.refl _
  | cons r rs ih => exact (insert_by_perm order r _).trans (List.Perm.cons r ih)

/-! ### Listings -/

/-- The loop of a listing over the rows it is handed. -/
theorem foldl_list_body (realm : Option Str) (sep fin : Str) (rows : List Row)
    (keys realms : Option secrets_list_t) (out : List Str) :
    rows.foldl (list_body realm sep fin) ⟨keys, realms, out⟩ =
      ⟨keys.map (fun ks => ks ++ listed_keys rows),
       if keys.isSome then realms.map (fun rs => rs ++ listed_realms realm rows) else realms,
       if keys.isSome then out else out ++ printed_lines sep fin rows⟩ := by
  induction rows generalizing keys realms out with
  | nil =>
    cases keys <;> cases realms <;> simp [listed_keys, listed_realms, printed_lines]
  | cons row rows ih =>
    rw [List.foldl_cons]
    cases keys with
    | none =>
      simp only [list_body]
      rw [ih]
      simp [printed_lines]
    | some ks =>
      cases realms with
      | none =>
        simp only [list_body]
        rw [ih]
        simp [listed_keys, add_to_secrets_list]
      | some rs =>
        simp only [list_body]
        by_cases hr : sqlite3_column_text row 1 ≠ []
        · rw [if_pos hr, ih]
          simp [listed_keys, listed_realms, add_to_secrets_list, hr]
        · rw [if_neg hr, ih]
          have hr' : sqlite3_column_text row 1 = [] := not_not.mp hr
          cases realm <;>
            simp [listed_keys, listed_realms, add_to_secrets_list, List.filterMap_cons, hr']

/-- A listing whose statement is prepared, on a backend without fault, by a thread that
the gate admits for reading. -/
theorem list_statement_result (t : pthread_t) (text : Str) (realm : Option Str)
    (sep fin : Str) (keys realms : Option secrets_list_t) (w : World) (st : Stmt)
    (hparse : parse_statement text = some st)
    (hadm : (sqlite_lock_pass false t w.gate).1 = true) :
    ∃ w1, list_statement t Fault.none text realm sep fin keys realms w =
        some (0, keys.map (fun ks => ks ++ listed_keys (st.rows w.db)),
          (if keys.isSome then realms.map (fun rs => rs ++ listed_realms realm (st.rows w.db))
            else realms), w1) ∧
      w1.stdout = (if keys.isSome then w.stdout
        else w.stdout ++ printed_lines sep fin (st.rows w.db)) ∧
      w1.db = w.db ∧ w1.connection_key = w.connection_key ∧
      (sqlite_lock_pass false t w1.gate).1 = true := by
  have hload : ((step_loop Fault.none (list_body realm sep fin) 0 (st.rows w.db)
      ⟨keys, realms, w.stdout⟩).2 = false) := by
    generalize st.rows w.db = rows
    generalize (⟨keys, realms, w.stdout⟩ : listing) = acc
    generalize 0 = n
    induction rows generalizing acc n with
    | nil => simp [step_loop, Fault.none]
    | cons r rs ih =>
      unfold step_loop
      simp only [Fault.none, reduceCtorEq, if_false]
      exact ih _ _
  have hacc := step_loop_delivered Fault.none (list_body realm sep fin) 0 (st.rows w.db)
    ⟨keys, realms, w.stdout⟩
  rw [delivered_no_fault, foldl_list_body] at hacc
  unfold list_statement read_statement
  simp only [World.lock, hadm, if_true, Option.map_some', sqlite3_prepare, Fault.none,
    Bool.false_eq_true, if_false, hparse]
  simp only [Fault.none] at hload hacc
  simp only [hload, hacc, Bool.false_eq_true, if_false]
  refine ⟨_, rfl, rfl, rfl, rfl, ?_⟩
  exact read_pass_after_bracket false t w.gate hadm

theorem parse_list_filtered (c0 c1 r : Str) (st : Stmt) (h0 : QUOTE ∉ c0) (h1 : QUOTE ∉ c1)
    (hr : QUOTE ∉ r) (hp : parse1 c0 r c1 = some st) :
    parse_statement (c0 ++ quoted r ++ c1) = some st := by
  rw [List.append_assoc, parse_statement_one c0 r c1 h0 hr h1, hp]

/-- The text of each listing operation compiles to its statement. -/
theorem list_text_prepared (C : Consts) (op : ListOp) (realm : Option Str)
    (hq : QUOTE ∉ realm_text realm)
    (hlen : (realm_text realm).length + 76 < C.TURN_LONG_STRING_SIZE) :
    (op = .users →
      parse_statement (if has_filter realm then
        snprintf C.TURN_LONG_STRING_SIZE
          (lit "select name,realm from turnusers_lt where realm=" ++ quoted (realm_text realm) ++
            lit " order by name")
      else
        snprintf C.TURN_LONG_STRING_SIZE
          (lit "select name,realm from turnusers_lt order by realm,name")) =
        some (op.stmt realm)) ∧
    (op = .secrets →
      parse_statement (if has_filter realm then
        snprintf C.TURN_LONG_STRING_SIZE
          (lit "select value,realm from turn_secret where realm=" ++ quoted (realm_text realm) ++
            lit " order by value")
      else
        snprintf C.TURN_LONG_STRING_SIZE
          (lit "select value,realm from turn_secret order by realm,value")) =
        some (op.stmt realm)) ∧
    (op = .origins →
      parse_statement (if has_filter realm then
        snprintf C.TURN_LONG_STRING_SIZE
          (lit "select origin,realm from turn_origin_to_realm where realm=" ++
            quoted (realm_text realm) ++ lit " order by origin")
      else
        snprintf C.TURN_LONG_STRING_SIZE
          (lit "select origin,realm from turn_origin_to_realm order by realm,origin")) =
        some (op.stmt realm)) := by
  have e1 : "select name,realm from turnusers_lt where realm=".toList.length = 48 := by decide
  have e2 : " order by name".toList.length = 14 := by decide
  have e3 : "select name,realm from turnusers_lt order by realm,name".toList.length = 55 := by
    decide
  have e4 : "select value,realm from turn_secret where realm=".toList.length = 48 := by decide
  have e5 : " order by value".toList.length = 15 := by decide
  have e6 : "select value,realm from turn_secret order by realm,value".toList.length = 56 := by
    decide
  have e7 : "select origin,realm from turn_origin_to_realm where realm=".toList.length = 58 := by
    decide
  have e8 : " order by origin".toList.length = 16 := by decide
  have e9 : "select origin,realm from turn_origin_to_realm order by realm,origin".toList.length
      = 67 := by decide
  refine ⟨?_, ?_, ?_⟩
  · intro hop
    subst hop
    by_cases hfil : has_filter realm = true
    · rw [if_pos hfil, snprintf_fits _ _ (by
        simp only [List.length_append, quoted, List.length_cons, List.length_nil, lit, e1, e2]; omega)]
      apply parse_list_filtered _ _ _ _ (by decide) (by decide) hq
      simp +decide [parse1, ListOp.stmt, hfil]
    · rw [if_neg hfil, snprintf_fits _ _ (by simp only [lit, e3]; omega)]
      simp only [ListOp.stmt, if_neg hfil]
      decide
  · intro hop
    subst hop
    by_cases hfil : has_filter realm = true
    · rw [if_pos hfil, snprintf_fits _ _ (by
        simp only [List.length_append, quoted, List.length_cons, List.length_nil, lit, e4, e5]; omega)]
      apply parse_list_filtered _ _ _ _ (by decide) (by decide) hq
      simp +decide [parse1, ListOp.stmt, hfil]
    · rw [if_neg hfil, snprintf_fits _ _ (by simp only [lit, e6]; omega)]
      simp only [ListOp.stmt, if_neg hfil]
      decide
  · intro hop
    subst hop
    by_cases hfil : has_filter realm = true
    · rw [if_pos hfil, snprintf_fits _ _ (by
        simp only [List.length_append, quoted, List.length_cons, List.length_nil, lit, e7, e8]; omega)]
      apply parse_list_filtered _ _ _ _ (by decide) (by decide) hq
      simp +decide [parse1, ListOp.stmt, hfil]
    · rw [if_neg hfil, snprintf_fits _ _ (by simp only [lit, e9]; omega)]
      simp only [ListOp.stmt, if_neg hfil]
      decide

/-- What a listing operation returns and leaves behind, for a thread with a usable handle
that the gate admits for reading, on a backend without fault, when the filter holds no
quote character and the statement fits the buffer. -/
theorem list_op_result (C : Consts) (t : pthread_t) (op : ListOp) (realm : Option Str)
    (keys realms : Option secrets_list_t) (e : Env) (w : World)
    (husable : usable_handle C t e w)
    (hadm : (sqlite_lock_pass false t w.gate).1 = true)
    (hf : e.fault = Fault.none) (hq : QUOTE ∉ realm_text realm)
    (hlen : (realm_text realm).length + 76 < C.TURN_LONG_STRING_SIZE) :
    ∃ w1, op.run C t realm keys realms e w =
        some (0, keys.map (fun ks => ks ++ listed_keys ((op.stmt realm).rows w.db)),
          (if keys.isSome then
            realms.map (fun rs => rs ++ listed_realms realm ((op.stmt realm).rows w.db))
            else realms), w1) ∧
      w1.stdout = (if keys.isSome then w.stdout
        else w.stdout ++ printed_lines op.sep op.fin ((op.stmt realm).rows w.db)) ∧
      w1.db = w.db ∧ usable_handle C t e w1 ∧
      (sqlite_lock_pass false t w1.gate).1 = true := by
  obtain ⟨c, w0, hg⟩ := usable_handle_get C t e _ ((usable_handle_flag C t e w true).2 husable)
  obtain ⟨hdb0, hgate0, -, -, hout0, hc0⟩ := get_sqlite_connection_frame C t e _ w0 c hg
  simp only at hdb0 hgate0 hout0
  rw [← hgate0] at hadm
  obtain ⟨hu, hs, ho⟩ := list_text_prepared C op realm hq hlen
  cases op with
  | users =>
    obtain ⟨w1, h1, h2, h3, h4, h5⟩ :=
      list_statement_result t _ realm (lit "[") (lit "]\n") keys realms w0 _ (hu rfl) hadm
    refine ⟨w1, ?_, ?_, ?_, ?_, h5⟩
    · simp only [ListOp.run, sqlite_list_users, hg, hf, h1, hdb0]
    · rw [h2, hout0, hdb0]; rfl
    · rw [h3, hdb0]
    · apply usable_handle_of_cached C t e w1 c
      unfold pthread_getspecific at hc0 ⊢
      rw [h4]; exact hc0
  | secrets =>
    obtain ⟨w1, h1, h2, h3, h4, h5⟩ :=
      list_statement_result t _ realm (lit "[") (lit "]\n") keys realms w0 _ (hs rfl) hadm
    refine ⟨w1, ?_, ?_, ?_, ?_, h5⟩
    · simp only [ListOp.run, sqlite_list_secrets, hg, hf, h1, hdb0]
    · rw [h2, hout0, hdb0]; rfl
    · rw [h3, hdb0]
    · apply usable_handle_of_cached C t e w1 c
      unfold pthread_getspecific at hc0 ⊢
      rw [h4]; exact hc0
  | origins =>
    obtain ⟨w1, h1, h2, h3, h4, h5⟩ :=
      list_statement_result t _ realm (lit " ==>> ") (lit "\n") keys realms w0 _ (ho rfl) hadm
    refine ⟨w1, ?_, ?_, ?_, ?_, h5⟩
    · simp only [ListOp.run, sqlite_list_origins, hg, hf, h1, hdb0]
    · rw [h2, hout0, hdb0]; rfl
    · rw [h3, hdb0]
    · apply usable_handle_of_cached C t e w1 c
      unfold pthread_getspecific at hc0 ⊢
      rw [h4]; exact hc0

theorem mem_sort_rows (order : List Nat) (rows : List Row) (x : Row) :
    x ∈ sort_rows order rows ↔ x ∈ rows :=
  (sort_rows_perm order rows).mem_iff

/-- The order of the rows that the statement of a listing delivers: with a realm filter
every row has that realm and the keys ascend; without one the pairs (realm, key) ascend. -/
theorem list_rows_order (op : ListOp) (realm : Option Str) (db : Db) :
    (has_filter realm = true →
      (∀ row ∈ (op.stmt realm).rows db, sqlite3_column_text row 1 = realm_text realm) ∧
      ((op.stmt realm).rows db).Pairwise (fun a b =>
        key_le [sqlite3_column_text a 0] [sqlite3_column_text b 0] = true)) ∧
    (has_filter realm = false →
      ((op.stmt realm).rows db).Pairwise (fun a b =>
        key_le [sqlite3_column_text a 1, sqlite3_column_text a 0]
          [sqlite3_column_text b 1, sqlite3_column_text b 0] = true)) := by
  constructor
  · intro hfil
    cases op with
    | users =>
      simp only [ListOp.stmt, hfil, if_true, Stmt.rows, Db.get, reduceCtorEq, if_false]
      refine ⟨?_, ?_⟩
      · intro row hrow
        obtain ⟨x, hx, rfl⟩ := List.mem_map.1 hrow
        have hx' := (List.mem_filter.1 ((mem_sort_rows _ _ x).1 hx)).2
        rw [row_matches_one] at hx'
        simpa [project, sqlite3_column_text] using hx'
      · rw [List.pairwise_map]
        exact (sort_rows_sorted [1] _).imp (fun h => by
          simpa [project, sqlite3_column_text] using h)
    | secrets =>
      simp only [ListOp.stmt, hfil, if_true, Stmt.rows, Db.get, reduceCtorEq, if_false]
      refine ⟨?_, ?_⟩
      · intro row hrow
        obtain ⟨x, hx, rfl⟩ := List.mem_map.1 hrow
        have hx' := (List.mem_filter.1 ((mem_sort_rows _ _ x).1 hx)).2
        rw [row_matches_one] at hx'
        simpa [project, sqlite3_column_text] using hx'
      · rw [List.pairwise_map]
        exact (sort_rows_sorted [1] _).imp (fun h => by
          simpa [project, sqlite3_column_text] using h)
    | origins =>
      simp only [ListOp.stmt, hfil, if_true, Stmt.rows, Db.get, reduceCtorEq, if_false]
      refine ⟨?_, ?_⟩
      · intro row hrow
        obtain ⟨x, hx, rfl⟩ := List.mem_map.1 hrow
        have hx' := (List.mem_filter.1 ((mem_sort_rows _ _ x).1 hx)).2
        rw [row_matches_one] at hx'
        simpa [project, sqlite3_column_text] using hx'
      · rw [List.pairwise_map]
        exact (sort_rows_sorted [0] _).imp (fun h => by
          simpa [project, sqlite3_column_text] using h)
  · intro hfil
    cases op with
    | users =>
      simp only [ListOp.stmt, hfil, Bool.false_eq_true, if_false, Stmt.rows, Db.get,
        reduceCtorEq]
      rw [List.pairwise_map]
      exact (sort_rows_sorted [0, 1] _).imp (fun h => by
        simpa [project, sqlite3_column_text] using h)
    | secrets =>
      simp only [ListOp.stmt, hfil, Bool.false_eq_true, if_false, Stmt.rows, Db.get,
        reduceCtorEq]
      rw [List.pairwise_map]
      exact (sort_rows_sorted [0, 1] _).imp (fun h => by
        simpa [project, sqlite3_column_text] using h)
    | origins =>
      simp only [ListOp.stmt, hfil, Bool.false_eq_true, if_false, Stmt.rows, Db.get,
        reduceCtorEq]
      rw [List.pairwise_map]
      exact (sort_rows_sorted [1, 0] _).imp (fun h => by
        simpa [project, sqlite3_column_text] using h)

/-- C18, as the code has it.  For each of `sqlite_list_users`, `sqlite_list_secrets` and
`sqlite_list_origins`, run by a thread with a usable handle that the gate admits for
reading, on a backend without fault, with a filter that holds no quote character and a
statement that fits the buffer: the operation returns `0`, having handed the rows its
statement delivers, in order, to the collections (or to the standard output when the
collection of keys is null).  With a realm filter all these rows have that realm and their
keys are in ascending order.  Without a filter the rows are in ascending order by realm,
and rows of the same realm are in ascending order by key. -/
theorem listing_order (C : Consts) (t : pthread_t) (op : ListOp) (realm : Option Str)
    (keys realms : Option secrets_list_t) (e : Env) (w : World)
    (husable : usable_handle C t e w)
    (hadm : (sqlite_lock_pass false t w.gate).1 = true)
    (hf : e.fault = Fault.none) (hq : QUOTE ∉ realm_text realm)
    (hlen : (realm_text realm).length + 76 < C.TURN_LONG_STRING_SIZE) :
    ∃ rows w1, rows = (op.stmt realm).rows w.db ∧
      op.run C t realm keys realms e w =
        some (0, keys.map (fun ks => ks ++ listed_keys rows),
          (if keys.isSome then realms.map (fun rs => rs ++ listed_realms realm rows)
            else realms), w1) ∧
      w1.stdout = (if keys.isSome then w.stdout
        else w.stdout ++ printed_lines op.sep op.fin rows) ∧
      (has_filter realm = true →
        (∀ row ∈ rows, sqlite3_column_text row 1 = realm_text realm) ∧
        rows.Pairwise (fun a b =>
          key_le [sqlite3_column_text a 0] [sqlite3_column_text b 0] = true)) ∧
      (has_filter realm = false →
        rows.Pairwise (fun a b =>
          key_le [sqlite3_column_text a 1, sqlite3_column_text a 0]
            [sqlite3_column_text b 1, sqlite3_column_text b 0] = true)) := by
  obtain ⟨w1, h1, h2, -, -, -⟩ :=
    list_op_result C t op realm keys realms e w husable hadm hf hq hlen
  exact ⟨_, w1, rfl, h1, h2, (list_rows_order op realm w.db).1,
    (list_rows_order op realm w.db).2⟩

/-- An instance of C18 as the code has it: the users of the example store with two users,
listed without a filter into two empty collections. -/
theorem listing_order_witness :
    ∃ rows w1, rows = (ListOp.users.stmt none).rows two_users_world.db ∧
      ListOp.users.run example_consts 1 none (some []) (some []) example_env two_users_world =
        some (0, (some []).map (fun ks => ks ++ listed_keys rows),
          (if (some ([] : secrets_list_t)).isSome then
            (some []).map (fun rs => rs ++ listed_realms none rows)
            else some []), w1) ∧
      w1.stdout = (if (some ([] : secrets_list_t)).isSome then two_users_world.stdout
        else two_users_world.stdout ++ printed_lines ListOp.users.sep ListOp.users.fin rows) ∧
      (has_filter none = true →
        (∀ row ∈ rows, sqlite3_column_text row 1 = realm_text none) ∧
        rows.Pairwise (fun a b =>
          key_le [sqlite3_column_text a 0] [sqlite3_column_text b 0] = true)) ∧
      (has_filter none = false →
        rows.Pairwise (fun a b =>
          key_le [sqlite3_column_text a 1, sqlite3_column_text a 0]
            [sqlite3_column_text b 1, sqlite3_column_text b 0] = true)) :=
  listing_order example_consts 1 .users none (some []) (some []) example_env two_users_world
    (by decide) (by decide) (by decide) (by decide) (by decide)

/-- C18 as stated fails.  The store holds `alice` of the realm `b.example` and `bob` of
the realm `a.example`.  `sqlite_list_users` without a filter returns `0` and lists `bob`
before `alice`, although `alice` is the smaller key: the listing is ordered by realm
first. -/
theorem listing_order_counterexample :
    (sqlite_list_users example_consts 1 none (some []) (some []) example_env
        two_users_world).map (fun x => (x.1, x.2.1, x.2.2.1)) =
      some (0, some [lit "bob", lit "alice"], some [lit "a.example", lit "b.example"]) ∧
    str_lt (lit "alice") (lit "bob") = true := by
  decide

/-! ### A filtered listing and the full listing -/

theorem insert_by_filter (order : List Nat) (p : Row → Bool) (r : Row) (xs : List Row)
    (h : xs.Pairwise (fun x y => key_le (project order x) (project order y) = true)) :
    (insert_by order r xs).filter p =
      if p r = true then insert_by order r (xs.filter p) else xs.filter p := by
  induction xs with
  | nil => by_cases hp : p r = true <;> simp [insert_by, hp]
  | cons y ys ih =>
    rw [List.pairwise_cons] at h
    by_cases hle : key_le (project order y) (project order r) = true
    · have e1 : insert_by order r (y :: ys) = y :: insert_by order r ys := by
        simp [insert_by, hle]
      rw [e1]
      by_cases hy : p y = true
      · rw [List.filter_cons_of_pos hy, List.filter_cons_of_pos hy, ih h.2]
        by_cases hp : p r = true
        · simp [hp, insert_by, hle]
        · simp [hp]
      · rw [List.filter_cons_of_neg hy, List.filter_cons_of_neg hy, ih h.2]
    · have e1 : insert_by order r (y :: ys) = r :: y :: ys := by
        simp [insert_by, hle]
      rw [e1]
      have hfront : insert_by order r ((y :: ys).filter p) = r :: (y :: ys).filter p := by
        cases hfl : (y :: ys).filter p with
        | nil => rfl
        | cons z zs =>
          have hz : z ∈ y :: ys := by
            have : z ∈ (y :: ys).filter p := by rw [hfl]; simp
            exact (List.mem_filter.1 this).1
          have hzr : ¬ key_le (project order z) (project order r) = true := by
            intro hzr
            rcases List.mem_cons.1 hz with hz | hz
            · subst hz; exact hle hzr
            · exact hle (key_le_trans _ _ _ (h.1 z hz) hzr)
          simp [insert_by, hzr]
      by_cases hp : p r = true
      · rw [List.filter_cons_of_pos hp, if_pos hp, hfront]
      · rw [List.filter_cons_of_neg hp, if_neg hp]

/-- Removing rows before or after the `order by` gives the same result. -/
theorem sort_rows_filter (order : List Nat) (p : Row → Bool) (rows : List Row) :
    (sort_rows order rows).filter p = sort_rows order (rows.filter p) := by
  induction rows with
  | nil => rfl
  | cons r rs ih =>
    have h1 : sort_rows order (r :: rs) = insert_by order r (sort_rows order rs) := rfl
    rw [h1, insert_by_filter order p r _ (sort_rows_sorted order rs), ih]
    by_cases hp : p r = true
    · rw [if_pos hp, List.filter_cons_of_pos hp]; rfl
    · rw [if_neg hp, List.filter_cons_of_neg hp]

theorem insert_by_congr (o1 o2 : List Nat) (r : Row) (xs : List Row)
    (h : ∀ x ∈ xs, key_le (project o1 x) (project o1 r) = key_le (project o2 x) (project o2 r)) :
    insert_by o1 r xs = insert_by o2 r xs := by
  induction xs with
  | nil => rfl
  | cons y ys ih =>
    unfold insert_by
    rw [h y (by simp), ih (fun x hx => h x (List.mem_cons_of_mem _ hx))]

/-- Two `order by` clauses that compare the rows at hand alike give the same result. -/
theorem sort_rows_congr (o1 o2 : List Nat) (rows : List Row)
    (h : ∀ x ∈ rows, ∀ y ∈ rows,
      key_le (project o1 x) (project o1 y) = key_le (project o2 x) (project o2 y)) :
    sort_rows o1 rows = sort_rows o2 rows := by
  induction rows with
  | nil => rfl
  | cons r rs ih =>
    have h1 : sort_rows o1 (r :: rs) = insert_by o1 r (sort_rows o1 rs) := rfl
    have h2 : sort_rows o2 (r :: rs) = insert_by o2 r (sort_rows o2 rs) := rfl
    rw [h1, h2, ih (fun x hx y hy => h x (List.mem_cons_of_mem _ hx) y
      (List.mem_cons_of_mem _ hy))]
    apply insert_by_congr
    intro x hx
    exact h x (List.mem_cons_of_mem _ ((mem_sort_rows o2 rs x).1 hx)) r (by simp)

/-- The rows of the filtered listing of users are the rows of the full listing that have
the realm of the filter, in the order of the full listing. -/
theorem users_filtered_rows (r : Str) (hr : r ≠ []) (db : Db) :
    (ListOp.users.stmt (some r)).rows db =
      ((ListOp.users.stmt none).rows db).filter (fun row => sqlite3_column_text row 1 == r) := by
  have hfil : has_filter (some r) = true := by
    cases r with
    | nil => exact absurd rfl hr
    | cons c cs => rfl
  have hs1 : ListOp.users.stmt (some r) = .select .turnusers_lt [1, 0] [(0, r)] [1] := by
    simp [ListOp.stmt, hfil, realm_text]
  have hs2 : ListOp.users.stmt none = .select .turnusers_lt [1, 0] [] [0, 1] := rfl
  rw [hs1, hs2]
  simp only [Stmt.rows, Db.get, reduceCtorEq, if_false]
  have hall : db.turnusers_lt.filter (row_matches []) = db.turnusers_lt :=
    List.filter_eq_self.2 (fun x _ => rfl)
  rw [hall, List.filter_map]
  have hq : ((fun row => sqlite3_column_text row 1 == r) ∘ project [1, 0]) =
      row_matches [(0, r)] := by
    funext x
    simp [row_matches, project, sqlite3_column_text]
  rw [hq, sort_rows_filter]
  congr 1
  apply sort_rows_congr
  intro x hx y hy
  have hx' := (List.mem_filter.1 hx).2
  have hy' := (List.mem_filter.1 hy).2
  rw [row_matches_one] at hx' hy'
  simp only [beq_iff_eq] at hx' hy'
  simp [project, key_le, hx', hy', str_lt_irrefl]

/-- C19, as the code has it.  A thread with a usable handle that the gate admits for
reading lists the users on a backend without fault, with a realm filter `r` that is not
empty, holds no quote character and leaves the statement within the buffer.  Both the
filtered and the unfiltered `sqlite_list_users` return `0`; the rows handed out by the
filtered listing are exactly the rows of the unfiltered listing whose realm is `r`, in the
same order (so they are a part of the unfiltered listing, the whole of it when every user
is of the realm `r`); their keys are in ascending order; and the filtered listing repeated
right after, with no write in between, hands out the same rows. -/
theorem filtered_listing (C : Consts) (t : pthread_t) (r : Str)
    (keys realms : Option secrets_list_t) (e : Env) (w : World)
    (hr : r ≠ []) (hq : QUOTE ∉ r) (hlen : r.length + 76 < C.TURN_LONG_STRING_SIZE)
    (husable : usable_handle C t e w)
    (hadm : (sqlite_lock_pass false t w.gate).1 = true)
    (hf : e.fault = Fault.none) :
    ∃ rowsF rowsU w1 w2 w3,
      sqlite_list_users C t (some r) keys realms e w =
        some (0, keys.map (fun ks => ks ++ listed_keys rowsF),
          (if keys.isSome then realms.map (fun rs => rs ++ listed_realms (some r) rowsF)
            else realms), w1) ∧
      sqlite_list_users C t none keys realms e w =
        some (0, keys.map (fun ks => ks ++ listed_keys rowsU),
          (if keys.isSome then realms.map (fun rs => rs ++ listed_realms none rowsU)
            else realms), w2) ∧
      rowsF = rowsU.filter (fun row => sqlite3_column_text row 1 == r) ∧
      rowsF.Sublist rowsU ∧
      rowsF.Pairwise (fun a b =>
        key_le [sqlite3_column_text a 0] [sqlite3_column_text b 0] = true) ∧
      sqlite_list_users C t (some r) keys realms e w1 =
        some (0, keys.map (fun ks => ks ++ listed_keys rowsF),
          (if keys.isSome then realms.map (fun rs => rs ++ listed_realms (some r) rowsF)
            else realms), w3) := by
  have hfil : has_filter (some r) = true := by
    cases r with
    | nil => exact absurd rfl hr
    | cons c cs => rfl
  obtain ⟨w1, h1, -, hdb1, hus1, hadm1⟩ :=
    list_op_result C t .users (some r) keys realms e w husable hadm hf hq hlen
  obtain ⟨w2, h2, -, -, -, -⟩ :=
    list_op_result C t .users none keys realms e w husable hadm hf (by simp [realm_text])
      (by simp only [realm_text, Option.getD_none, List.length_nil]; omega)
  obtain ⟨w3, h3, -, -, -, -⟩ :=
    list_op_result C t .users (some r) keys realms e w1 hus1 hadm1 hf hq hlen
  rw [hdb1] at h3
  have heq := users_filtered_rows r hr w.db
  refine ⟨_, _, w1, w2, w3, h1, h2, heq, ?_, ?_, h3⟩
  · rw [heq]; exact List.filter_sublist _
  · exact ((list_rows_order .users (some r) w.db).1 hfil).2

/-- An instance of C19 as the code has it: the users of the realm `a.example` in the
example store with two users. -/
theorem filtered_listing_witness :
    ∃ rowsF rowsU w1 w2 w3,
      sqlite_list_users example_consts 1 (some (lit "a.example")) (some []) (some []) example_env
          two_users_world =
        some (0, (some []).map (fun ks => ks ++ listed_keys rowsF),
          (if (some ([] : secrets_list_t)).isSome then
            (some []).map (fun rs => rs ++ listed_realms (some (lit "a.example")) rowsF)
            else some []), w1) ∧
      sqlite_list_users example_consts 1 none (some []) (some []) example_env two_users_world =
        some (0, (some []).map (fun ks => ks ++ listed_keys rowsU),
          (if (some ([] : secrets_list_t)).isSome then
            (some []).map (fun rs => rs ++ listed_realms none rowsU)
            else some []), w2) ∧
      rowsF = rowsU.filter (fun row => sqlite3_column_text row 1 == lit "a.example") ∧
      rowsF.Sublist rowsU ∧
      rowsF.Pairwise (fun a b =>
        key_le [sqlite3_column_text a 0] [sqlite3_column_text b 0] = true) ∧
      sqlite_list_users example_consts 1 (some (lit "a.example")) (some []) (some []) example_env
          w1 =
        some (0, (some []).map (fun ks => ks ++ listed_keys rowsF),
          (if (some ([] : secrets_list_t)).isSome then
            (some []).map (fun rs => rs ++ listed_realms (some (lit "a.example")) rowsF)
            else some []), w3) :=
  filtered_listing example_consts 1 (lit "a.example") (some []) (some []) example_env
    two_users_world (by decide) (by decide) (by decide) (by decide) (by decide) (by decide)

/-- C19 as stated fails.  The store holds one user, `alice` of the realm `example.org`.
`sqlite_list_users` with the filter `example.org` and `sqlite_list_users` without a filter
return the same entries, so the filtered entries are not a strict subset of the unfiltered
ones. -/
theorem strict_subset_counterexample :
    (sqlite_list_users example_consts 1 (some (lit "example.org")) (some []) (some []) example_env
        alice_world).map (fun x => (x.1, x.2.1, x.2.2.1)) =
      some (0, some [lit "alice"], some [lit "example.org"]) ∧
    (sqlite_list_users example_consts 1 none (some []) (some []) example_env
        alice_world).map (fun x => (x.1, x.2.1, x.2.2.1)) =
      some (0, some [lit "alice"], some [lit "example.org"]) :=
  ⟨by decide, by decide⟩

/-! ### The configured location -/

theorem dropWhile_spaces (k : Nat) (q : Str) (hq : q.head? ≠ some ' ') :
    (List.replicate k ' ' ++ q).dropWhile (fun c => c == ' ') = q := by
  induction k with
  | zero =>
    cases q with
    | nil => rfl
    | cons c cs =>
      have hc : c ≠ ' ' := fun h => hq (by rw [h]; rfl)
      have hb : (c == ' ') = false := by simpa using hc
      simp [List.dropWhile, hb]
  | succ k ih =>
    rw [List.replicate_succ, List.cons_append, List.dropWhile_cons]
    simpa using ih

/-- C21, as the code has it.  `fix_user_directory` looks past the leading spaces of the
path for the marker `~`.  A path of `k` spaces followed by `~rest` becomes the home
directory followed by `rest` when a home directory is found, and is left exactly as it
was when none is found.  A path of `k` spaces followed by a text that starts with neither
a space nor the marker is left exactly as it was, the `k` spaces included.  The home
directory is the value of `HOME` when it is set, and otherwise the `pw_dir` of the entry
of the user database, if there is an entry and its `pw_dir` is not null. -/
theorem fix_user_directory_cases (e : Env) (k : Nat) (rest q : Str) :
    (∀ h, home_directory e = some h →
      fix_user_directory e (List.replicate k ' ' ++ '~' :: rest) = h ++ rest) ∧
    (home_directory e = none →
      fix_user_directory e (List.replicate k ' ' ++ '~' :: rest) =
        List.replicate k ' ' ++ '~' :: rest) ∧
    (q.head? ≠ some ' ' → q.head? ≠ some '~' →
      fix_user_directory e (List.replicate k ' ' ++ q) = List.replicate k ' ' ++ q) ∧
    (∀ h, e.HOME = some h → home_directory e = some h) ∧
    (e.HOME = none → e.pw_dir = none → home_directory e = none) ∧
    (∀ d, e.HOME = none → e.pw_dir = some d → home_directory e = d) := by
  have hdrop : (List.replicate k ' ' ++ '~' :: rest).dropWhile (fun c => c == ' ') =
      '~' :: rest := dropWhile_spaces k _ (by simp)
  refine ⟨?_, ?_, ?_, ?_, ?_, ?_⟩
  · intro h hh
    unfold fix_user_directory
    rw [hdrop]
    simp only [hh]
  · intro hh
    unfold fix_user_directory
    rw [hdrop]
    simp only [hh]
  · intro h1 h2
    unfold fix_user_directory
    rw [dropWhile_spaces k q h1]
    cases q with
    | nil => rfl
    | cons c cs =>
      have hc : c ≠ '~' := fun h => h2 (by rw [h]; rfl)
      split
      · rename_i heq
        simp only [List.cons.injEq] at heq
        exact absurd heq.1 hc
      · rfl
  · intro h hh
    simp [home_directory, hh]
  · intro h1 h2
    simp [home_directory, h1, h2]
  · intro d h1 h2
    simp [home_directory, h1, h2]

/-- Instances of C21 as the code has it, with the home directory `/home/turn`:
`  ~/db` becomes `/home/turn/db`, and ` /var/db` stays ` /var/db`. -/
theorem fix_user_directory_cases_witness :
    fix_user_directory example_env (List.replicate 2 ' ' ++ '~' :: lit "/db") =
      lit "/home/turn" ++ lit "/db" ∧
    fix_user_directory example_env (List.replicate 1 ' ' ++ lit "/var/db") =
      List.replicate 1 ' ' ++ lit "/var/db" :=
  ⟨(fix_user_directory_cases example_env 2 (lit "/db") []).1 (lit "/home/turn") (by decide),
   (fix_user_directory_cases example_env 1 [] (lit "/var/db")).2.2.1 (by decide) (by decide)⟩

/-- C21 as stated fails: with the home directory `/home/turn`, the path ` /var/db/turndb`
(one leading space, no marker) is left as ` /var/db/turndb`; the space is not removed. -/
theorem leading_spaces_counterexample :
    home_directory example_env = some (lit "/home/turn") ∧
    fix_user_directory example_env (lit " /var/db/turndb") = lit " /var/db/turndb" ∧
    fix_user_directory example_env (lit " /var/db/turndb") ≠ lit "/var/db/turndb" := by
  decide

/-! ### Deleting shared secrets -/

theorem parse_delete_secrets_of_realm (realm : Str) (hr : QUOTE ∉ realm) :
    parse_statement (lit "delete from turn_secret where realm=" ++ quoted realm) =
      some (.delete .turn_secret [(0, realm)]) := by
  have h := parse_statement_one (lit "delete from turn_secret where realm=") realm []
    (by decide) hr (by simp)
  simp only [List.append_nil] at h
  rw [h]
  simp +decide [parse1]

theorem parse_delete_secret (secret realm : Str) (hs : QUOTE ∉ secret) (hr : QUOTE ∉ realm) :
    parse_statement (lit "delete from turn_secret where value=" ++ quoted secret ++
        lit " and realm=" ++ quoted realm) =
      some (.delete .turn_secret [(1, secret), (0, realm)]) := by
  have h := parse_statement_two (lit "delete from turn_secret where value=") secret
    (lit " and realm=") realm [] (by decide) hs (by decide) hr (by simp)
  simp only [List.append_nil] at h
  simp only [List.append_assoc]
  rw [h]
  simp +decide [parse2]

theorem parse_select_secrets (realm : Str) (hr : QUOTE ∉ realm) :
    parse_statement (lit "select value from turn_secret where realm=" ++ quoted realm) =
      some (.select .turn_secret [1] [(0, realm)] []) := by
  have h := parse_statement_one (lit "select value from turn_secret where realm=") realm []
    (by decide) hr (by simp)
  simp only [List.append_nil] at h
  rw [h]
  simp +decide [parse1]

/-- A write statement run by a thread that the gate admits for writing. -/
theorem write_statement_admitted (t : pthread_t) (f : Fault) (text : Str) (w : World)
    (hadm : (sqlite_lock_pass true t w.gate).1 = true) :
    write_statement t f text w =
      some (match sqlite3_prepare f text with
        | some st =>
          (0, World.unlock true t
            { w with gate := (sqlite_lock_pass true t w.gate).2,
                     gate_calls := w.gate_calls ++ [.lock t true],
                     db := step_write f st w.db })
        | none =>
          (-1, World.unlock true t
            { w with gate := (sqlite_lock_pass true t w.gate).2,
                     gate_calls := w.gate_calls ++ [.lock t true] })) := by
  unfold write_statement World.lock
  simp only [hadm, if_true, Option.map_some']

/-- The secrets of a realm as `sqlite_get_auth_secrets` collects them, for a thread with a
usable handle that the gate admits for reading, on a backend without fault: the values
that its statement delivers, in the order of delivery. -/
theorem get_auth_secrets_result (C : Consts) (t : pthread_t) (sl : secrets_list_t)
    (realm : Str) (e : Env) (w : World)
    (husable : usable_handle C t e w)
    (hadm : (sqlite_lock_pass false t w.gate).1 = true)
    (hr : QUOTE ∉ realm)
    (hlen : (lit "select value from turn_secret where realm=" ++ quoted realm).length <
      C.TURN_LONG_STRING_SIZE - 1)
    (hf : e.fault = Fault.none) :
    (sqlite_get_auth_secrets C t sl realm e w).map (fun x => (x.1, x.2.1)) =
      some (0, sl ++ ((Stmt.select .turn_secret [1] [(0, realm)] []).rows w.db).map
        (fun row => sqlite3_column_text row 0)) := by
  obtain ⟨c, w0, hg⟩ := usable_handle_get C t e w husable
  obtain ⟨hdb, hgate, -, -, -, -⟩ := get_sqlite_connection_frame C t e w w0 c hg
  unfold sqlite_get_auth_secrets
  rw [hg]
  rw [← hgate] at hadm
  simp only [World.lock, hadm, if_true, Option.map_some', sqlite3_prepare, hf,
    Fault.none, Bool.false_eq_true, if_false]
  rw [snprintf_fits _ _ hlen, parse_select_secrets realm hr]
  have hload : ∀ (rows : List Row) (acc : secrets_list_t) (n : Nat),
      step_loop { prepare := false, step := none }
        (fun acc r => add_to_secrets_list acc (some (sqlite3_column_text r 0))) n rows acc =
        (acc ++ rows.map (fun r => sqlite3_column_text r 0), false) := by
    intro rows
    induction rows with
    | nil => intro acc n; simp [step_loop]
    | cons r rs ih =>
      intro acc n
      unfold step_loop
      simp only [reduceCtorEq, if_false]
      rw [ih]
      simp [add_to_secrets_list]
  simp only [Stmt.column_count, List.length_cons, List.length_nil, Nat.zero_add,
    Nat.lt_one_iff, Nat.pos_of_ne_zero, if_true, hload, Bool.false_eq_true, if_false, hdb]

/-- What `sqlite_del_secret` does when its statement is executed: the return value, the
store, the cached handle and the gate afterwards. -/
theorem del_secret_result (C : Consts) (t : pthread_t) (secret : Option Str) (r : Str)
    (e : Env) (w : World)
    (husable : usable_handle C t e w)
    (hadm : (sqlite_lock_pass true t w.gate).1 = true)
    (hr : QUOTE ∉ r) (hs : QUOTE ∉ secret.getD [])
    (hlen : (secret.getD []).length + r.length + 51 < C.TURN_LONG_STRING_SIZE)
    (hprep : e.fault.prepare = false) (hstep : e.fault.step ≠ some 0) :
    ∃ w1, sqlite_del_secret C t secret r e w = some (0, w1) ∧
      w1.db = Stmt.exec w.db (.delete .turn_secret (del_secret_conds secret r)) ∧
      (∀ e1, usable_handle C t e1 w1) ∧
      (sqlite_lock_pass false t w1.gate).1 = true := by
  obtain ⟨c, w0, hg⟩ := usable_handle_get C t e _ ((usable_handle_flag C t e w true).2 husable)
  obtain ⟨hdb0, hgate0, -, -, -, hc0⟩ := get_sqlite_connection_frame C t e _ w0 c hg
  simp only at hdb0 hgate0
  rw [← hgate0] at hadm
  have e1 : "delete from turn_secret where value=".toList.length = 36 := by decide
  have e2 : " and realm=".toList.length = 11 := by decide
  have e3 : "delete from turn_secret where realm=".toList.length = 36 := by decide
  have hnp : ¬ (e.fault.prepare = true) := by simp [hprep]
  have hwild : sqlite3_prepare e.fault (snprintf C.TURN_LONG_STRING_SIZE
      (lit "delete from turn_secret where realm=" ++ quoted r)) =
      some (.delete .turn_secret [(0, r)]) := by
    unfold sqlite3_prepare
    rw [if_neg hnp, snprintf_fits _ _ (by
      simp only [List.length_append, quoted, List.length_cons, List.length_nil, lit, e3]
      omega), parse_delete_secrets_of_realm r hr]
  rcases secret with _ | _ | ⟨c1, cs⟩
  · unfold sqlite_del_secret
    rw [hg]
    simp only
    rw [write_statement_admitted t e.fault _ w0 hadm, hwild]
    refine ⟨_, rfl, ?_, fun e1 => usable_handle_of_cached C t e1 _ c hc0,
      read_pass_after_bracket true t w0.gate hadm⟩
    simp only [World.unlock, step_write, if_neg hstep, hdb0, del_secret_conds]
  · unfold sqlite_del_secret
    rw [hg]
    simp only
    rw [write_statement_admitted t e.fault _ w0 hadm, hwild]
    refine ⟨_, rfl, ?_, fun e1 => usable_handle_of_cached C t e1 _ c hc0,
      read_pass_after_bracket true t w0.gate hadm⟩
    simp only [World.unlock, step_write, if_neg hstep, hdb0, del_secret_conds]
  · simp only [Option.getD_some, List.length_cons] at hlen hs
    have hone : sqlite3_prepare e.fault (snprintf C.TURN_LONG_STRING_SIZE
        (lit "delete from turn_secret where value=" ++ quoted (c1 :: cs) ++
          lit " and realm=" ++ quoted r)) =
        some (.delete .turn_secret [(1, c1 :: cs), (0, r)]) := by
      unfold sqlite3_prepare
      rw [if_neg hnp, snprintf_fits _ _ (by
        simp only [List.length_append, quoted, List.length_cons, List.length_nil, lit, e1, e2]
        omega), parse_delete_secret (c1 :: cs) r hs hr]
    unfold sqlite_del_secret
    rw [hg]
    simp only
    rw [write_statement_admitted t e.fault _ w0 hadm, hone]
    refine ⟨_, rfl, ?_, fun e1 => usable_handle_of_cached C t e1 _ c hc0,
      read_pass_after_bracket true t w0.gate hadm⟩
    simp only [World.unlock, step_write, if_neg hstep, hdb0, del_secret_conds]

/-- The rows that the statement of `sqlite_get_auth_secrets` delivers for a realm depend
on the rows of that realm only. -/
theorem secrets_rows_congr (r1 : Str) (db1 db2 : Db)
    (h : db1.turn_secret.filter (fun row => sqlite3_column_text row 0 == r1) =
      db2.turn_secret.filter (fun row => sqlite3_column_text row 0 == r1)) :
    (Stmt.select .turn_secret [1] [(0, r1)] []).rows db1 =
      (Stmt.select .turn_secret [1] [(0, r1)] []).rows db2 := by
  have hf : ∀ db : Db, db.turn_secret.filter (row_matches [(0, r1)]) =
      db.turn_secret.filter (fun row => sqlite3_column_text row 0 == r1) := by
    intro db
    apply List.filter_congr
    intro row _
    simp [row_matches]
  simp only [Stmt.rows, Db.get, if_true, hf, h]

/-- The values that the statement of `sqlite_get_auth_secrets` delivers for a realm are,
up to their order, the values of the rows of that realm. -/
theorem secrets_rows_perm (r1 : Str) (db : Db) :
    (((Stmt.select .turn_secret [1] [(0, r1)] []).rows db).map
        (fun row => sqlite3_column_text row 0)).Perm
      ((db.turn_secret.filter (fun row => sqlite3_column_text row 0 == r1)).map
        (fun row => sqlite3_column_text row 1)) := by
  have hf : db.turn_secret.filter (row_matches [(0, r1)]) =
      db.turn_secret.filter (fun row => sqlite3_column_text row 0 == r1) := by
    apply List.filter_congr
    intro row _
    simp [row_matches]
  simp only [Stmt.rows, Db.get, if_true, hf, List.map_map]
  exact List.Perm.refl _

/-- Secret deletion when the statement is executed.  A thread with a usable handle that
the gate admits for writing calls `sqlite_del_secret` for the realm `r`; secret and realm
hold no quote character, the statement fits the buffer and the backend prepares it and
executes its step.  The call returns `0`.  With a null or an empty secret the table of
secrets afterwards is the table before without every row of the realm `r`.  With a secret
`s` that is not empty it is the table before without the row `(r, s)`.  In both cases the
rows of every other realm and the other tables are as before, and
`sqlite_get_auth_secrets` for another realm, on a backend without fault, returns after the
call what it returns before it: `0` and the values of the rows of that realm, in the order
in which the backend delivers them. -/
theorem del_secret_executed (C : Consts) (t : pthread_t) (secret : Option Str) (r : Str)
    (e : Env) (w : World)
    (husable : usable_handle C t e w)
    (hadm : (sqlite_lock_pass true t w.gate).1 = true)
    (hr : QUOTE ∉ r) (hs : QUOTE ∉ secret.getD [])
    (hlen : (secret.getD []).length + r.length + 51 < C.TURN_LONG_STRING_SIZE)
    (hprep : e.fault.prepare = false) (hstep : e.fault.step ≠ some 0) :
    ∃ w1, sqlite_del_secret C t secret r e w = some (0, w1) ∧
      ((secret = none ∨ secret = some []) →
        w1.db = { w.db with turn_secret :=
          w.db.turn_secret.filter (fun row => !(sqlite3_column_text row 0 == r)) }) ∧
      (∀ s, secret = some s → s ≠ [] →
        w1.db = { w.db with turn_secret :=
          w.db.turn_secret.filter (fun row =>
            !(sqlite3_column_text row 1 == s && sqlite3_column_text row 0 == r)) }) ∧
      (∀ r1, r1 ≠ r →
        w1.db.turn_secret.filter (fun row => sqlite3_column_text row 0 == r1) =
          w.db.turn_secret.filter (fun row => sqlite3_column_text row 0 == r1)) ∧
      (∀ r1 sl e1, r1 ≠ r → QUOTE ∉ r1 →
        (lit "select value from turn_secret where realm=" ++ quoted r1).length <
          C.TURN_LONG_STRING_SIZE - 1 →
        e1.fault = Fault.none → usable_handle C t e1 w →
        (sqlite_get_auth_secrets C t sl r1 e1 w1).map (fun x => (x.1, x.2.1)) =
          (sqlite_get_auth_secrets C t sl r1 e1 w).map (fun x => (x.1, x.2.1)) ∧
        ∃ vals, (sqlite_get_auth_secrets C t sl r1 e1 w).map (fun x => (x.1, x.2.1)) =
            some (0, sl ++ vals) ∧
          vals.Perm ((w.db.turn_secret.filter
            (fun row => sqlite3_column_text row 0 == r1)).map
              (fun row => sqlite3_column_text row 1))) := by
  obtain ⟨w1, hrun, hdb, hus1, hadm1⟩ :=
    del_secret_result C t secret r e w husable hadm hr hs hlen hprep hstep
  have hother : ∀ r1, r1 ≠ r →
      w1.db.turn_secret.filter (fun row => sqlite3_column_text row 0 == r1) =
        w.db.turn_secret.filter (fun row => sqlite3_column_text row 0 == r1) := by
    intro r1 hne
    rw [hdb]
    simp only [Stmt.exec, Db.get, Db.set, List.filter_filter]
    apply List.filter_congr
    intro row _
    by_cases h0 : sqlite3_column_text row 0 = r1
    · have hnr : sqlite3_column_text row 0 ≠ r := by rw [h0]; exact hne
      have : row_matches (del_secret_conds secret r) row = false := by
        unfold del_secret_conds
        rcases secret with _ | _ | ⟨c1, cs⟩ <;> simp [row_matches, hnr]
      simp [h0, this]
    · simp [h0]
  refine ⟨w1, hrun, ?_, ?_, hother, ?_⟩
  · intro hsec
    rw [hdb]
    rcases hsec with h | h <;> subst h <;>
      simp [Stmt.exec, Db.get, Db.set, del_secret_conds, row_matches]
  · intro s hsec hne
    subst hsec
    rw [hdb]
    cases s with
    | nil => exact absurd rfl hne
    | cons c1 cs => simp [Stmt.exec, Db.get, Db.set, del_secret_conds, row_matches]
  · intro r1 sl e1 hne hq1 hlen1 hf1 hus
    have hbefore := get_auth_secrets_result C t sl r1 e1 w hus
      (read_pass_of_write_pass t w.gate hadm) hq1 hlen1 hf1
    have hafter := get_auth_secrets_result C t sl r1 e1 w1 (hus1 e1) hadm1 hq1 hlen1 hf1
    rw [secrets_rows_congr r1 w1.db w.db (hother r1 hne)] at hafter
    exact ⟨hafter.trans hbefore.symm, _, hbefore, secrets_rows_perm r1 w.db⟩

/-- C23.  Secret deletion with an empty secret is a wildcard.  When the call is carried
out (usable handle, gate admits the writer, secret and realm without a quote character,
statement within the buffer, prepared, and its step executed) `sqlite_del_secret` returns
`0`; with a null or an empty secret it removes every row of the realm `r`, with a secret
`s` that is not empty the row `(r, s)` alone; the rows of every other realm are as before,
and `sqlite_get_auth_secrets` for another realm returns after the call what it returns
before it, `0` and the values of that realm.  At the failing input the store holds the
secrets `s1`, `s2` of `example.org` and `s3` of `other.org` and the backend prepares the
delete and fails its step: `sqlite_del_secret` returns `0`, with a null secret as with the
secret `s1`, and every secret of `example.org` is still in the store. -/
theorem del_secret_wildcard (C : Consts) (t : pthread_t) (secret : Option Str) (r : Str)
    (e : Env) (w : World) :
    (usable_handle C t e w → (sqlite_lock_pass true t w.gate).1 = true →
      QUOTE ∉ r → QUOTE ∉ secret.getD [] →
      (secret.getD []).length + r.length + 51 < C.TURN_LONG_STRING_SIZE →
      e.fault.prepare = false → e.fault.step ≠ some 0 →
      ∃ w1, sqlite_del_secret C t secret r e w = some (0, w1) ∧
        ((secret = none ∨ secret = some []) →
          w1.db = { w.db with turn_secret :=
            w.db.turn_secret.filter (fun row => !(sqlite3_column_text row 0 == r)) }) ∧
        (∀ s, secret = some s → s ≠ [] →
          w1.db = { w.db with turn_secret :=
            w.db.turn_secret.filter (fun row =>
              !(sqlite3_column_text row 1 == s && sqlite3_column_text row 0 == r)) }) ∧
        (∀ r1, r1 ≠ r →
          w1.db.turn_secret.filter (fun row => sqlite3_column_text row 0 == r1) =
            w.db.turn_secret.filter (fun row => sqlite3_column_text row 0 == r1)) ∧
        (∀ r1 sl e1, r1 ≠ r → QUOTE ∉ r1 →
          (lit "select value from turn_secret where realm=" ++ quoted r1).length <
            C.TURN_LONG_STRING_SIZE - 1 →
          e1.fault = Fault.none → usable_handle C t e1 w →
          (sqlite_get_auth_secrets C t sl r1 e1 w1).map (fun x => (x.1, x.2.1)) =
            (sqlite_get_auth_secrets C t sl r1 e1 w).map (fun x => (x.1, x.2.1)) ∧
          ∃ vals, (sqlite_get_auth_secrets C t sl r1 e1 w).map (fun x => (x.1, x.2.1)) =
              some (0, sl ++ vals) ∧
            vals.Perm ((w.db.turn_secret.filter
              (fun row => sqlite3_column_text row 0 == r1)).map
                (fun row => sqlite3_column_text row 1)))) ∧
    (sqlite_del_secret example_consts 1 none (lit "example.org") step_fault_env
        secrets_world).map (fun x => (x.1, x.2.db.turn_secret)) =
      some (0, [[lit "example.org", lit "s1"], [lit "other.org", lit "s3"],
                [lit "example.org", lit "s2"]]) ∧
    (sqlite_del_secret example_consts 1 (some (lit "s1")) (lit "example.org") step_fault_env
        secrets_world).map (fun x => (x.1, x.2.db.turn_secret)) =
      some (0, [[lit "example.org", lit "s1"], [lit "other.org", lit "s3"],
                [lit "example.org", lit "s2"]]) := by
  refine ⟨?_, by decide, by decide⟩
  intro husable hadm hr hs hlen hprep hstep
  exact del_secret_executed C t secret r e w husable hadm hr hs hlen hprep hstep

/-- Instances of C23 on a backend without fault, in the example store with the secrets
`s1`, `s2` of `example.org` and `s3` of `other.org`: the deletion with a null secret
leaves `s3` only, and the deletion of `s1` leaves `s3` and `s2`; the secrets of
`other.org` are read as before. -/
theorem del_secret_wildcard_witness :
    (∃ w1, sqlite_del_secret example_consts 1 none (lit "example.org") example_env
        secrets_world = some (0, w1) ∧
      w1.db.turn_secret = [[lit "other.org", lit "s3"]] ∧
      (sqlite_get_auth_secrets example_consts 1 [] (lit "other.org") example_env w1).map
          (fun x => (x.1, x.2.1)) = some (0, [lit "s3"])) ∧
    (∃ w1, sqlite_del_secret example_consts 1 (some (lit "s1")) (lit "example.org") example_env
        secrets_world = some (0, w1) ∧
      w1.db.turn_secret = [[lit "other.org", lit "s3"], [lit "example.org", lit "s2"]]) := by
  obtain ⟨w1, h1, h2, -, -, h5⟩ := (del_secret_wildcard example_consts 1 none
    (lit "example.org") example_env secrets_world).1 (by decide) (by decide) (by decide)
    (by decide) (by decide) (by decide) (by decide)
  obtain ⟨w2, g1, -, g3, -, -⟩ := (del_secret_wildcard example_consts 1 (some (lit "s1"))
    (lit "example.org") example_env secrets_world).1 (by decide) (by decide) (by decide)
    (by decide) (by decide) (by decide) (by decide)
  refine ⟨⟨w1, h1, ?_, ?_⟩, ⟨w2, g1, ?_⟩⟩
  · rw [h2 (Or.inl rfl)]; decide
  · have h := h5 (lit "other.org") [] example_env (by decide) (by decide) (by decide)
      (by decide) (by decide)
    rw [h.1]; decide
  · rw [g3 (lit "s1") rfl (by decide)]; decide

/-! ### Gate bracketing -/

/-- In a state reached from the idle gate the writer identity is null exactly when
`write_level` is zero. -/
theorem gate_consistent_of_run (evs : List GateEvent) (s : GateSys)
    (hrun : gate_run evs GateSys.init = some s) :
    (s.gate.write_thread = null_thread ↔ s.gate.write_level = 0) := by
  obtain ⟨-, hw, hnull, hwr⟩ := gateInv_run evs GateSys.init s gateInv_init hrun
  constructor
  · intro h; rw [hw, hnull h]; rfl
  · intro h
    by_contra hne
    have := (hwr hne).1
    omega

/-- A `sqlite_lock` that is admitted, followed by the `sqlite_unlock` in the same mode,
leaves the three gate variables as they were. -/
theorem bracket_gate (write : Bool) (t : pthread_t) (g : Gate)
    (hcons : g.write_thread = null_thread ↔ g.write_level = 0)
    (hadm : (sqlite_lock_pass write t g).1 = true) :
    (sqlite_unlock write (sqlite_lock_pass write t g).2).1 = g := by
  cases write with
  | false =>
    have hp : sqlite_lock_pass false t g = (true, { g with read_threads := g.read_threads + 1 }) := by
      have := (read_pass_iff t g).1 hadm
      simp [sqlite_lock_pass, this]
    rw [hp]
    cases g with
    | mk r l wt =>
      unfold sqlite_unlock
      simp only [Bool.false_eq_true, if_false]
      split_ifs <;> simp
  | true =>
    have hp : sqlite_lock_pass true t g =
        (true, { g with write_level := g.write_level + 1, write_thread := t }) := by
      unfold sqlite_lock_pass at hadm ⊢
      split_ifs at hadm ⊢ <;> simp_all
    have hcase : (g.write_thread = null_thread ∧ g.read_threads < 1) ∨ g.write_thread = t := by
      unfold sqlite_lock_pass at hadm
      by_contra hc
      simp [hc] at hadm
    rw [hp]
    cases g with
    | mk r l wt =>
      simp only at hcons hcase
      unfold sqlite_unlock
      simp only [if_true, add_sub_cancel_right]
      by_cases hl : l = 0
      · have hwt : wt = null_thread := hcons.2 hl
        simp [hl, hwt]
      · have hwt : wt = t := by
          rcases hcase with ⟨h1, -⟩ | h1
          · exact absurd (hcons.1 h1) hl
          · exact h1
        simp [hl, hwt]

theorem balanced_no_bracket (write : Bool) (t : pthread_t) (w w0 : World)
    (hgate : w0.gate = w.gate) (hcalls : w0.gate_calls = w.gate_calls) :
    balanced_call write t 0 w (some w0) := by
  refine ⟨fun _ => rfl, ?_⟩
  intro w1 h
  simp only [Option.some.injEq] at h
  subst h
  exact ⟨hgate, by simp [hcalls]⟩

/-- An operation that takes the gate once, works in between without touching the gate and
releases it in the same mode is balanced with one bracket. -/
theorem balanced_bracket (write : Bool) (t : pthread_t) (w w0 : World)
    (body : World → World)
    (hbody : ∀ w2, (body w2).gate = (sqlite_unlock write w2.gate).1 ∧
      (body w2).gate_calls = w2.gate_calls ++ [.unlock t write])
    (hgate : w0.gate = w.gate) (hcalls : w0.gate_calls = w.gate_calls)
    (hcons : w.gate.write_thread = null_thread ↔ w.gate.write_level = 0) :
    balanced_call write t 1 w ((w0.lock write t).map body) := by
  unfold balanced_call World.lock
  rw [hgate]
  by_cases hadm : (sqlite_lock_pass write t w.gate).1 = true
  · simp only [hadm, if_true, Option.map_some', Option.isSome_some, implies_true,
      Option.some.injEq, true_and]
    intro w1 h
    subst h
    obtain ⟨h1, h2⟩ := hbody { w0 with gate := (sqlite_lock_pass write t w.gate).2,
                                         gate_calls := w0.gate_calls ++ [.lock t write] }
    rw [h1, h2]
    simp only
    refine ⟨bracket_gate write t w.gate hcons hadm, ?_⟩
    simp [hcalls]
  · simp [hadm]

/-- The gate is not touched while the handle is obtained, and a handle is obtained exactly
when the thread has a usable handle. -/
theorem conn_split (C : Consts) (t : pthread_t) (e : Env) (w : World) :
    ∃ oc w0, get_sqlite_connection C t e w = (oc, w0) ∧ w0.gate = w.gate ∧
      w0.gate_calls = w.gate_calls ∧ (oc.isSome = true ↔ usable_handle C t e w) := by
  refine ⟨(get_sqlite_connection C t e w).1, (get_sqlite_connection C t e w).2, rfl, ?_, ?_,
    Iff.rfl⟩
  · rcases get_sqlite_connection_cases C t e w with
      ⟨c, -, h⟩ | ⟨-, -, h⟩ | ⟨c, -, -, -, h⟩ <;>
      first | (rw [h]; rfl) | rw [h]
  · rcases get_sqlite_connection_cases C t e w with
      ⟨c, -, h⟩ | ⟨-, -, h⟩ | ⟨c, -, -, -, h⟩ <;>
      first | (rw [h]; rfl) | rw [h]


/-- The reload takes and releases the gate twice, in read mode. -/
theorem balanced_two_brackets (C : Consts) (t : pthread_t) (e : Env) (w w0 : World)
    (hgate : w0.gate = w.gate) (hcalls : w0.gate_calls = w.gate_calls)
    (hcons : w.gate.write_thread = null_thread ↔ w.gate.write_level = 0) :
    balanced_call false t 2 w
      ((w0.lock false t).bind fun w2 =>
        (World.lock false t
          { World.unlock false t { w2 with live := reread_origins C e.fault w2.db w2.live } with
            live := reread_defaults (reread_origins C e.fault w2.db w2.live) }).map
          fun w3 =>
            World.unlock false t { w3 with live := reread_options C e.fault2 w3.db w3.live }) := by
  unfold balanced_call
  by_cases hadm : (sqlite_lock_pass false t w.gate).1 = true
  · have hb := bracket_gate false t w.gate hcons hadm
    have hadm2 : (sqlite_lock_pass false t
        (sqlite_unlock false (sqlite_lock_pass false t w.gate).2).1).1 = true := by
      rw [hb]; exact hadm
    simp only [World.lock, World.unlock, hgate, hadm, if_true, Option.some_bind, hadm2,
      Option.map_some', Option.isSome_some, implies_true, Option.some.injEq, true_and]
    intro w1 h
    subst h
    simp only
    refine ⟨?_, ?_⟩
    · rw [hb, hb]
    · simp [hcalls]
  · rw [← hgate] at hadm
    simp [World.lock, hadm, hgate ▸ hadm]

/-- C22. Gate bracketing is balanced.  The gate of the state `w` is in a state reached
from the idle gate.  For every operation of the driver table, every argument and every
behaviour of the surroundings and of the backend (no handle, a statement that is not
prepared, a step that fails part-way through the rows, no fault): the operation returns
when the gate admits the thread in the mode of the operation, and when it has returned
the variables `read_threads`, `write_level` and `write_thread` have the values they had
before the call, and the calls made on the gate are one `sqlite_lock` followed by its
`sqlite_unlock` in the same mode when the thread has got a handle (two such pairs for the
reload), and none when it has not or when the operation returns before it asks for one.
The mode is read for the lookups, the listings and the reload, and write for the upserts
and the deletes. -/
theorem gate_bracketing_balanced (C : Consts) (t : pthread_t) (e : Env) (w : World)
    (evs : List GateEvent) (s : GateSys) (hrun : gate_run evs GateSys.init = some s)
    (hreach : w.gate = s.gate) :
    (∀ sl realm, balanced_call false t (if usable_handle C t e w then 1 else 0) w
      ((sqlite_get_auth_secrets C t sl realm e w).map (fun r => r.2.2))) ∧
    (∀ usname realm key, balanced_call false t (if usable_handle C t e w then 1 else 0) w
      ((sqlite_get_user_key C t usname realm key e w).map (fun r => r.2.2))) ∧
    (∀ usname realm key, balanced_call true t (if usable_handle C t e w then 1 else 0) w
      ((sqlite_set_user_key C t usname realm key e w).map (fun r => r.2))) ∧
    (∀ usname realm, balanced_call true t (if usable_handle C t e w then 1 else 0) w
      ((sqlite_del_user C t usname realm e w).map (fun r => r.2))) ∧
    (∀ realm users realms, balanced_call false t (if usable_handle C t e w then 1 else 0) w
      ((sqlite_list_users C t realm users realms e w).map (fun r => r.2.2.2))) ∧
    (∀ realm secrets realms, balanced_call false t (if usable_handle C t e w then 1 else 0) w
      ((sqlite_list_secrets C t realm secrets realms e w).map (fun r => r.2.2.2))) ∧
    (∀ secret realm, balanced_call true t (if usable_handle C t e w then 1 else 0) w
      ((sqlite_del_secret C t secret realm e w).map (fun r => r.2))) ∧
    (∀ secret realm, balanced_call true t (if usable_handle C t e w then 1 else 0) w
      ((sqlite_set_secret C t secret realm e w).map (fun r => r.2))) ∧
    (∀ origin realm, balanced_call true t (if usable_handle C t e w then 1 else 0) w
      ((sqlite_add_origin C t origin realm e w).map (fun r => r.2))) ∧
    (∀ origin, balanced_call true t (if usable_handle C t e w then 1 else 0) w
      ((sqlite_del_origin C t origin e w).map (fun r => r.2))) ∧
    (∀ realm origins realms, balanced_call false t (if usable_handle C t e w then 1 else 0) w
      ((sqlite_list_origins C t realm origins realms e w).map (fun r => r.2.2.2))) ∧
    (∀ realm value opt,
      balanced_call true t (if 0 < value ∧ usable_handle C t e w then 1 else 0) w
      ((sqlite_set_realm_option_one C t realm value opt e w).map (fun r => r.2))) ∧
    (∀ realm, balanced_call false t (if usable_handle C t e w then 1 else 0) w
      ((sqlite_list_realm_options C t realm e w).map (fun r => r.2))) ∧
    balanced_call false t 0 w (some (sqlite_auth_ping w)) ∧
    (∀ kind list, balanced_call false t (if usable_handle C t e w then 1 else 0) w
      ((sqlite_get_ip_list C t kind list e w).map (fun r => r.2.2))) ∧
    (∀ kind realm ip del, balanced_call true t (if usable_handle C t e w then 1 else 0) w
      ((sqlite_set_permission_ip C t kind realm ip del e w).map (fun r => r.2))) ∧
    balanced_call false t (if usable_handle C t e w then 2 else 0) w
      (sqlite_reread_realms C t e w) ∧
    (∀ key, balanced_call true t (if usable_handle C t e w then 1 else 0) w
      ((sqlite_set_oauth_key C t key e w).map (fun r => r.2))) ∧
    (∀ kid key, balanced_call false t (if usable_handle C t e w then 1 else 0) w
      ((sqlite_get_oauth_key C t kid key e w).map (fun r => r.2.2))) ∧
    (∀ kid, balanced_call true t (if usable_handle C t e w then 1 else 0) w
      ((sqlite_del_oauth_key C t kid e w).map (fun r => r.2))) ∧
    (∀ collect out, balanced_call false t (if usable_handle C t e w then 1 else 0) w
      ((sqlite_list_oauth_keys C t collect out e w).map (fun r => r.2.2))) ∧
    (∀ usname realm pwd,
      balanced_call false t
        (if usname.isSome = true ∧ realm.isSome = true ∧ usable_handle C t e w then 1 else 0) w
      ((sqlite_get_admin_user C t usname realm pwd e w).map (fun r => r.2.2.2))) ∧
    (∀ usname realm pwd, balanced_call true t (if usable_handle C t e w then 1 else 0) w
      ((sqlite_set_admin_user C t usname realm pwd e w).map (fun r => r.2))) ∧
    (∀ usname, balanced_call true t (if usable_handle C t e w then 1 else 0) w
      ((sqlite_del_admin_user C t usname e w).map (fun r => r.2))) ∧
    (∀ no_print, balanced_call false t (if usable_handle C t e w then 1 else 0) w
      ((sqlite_list_admin_users C t no_print e w).map (fun r => r.2))) ∧
    balanced_call false t 0 w (some (sqlite_disconnect t w)) := by
  have hcons : w.gate.write_thread = null_thread ↔ w.gate.write_level = 0 := by
    rw [hreach]; exact gate_consistent_of_run evs s hrun
  refine ⟨?_, ?_, ?_, ?_, ?_, ?_, ?_, ?_, ?_, ?_, ?_, ?_, ?_, ?_, ?_, ?_, ?_, ?_, ?_, ?_, ?_,
    ?_, ?_, ?_, ?_, ?_⟩
  · intro sl realm
    unfold sqlite_get_auth_secrets
    obtain ⟨oc, w0, hg, hgate, hcalls, hus⟩ :=
      conn_split C t e w
    rw [hg]
    cases oc with
    | none =>
      rw [if_neg (fun h => by simpa using hus.2 h)]
      exact balanced_no_bracket false t w w0 hgate hcalls
    | some c =>
      rw [if_pos (hus.1 rfl)]
      simp only [Option.map_map]
      refine balanced_bracket false t w _ _ (fun w2 => ?_) hgate hcalls hcons
      simp only [Function.comp_apply]
      (repeat' split) <;> exact ⟨rfl, rfl⟩
  · intro usname realm key
    unfold sqlite_get_user_key
    obtain ⟨oc, w0, hg, hgate, hcalls, hus⟩ :=
      conn_split C t e w
    rw [hg]
    cases oc with
    | none =>
      rw [if_neg (fun h => by simpa using hus.2 h)]
      exact balanced_no_bracket false t w w0 hgate hcalls
    | some c =>
      rw [if_pos (hus.1 rfl)]
      simp only [lookup_statement, Option.map_map]
      refine balanced_bracket false t w _ _ (fun w2 => ?_) hgate hcalls hcons
      simp only [Function.comp_apply]
      (repeat' split) <;> exact ⟨rfl, rfl⟩
  · intro usname realm key
    unfold sqlite_set_user_key
    obtain ⟨oc, w0, hg, hgate, hcalls, hus⟩ :=
      conn_split C t e { w with donot_print_connection_success := true }
    rw [usable_handle_flag] at hus
    rw [hg]
    cases oc with
    | none =>
      rw [if_neg (fun h => by simpa using hus.2 h)]
      exact balanced_no_bracket true t w w0 hgate hcalls
    | some c =>
      rw [if_pos (hus.1 rfl)]
      simp only [write_statement, Option.map_map]
      refine balanced_bracket true t w _ _ (fun w2 => ?_) hgate hcalls hcons
      simp only [Function.comp_apply]
      (repeat' split) <;> exact ⟨rfl, rfl⟩
  · intro usname realm
    unfold sqlite_del_user
    obtain ⟨oc, w0, hg, hgate, hcalls, hus⟩ :=
      conn_split C t e { w with donot_print_connection_success := true }
    rw [usable_handle_flag] at hus
    rw [hg]
    cases oc with
    | none =>
      rw [if_neg (fun h => by simpa using hus.2 h)]
      exact balanced_no_bracket true t w w0 hgate hcalls
    | some c =>
      rw [if_pos (hus.1 rfl)]
      simp only [write_statement, Option.map_map]
      refine balanced_bracket true t w _ _ (fun w2 => ?_) hgate hcalls hcons
      simp only [Function.comp_apply]
      (repeat' split) <;> exact ⟨rfl, rfl⟩
  · intro realm users realms
    unfold sqlite_list_users
    obtain ⟨oc, w0, hg, hgate, hcalls, hus⟩ :=
      conn_split C t e { w with donot_print_connection_success := true }
    rw [usable_handle_flag] at hus
    rw [hg]
    cases oc with
    | none =>
      rw [if_neg (fun h => by simpa using hus.2 h)]
      exact balanced_no_bracket false t w w0 hgate hcalls
    | some c =>
      rw [if_pos (hus.1 rfl)]
      simp only [list_statement, read_statement, Option.map_map]
      refine balanced_bracket false t w _ _ (fun w2 => ?_) hgate hcalls hcons
      simp only [Function.comp_apply]
      (repeat' split) <;> exact ⟨rfl, rfl⟩
  · intro realm secrets realms
    unfold sqlite_list_secrets
    obtain ⟨oc, w0, hg, hgate, hcalls, hus⟩ :=
      conn_split C t e { w with donot_print_connection_success := true }
    rw [usable_handle_flag] at hus
    rw [hg]
    cases oc with
    | none =>
      rw [if_neg (fun h => by simpa using hus.2 h)]
      exact balanced_no_bracket false t w w0 hgate hcalls
    | some c =>
      rw [if_pos (hus.1 rfl)]
      simp only [list_statement, read_statement, Option.map_map]
      refine balanced_bracket false t w _ _ (fun w2 => ?_) hgate hcalls hcons
      simp only [Function.comp_apply]
      (repeat' split) <;> exact ⟨rfl, rfl⟩
  · intro secret realm
    unfold sqlite_del_secret
    obtain ⟨oc, w0, hg, hgate, hcalls, hus⟩ :=
      conn_split C t e { w with donot_print_connection_success := true }
    rw [usable_handle_flag] at hus
    rw [hg]
    cases oc with
    | none =>
      rw [if_neg (fun h => by simpa using hus.2 h)]
      exact balanced_no_bracket true t w w0 hgate hcalls
    | some c =>
      rw [if_pos (hus.1 rfl)]
      simp only [write_statement, Option.map_map]
      refine balanced_bracket true t w _ _ (fun w2 => ?_) hgate hcalls hcons
      simp only [Function.comp_apply]
      (repeat' split) <;> exact ⟨rfl, rfl⟩
  · intro secret realm
    unfold sqlite_set_secret
    obtain ⟨oc, w0, hg, hgate, hcalls, hus⟩ :=
      conn_split C t e { w with donot_print_connection_success := true }
    rw [usable_handle_flag] at hus
    rw [hg]
    cases oc with
    | none =>
      rw [if_neg (fun h => by simpa using hus.2 h)]
      exact balanced_no_bracket true t w w0 hgate hcalls
    | some c =>
      rw [if_pos (hus.1 rfl)]
      simp only [write_statement, Option.map_map]
      refine balanced_bracket true t w _ _ (fun w2 => ?_) hgate hcalls hcons
      simp only [Function.comp_apply]
      (repeat' split) <;> exact ⟨rfl, rfl⟩
  · intro origin realm
    unfold sqlite_add_origin
    obtain ⟨oc, w0, hg, hgate, hcalls, hus⟩ :=
      conn_split C t e { w with donot_print_connection_success := true }
    rw [usable_handle_flag] at hus
    rw [hg]
    cases oc with
    | none =>
      rw [if_neg (fun h => by simpa using hus.2 h)]
      exact balanced_no_bracket true t w w0 hgate hcalls
    | some c =>
      rw [if_pos (hus.1 rfl)]
      simp only [write_statement, Option.map_map]
      refine balanced_bracket true t w _ _ (fun w2 => ?_) hgate hcalls hcons
      simp only [Function.comp_apply]
      (repeat' split) <;> exact ⟨rfl, rfl⟩
  · intro origin
    unfold sqlite_del_origin
    obtain ⟨oc, w0, hg, hgate, hcalls, hus⟩ :=
      conn_split C t e { w with donot_print_connection_success := true }
    rw [usable_handle_flag] at hus
    rw [hg]
    cases oc with
    | none =>
      rw [if_neg (fun h => by simpa using hus.2 h)]
      exact balanced_no_bracket true t w w0 hgate hcalls
    | some c =>
      rw [if_pos (hus.1 rfl)]
      simp only [write_statement, Option.map_map]
      refine balanced_bracket true t w _ _ (fun w2 => ?_) hgate hcalls hcons
      simp only [Function.comp_apply]
      (repeat' split) <;> exact ⟨rfl, rfl⟩
  · intro realm origins realms
    unfold sqlite_list_origins
    obtain ⟨oc, w0, hg, hgate, hcalls, hus⟩ :=
      conn_split C t e { w with donot_print_connection_success := true }
    rw [usable_handle_flag] at hus
    rw [hg]
    cases oc with
    | none =>
      rw [if_neg (fun h => by simpa using hus.2 h)]
      exact balanced_no_bracket false t w w0 hgate hcalls
    | some c =>
      rw [if_pos (hus.1 rfl)]
      simp only [list_statement, read_statement, Option.map_map]
      refine balanced_bracket false t w _ _ (fun w2 => ?_) hgate hcalls hcons
      simp only [Function.comp_apply]
      (repeat' split) <;> exact ⟨rfl, rfl⟩
  · intro realm value opt
    unfold sqlite_set_realm_option_one
    by_cases hv : value ≤ 0
    · rw [if_pos hv, if_neg (fun h => by omega)]
      exact balanced_no_bracket true t w w rfl rfl
    · rw [if_neg hv]
      have hv1 : 0 < value := by omega
      obtain ⟨oc, w0, hg, hgate, hcalls, hus⟩ :=
        conn_split C t e { w with donot_print_connection_success := true }
      rw [usable_handle_flag] at hus
      rw [hg]
      cases oc with
      | none =>
        rw [if_neg (fun h => by simpa using hus.2 h.2)]
        exact balanced_no_bracket true t w w0 hgate hcalls
      | some c =>
        rw [if_pos ⟨hv1, hus.1 rfl⟩]
        simp only [write_statement, Option.map_map]
        refine balanced_bracket true t w _ _ (fun w2 => ?_) hgate hcalls hcons
        simp only [Function.comp_apply]
        (repeat' split) <;> exact ⟨rfl, rfl⟩
  · intro realm
    unfold sqlite_list_realm_options
    obtain ⟨oc, w0, hg, hgate, hcalls, hus⟩ :=
      conn_split C t e { w with donot_print_connection_success := true }
    rw [usable_handle_flag] at hus
    rw [hg]
    cases oc with
    | none =>
      rw [if_neg (fun h => by simpa using hus.2 h)]
      exact balanced_no_bracket false t w w0 hgate hcalls
    | some c =>
      rw [if_pos (hus.1 rfl)]
      simp only [read_statement, Option.map_map]
      refine balanced_bracket false t w _ _ (fun w2 => ?_) hgate hcalls hcons
      simp only [Function.comp_apply]
      (repeat' split) <;> exact ⟨rfl, rfl⟩
  · exact balanced_no_bracket false t w _ rfl rfl
  · intro kind list
    unfold sqlite_get_ip_list
    obtain ⟨oc, w0, hg, hgate, hcalls, hus⟩ :=
      conn_split C t e { w with donot_print_connection_success := true }
    rw [usable_handle_flag] at hus
    rw [hg]
    cases oc with
    | none =>
      rw [if_neg (fun h => by simpa using hus.2 h)]
      exact balanced_no_bracket false t w w0 hgate hcalls
    | some c =>
      rw [if_pos (hus.1 rfl)]
      simp only [read_statement, Option.map_map]
      refine balanced_bracket false t w _ _ (fun w2 => ?_) hgate hcalls hcons
      simp only [Function.comp_apply]
      (repeat' split) <;> exact ⟨rfl, rfl⟩
  · intro kind realm ip del
    unfold sqlite_set_permission_ip
    obtain ⟨oc, w0, hg, hgate, hcalls, hus⟩ :=
      conn_split C t e { w with donot_print_connection_success := true }
    rw [usable_handle_flag] at hus
    rw [hg]
    cases oc with
    | none =>
      rw [if_neg (fun h => by simpa using hus.2 h)]
      exact balanced_no_bracket true t w w0 hgate hcalls
    | some c =>
      rw [if_pos (hus.1 rfl)]
      simp only [write_statement, Option.map_map]
      refine balanced_bracket true t w _ _ (fun w2 => ?_) hgate hcalls hcons
      simp only [Function.comp_apply]
      (repeat' split) <;> exact ⟨rfl, rfl⟩
  · unfold sqlite_reread_realms
    obtain ⟨oc, w0, hg, hgate, hcalls, hus⟩ :=
      conn_split C t e { w with donot_print_connection_success := true }
    rw [usable_handle_flag] at hus
    rw [hg]
    cases oc with
    | none =>
      rw [if_neg (fun h => by simpa using hus.2 h)]
      exact balanced_no_bracket false t w w0 hgate hcalls
    | some c =>
      rw [if_pos (hus.1 rfl)]
      exact balanced_two_brackets C t e w w0 hgate hcalls hcons
  · intro key
    unfold sqlite_set_oauth_key
    obtain ⟨oc, w0, hg, hgate, hcalls, hus⟩ :=
      conn_split C t e { w with donot_print_connection_success := true }
    rw [usable_handle_flag] at hus
    rw [hg]
    cases oc with
    | none =>
      rw [if_neg (fun h => by simpa using hus.2 h)]
      exact balanced_no_bracket true t w w0 hgate hcalls
    | some c =>
      rw [if_pos (hus.1 rfl)]
      simp only [write_statement, Option.map_map]
      refine balanced_bracket true t w _ _ (fun w2 => ?_) hgate hcalls hcons
      simp only [Function.comp_apply]
      (repeat' split) <;> exact ⟨rfl, rfl⟩
  · intro kid key
    unfold sqlite_get_oauth_key
    obtain ⟨oc, w0, hg, hgate, hcalls, hus⟩ :=
      conn_split C t e w
    rw [hg]
    cases oc with
    | none =>
      rw [if_neg (fun h => by simpa using hus.2 h)]
      exact balanced_no_bracket false t w w0 hgate hcalls
    | some c =>
      rw [if_pos (hus.1 rfl)]
      simp only [lookup_statement, Option.map_map]
      refine balanced_bracket false t w _ _ (fun w2 => ?_) hgate hcalls hcons
      simp only [Function.comp_apply]
      (repeat' split) <;> exact ⟨rfl, rfl⟩
  · intro kid
    unfold sqlite_del_oauth_key
    obtain ⟨oc, w0, hg, hgate, hcalls, hus⟩ :=
      conn_split C t e { w with donot_print_connection_success := true }
    rw [usable_handle_flag] at hus
    rw [hg]
    cases oc with
    | none =>
      rw [if_neg (fun h => by simpa using hus.2 h)]
      exact balanced_no_bracket true t w w0 hgate hcalls
    | some c =>
      rw [if_pos (hus.1 rfl)]
      simp only [write_statement, Option.map_map]
      refine balanced_bracket true t w _ _ (fun w2 => ?_) hgate hcalls hcons
      simp only [Function.comp_apply]
      (repeat' split) <;> exact ⟨rfl, rfl⟩
  · intro collect out
    unfold sqlite_list_oauth_keys
    obtain ⟨oc, w0, hg, hgate, hcalls, hus⟩ :=
      conn_split C t e w
    rw [hg]
    cases oc with
    | none =>
      rw [if_neg (fun h => by simpa using hus.2 h)]
      exact balanced_no_bracket false t w w0 hgate hcalls
    | some c =>
      rw [if_pos (hus.1 rfl)]
      simp only [read_statement, Option.map_map]
      refine balanced_bracket false t w _ _ (fun w2 => ?_) hgate hcalls hcons
      simp only [Function.comp_apply]
      (repeat' split) <;> exact ⟨rfl, rfl⟩
  · intro usname realm pwd
    unfold sqlite_get_admin_user
    cases usname with
    | none =>
      rw [if_neg (fun h => by simp at h)]
      exact balanced_no_bracket false t w w rfl rfl
    | some name =>
    cases realm with
    | none =>
      rw [if_neg (fun h => by simp at h)]
      exact balanced_no_bracket false t w w rfl rfl
    | some rbuf =>
    simp only
    obtain ⟨oc, w0, hg, hgate, hcalls, hus⟩ :=
      conn_split C t e w
    rw [hg]
    cases oc with
    | none =>
      rw [if_neg (fun h => by simpa using hus.2 h.2.2)]
      exact balanced_no_bracket false t w w0 hgate hcalls
    | some c =>
      rw [if_pos ⟨rfl, rfl, hus.1 rfl⟩]
      simp only [lookup_statement, Option.map_map]
      refine balanced_bracket false t w _ _ (fun w2 => ?_) hgate hcalls hcons
      simp only [Function.comp_apply]
      (repeat' split) <;> exact ⟨rfl, rfl⟩
  · intro usname realm pwd
    unfold sqlite_set_admin_user
    obtain ⟨oc, w0, hg, hgate, hcalls, hus⟩ :=
      conn_split C t e { w with donot_print_connection_success := true }
    rw [usable_handle_flag] at hus
    rw [hg]
    cases oc with
    | none =>
      rw [if_neg (fun h => by simpa using hus.2 h)]
      exact balanced_no_bracket true t w w0 hgate hcalls
    | some c =>
      rw [if_pos (hus.1 rfl)]
      simp only [write_statement, Option.map_map]
      refine balanced_bracket true t w _ _ (fun w2 => ?_) hgate hcalls hcons
      simp only [Function.comp_apply]
      (repeat' split) <;> exact ⟨rfl, rfl⟩
  · intro usname
    unfold sqlite_del_admin_user
    obtain ⟨oc, w0, hg, hgate, hcalls, hus⟩ :=
      conn_split C t e { w with donot_print_connection_success := true }
    rw [usable_handle_flag] at hus
    rw [hg]
    cases oc with
    | none =>
      rw [if_neg (fun h => by simpa using hus.2 h)]
      exact balanced_no_bracket true t w w0 hgate hcalls
    | some c =>
      rw [if_pos (hus.1 rfl)]
      simp only [write_statement, Option.map_map]
      refine balanced_bracket true t w _ _ (fun w2 => ?_) hgate hcalls hcons
      simp only [Function.comp_apply]
      (repeat' split) <;> exact ⟨rfl, rfl⟩
  · intro no_print
    unfold sqlite_list_admin_users
    obtain ⟨oc, w0, hg, hgate, hcalls, hus⟩ :=
      conn_split C t e { w with donot_print_connection_success := true }
    rw [usable_handle_flag] at hus
    rw [hg]
    cases oc with
    | none =>
      rw [if_neg (fun h => by simpa using hus.2 h)]
      exact balanced_no_bracket false t w w0 hgate hcalls
    | some c =>
      rw [if_pos (hus.1 rfl)]
      simp only [Option.map_map]
      refine balanced_bracket false t w _ _ (fun w2 => ?_) hgate hcalls hcons
      simp only [Function.comp_apply]
      (repeat' split) <;> exact ⟨rfl, rfl⟩
  · unfold sqlite_disconnect
    cases pthread_getspecific t w <;> exact balanced_no_bracket false t w _ rfl rfl

/-- Instances of C22 in the example process, whose gate is idle: an upsert, a lookup and
the reload, by thread `1`, which has its handle.  The upsert leaves the gate idle and has
made one write-mode `sqlite_lock` and its `sqlite_unlock`; the reload has made two
read-mode pairs. -/
theorem gate_bracketing_balanced_witness :
    (∀ usname realm key,
      balanced_call true 1 (if usable_handle example_consts 1 example_env example_world
        then 1 else 0) example_world
      ((sqlite_set_user_key example_consts 1 usname realm key example_env example_world).map
        (fun r => r.2))) ∧
    (∀ usname realm key,
      balanced_call false 1 (if usable_handle example_consts 1 example_env example_world
        then 1 else 0) example_world
      ((sqlite_get_user_key example_consts 1 usname realm key example_env example_world).map
        (fun r => r.2.2))) ∧
    balanced_call false 1 (if usable_handle example_consts 1 example_env example_world
        then 2 else 0) example_world
      (sqlite_reread_realms example_consts 1 example_env example_world) ∧
    (sqlite_set_user_key example_consts 1 (lit "alice") (lit "example.org") (lit "3132")
        example_env example_world).map (fun r => (r.2.gate, r.2.gate_calls)) =
      some (Gate.idle, [.lock 1 true, .unlock 1 true]) ∧
    (sqlite_reread_realms example_consts 1 example_env example_world).map
        (fun r => (r.gate, r.gate_calls)) =
      some (Gate.idle, [.lock 1 false, .unlock 1 false, .lock 1 false, .unlock 1 false]) :=
  have h := gate_bracketing_balanced example_consts 1 example_env example_world []
    GateSys.init rfl rfl
  ⟨h.2.2.1, h.2.1, h.2.2.2.2.2.2.2.2.2.2.2.2.2.2.2.2.1, by decide, by decide⟩

end DbdSqlite
